import Mathlib

/-!
# S57data.c : geometry store of the OpENCview S-52 renderer

A shallow embedding of `src/S57data.c` and a verification development over it.

Modelling conventions.

* `double` coordinates are exact rationals (`ℚ`): NaN, infinities and rounding are
  outside the model.  The extent and `scamin` of a feature, which the source sets to
  `INFINITY`, are values of `Dbl`.
* A coordinate buffer (`geocoord *`, `pt3 *`) is a `List pt3`; a function that writes
  through the pointer returns the new buffer.  A read or write outside the buffer is
  undefined behaviour in C and makes the embedded function return `none`.
* `guint` variables hold values below `2 ^ 32` and `guint` arithmetic is arithmetic
  modulo `2 ^ 32` (`guintAdd`, `guintSub`, `guintMul`); `int` values obtained from a
  `guint` go through `toInt32`.
* `g_assert(0)` is embedded as in a build with `G_DISABLE_ASSERT`: control falls
  through to the statement that follows it (mostly a `return FALSE`).  `PRINTF` has
  no effect on the state.
* `return_if_null(p)` guards disappear: the embedded functions take values, so the
  arguments are never `NULL`.  Pointers stored in a structure that may be `NULL`
  are `Option`s.  Where an argument is an `Option` (the buffers handed to the
  constructors) the guard is kept: the function is left before any other statement.
* A pointer to another feature is a handle (`GeoRef`); statics of the file (`_S57ID`,
  `silent`, the statics of the projection engine in `PrjState`) are passed in and
  handed back.
* Functions of libraries (`pj_init_plus`, `pj_transform`, `pj_inv`, `g_strdup_printf`,
  `S52_atof`) and constants of headers that are not part of the source
  (`DEG_TO_RAD`, `FP_NAN`, `EMPTY_NUMBER_MARKER`, `S57_OVERLAP_GEO_Z`) are parameters.
* A C string is the `String` of its `char`s before the terminating NUL.
* The file is embedded as compiled with `S52_USE_PROJ`, `S52_USE_C_AGGR_C_ASSO`,
  `S52_USE_SUPP_LINE_OVERLAP` and `S52_USE_WORLD`, and without `S52_USE_GV`.
-/

namespace S57

/-! ## Machine integers -/

/-- Modulus of `guint` (32-bit unsigned) arithmetic. -/
@[irreducible] def GUINT_MOD : Nat := 4294967296

/-- Value of a natural number stored in a `guint`. -/
def guint (n : Nat) : Nat := n % GUINT_MOD

/-- The `guint` sum `a + b`. -/
def guintAdd (a b : Nat) : Nat := (a + b) % GUINT_MOD

/-- The `guint` difference `a - b` of two `guint` values (wraps below zero). -/
def guintSub (a b : Nat) : Nat := if b ≤ a then a - b else a + GUINT_MOD - b

/-- The `guint` product `a * b`. -/
def guintMul (a b : Nat) : Nat := (a * b) % GUINT_MOD

/-- Conversion of a `guint` to `int` (two's complement). -/
def toInt32 (u : Nat) : Int :=
  if u % GUINT_MOD < 2147483648 then ((u % GUINT_MOD : Nat) : Int)
  else ((u % GUINT_MOD : Nat) : Int) - 4294967296

/-- Conversion of an `int` to `guint`. -/
def ofInt32 (i : Int) : Nat := (i % 4294967296).toNat

/-- The statement `i += next` for `guint i` and `int next`. -/
def guintAddInt (i : Nat) (next : Int) : Nat := (((i : Int) + next) % 4294967296).toNat

/-! ## Coordinates -/

/-- Coordinate triple `pt3` (`x` longitude, `y` latitude, `z` elevation). -/
structure pt3 where
  x : ℚ
  y : ℚ
  z : ℚ
deriving DecidableEq, Repr

/-- The constant `S57_GEO_TOLERANCE` (`0.00000001`). -/
def S57_GEO_TOLERANCE : ℚ := 1 / 100000000

/-- The GLib macro `ABS(a)`: `((a) < 0) ? -(a) : (a)`. -/
def ABS (a : ℚ) : ℚ := if a < 0 then -a else a

/-- The function `_inLine(A, B, C)`: is BC in line with AC. -/
def _inLine (A B C : pt3) : Bool :=
  if ABS (A.x - C.x) < S57_GEO_TOLERANCE then decide (ABS (B.x - C.x) < S57_GEO_TOLERANCE)
  else if ABS (A.y - C.y) < S57_GEO_TOLERANCE then decide (ABS (B.y - C.y) < S57_GEO_TOLERANCE)
  else decide (ABS (ABS ((A.y - C.y) * (B.x - C.x)) - ABS ((B.y - C.y) * (A.x - C.x)))
                < S57_GEO_TOLERANCE)

/-! ## `_delInLineSeg` -/

/-- The call `memmove(&buf[dst], &buf[src], sizeof(pt3) * cnt)` on a buffer of `pt3`;
`none` when a range leaves the buffer. -/
def memmove (buf : List pt3) (dst src cnt : Nat) : Option (List pt3) :=
  if src + cnt ≤ buf.length ∧ dst + cnt ≤ buf.length then
    some (buf.take dst ++ (buf.drop src).take cnt ++ buf.drop (dst + cnt))
  else none

/-- Variables of the loop of `_delInLineSeg`: `k` is the offset of the moving pointer
`p` from the start of the buffer, `j` the running vertex count, `buf` the buffer. -/
structure DelState where
  k : Nat
  j : Nat
  buf : List pt3
deriving DecidableEq, Repr

/-- One iteration (loop index `i`) of the `for` loop of `_delInLineSeg`. -/
def delBody (npt i : Nat) (s : DelState) : Option DelState :=
  match s.buf.get? (s.k + 1), s.buf.get? (s.k + 2) with
  | some p1, some p2 =>
    if p1.z ≠ p2.z then some { s with k := s.k + 1 }
    else
      match s.buf.get? s.k with
      | some p0 =>
        if _inLine p0 p1 p2 = true then
          match memmove s.buf (s.k + 1) (s.k + 2) (guintSub (guintSub npt i) 2) with
          | some b => some { s with buf := b, j := guintSub s.j 1 }
          | none => none
        else some { s with k := s.k + 1 }
      | none => none
  | _, _ => none

/-- The loop `for (guint i = ...; i < npt-2; ++i)`, with `n` iterations left. -/
def delLoop (npt : Nat) : Nat → Nat → DelState → Option DelState
  | 0, _, s => some s
  | n + 1, i, s =>
    match delBody npt i s with
    | some s1 => delLoop npt n (i + 1) s1
    | none => none

/-- The function `_delInLineSeg(npt, ppt)`: returns the new count `j` and the buffer. -/
def _delInLineSeg (npt : Nat) (ppt : List pt3) : Option (Nat × List pt3) :=
  match delLoop npt (guintSub npt 2) 0 { k := 0, j := guint npt, buf := ppt } with
  | some s => some (s.j, s.buf)
  | none => none

/-! ## Primitive holder -/

/-- The record `_prim` (data for `glDrawArrays`).  `count` is `none` as long as it has
not been assigned: the local `_prim p` of `S57_begPrim` leaves it uninitialised. -/
structure _prim where
  mode : Int
  first : Int
  count : Option Int
deriving DecidableEq, Repr

/-- A `GArray`: its elements (`len` is their number) and whether its `data` pointer
is non-`NULL`. -/
structure GArray (α : Type) where
  data : List α
  allocated : Bool
deriving DecidableEq, Repr

/-- The field `len` of a `GArray`. -/
def GArray.len {α : Type} (a : GArray α) : Nat := a.data.length

/-- The call `g_array_new(FALSE, FALSE, size)`: no element, `data` is `NULL`. -/
def g_array_new {α : Type} : GArray α := { data := [], allocated := false }

/-- The call `g_array_append_val(a, v)`. -/
def g_array_append_val {α : Type} (a : GArray α) (v : α) : GArray α :=
  { data := a.data ++ [v], allocated := true }

/-- The call `g_array_set_size(a, length)` for a `length` that does not exceed `len`
(the source passes 0): the allocation is kept. -/
def g_array_set_size {α : Type} (a : GArray α) (length : Nat) : GArray α :=
  { a with data := a.data.take length }

/-- Whether the address `&g_array_index(a, t, i)`, that is `a->data + i`, is `NULL`. -/
def elemPtrIsNull {α : Type} (a : GArray α) (i : Nat) : Bool := !a.allocated && i == 0

/-- The structure `_S57_prim`: descriptors, vertices (3 `vertex_t` each) and the
display list / buffer handle. -/
structure _S57_prim where
  list : GArray _prim
  vertex : GArray pt3
  DList : Nat
deriving DecidableEq, Repr

/-- The function `S57_initPrim(prim)`: a new holder for `NULL`, else the holder reset. -/
def S57_initPrim (prim : Option _S57_prim) : _S57_prim :=
  match prim with
  | none => { list := g_array_new, vertex := g_array_new, DList := 0 }
  | some p => { p with list := g_array_set_size p.list 0, vertex := g_array_set_size p.vertex 0 }

/-- The function `S57_begPrim(prim, mode)` (it returns `TRUE`): the holder after it. -/
def S57_begPrim (prim : _S57_prim) (mode : Int) : _S57_prim :=
  { prim with
    list := g_array_append_val prim.list
      { mode := mode, first := toInt32 prim.vertex.len, count := none } }

/-- The function `S57_endPrim(prim)`: the returned `TRUE`/`FALSE` and the holder after
it; `none` when `p->count` is written outside the descriptor array. -/
def S57_endPrim (prim : _S57_prim) : Option (Bool × _S57_prim) :=
  if elemPtrIsNull prim.list (guintSub prim.list.len 1) = true then some (false, prim)
  else
    match prim.list.data.get? (guintSub prim.list.len 1) with
    | some p =>
      some (true,
        { prim with
          list := { prim.list with
            data := prim.list.data.set (guintSub prim.list.len 1)
              { p with count := some (toInt32 (guintSub prim.vertex.len (ofInt32 p.first))) } } })
    | none => none

/-- The function `S57_addPrimVertex(prim, ptr)` (it returns `TRUE`): the holder after
it. -/
def S57_addPrimVertex (prim : _S57_prim) (ptr : pt3) : _S57_prim :=
  { prim with vertex := g_array_append_val prim.vertex ptr }

/-- The function `S57_getPrimIdx(prim, i, &mode, &first, &count)`: the descriptor
written to the three out-parameters, `none` for the return value `FALSE`. -/
def S57_getPrimIdx (prim : _S57_prim) (i : Nat) : Option _prim :=
  if i ≥ prim.list.len then none
  else if elemPtrIsNull prim.list i = true then none
  else prim.list.data.get? i

/-! ## Features -/

/-- The enumeration `S57_Obj_t` (declared in `S57data.h`), restricted to the four
kinds the source uses. -/
inductive S57_Obj_t where
  | S57__META_T
  | S57_POINT_T
  | S57_LINES_T
  | S57_AREAS_T
deriving DecidableEq, Repr

/-- A `double` that can be infinite or NaN (extent, scamin). -/
inductive Dbl where
  | nan
  | negInf
  | fin (q : ℚ)
  | posInf
deriving DecidableEq, Repr

/-- The structure `ObjExt_t` (declared in `S57data.h`): west, south, east, north. -/
structure ObjExt_t where
  W : Dbl := Dbl.fin 0
  S : Dbl := Dbl.fin 0
  E : Dbl := Dbl.fin 0
  N : Dbl := Dbl.fin 0
deriving DecidableEq, Repr

/-- The structure `pt2` (declared in `S57data.h`). -/
structure pt2 where
  x : ℚ
  y : ℚ
deriving DecidableEq, Repr

/-- A pointer to another feature (`S57_geo *`), as an opaque handle; `NULL` is the
`none` of `Option GeoRef`. -/
abbrev GeoRef := Nat

/-- The structure `_S57_geo`; the defaults are the zeroes of `g_new0`.  A `GData`
attribute list is the list of its (name, value) pairs, `NULL` being the empty list;
the union `touch` of four pointers is its one pointer-sized slot. -/
structure _S57_geo where
  S57ID : Nat := 0
  name : String := ""
  obj_t : S57_Obj_t := S57_Obj_t.S57__META_T
  geoSize : Nat := 0
  pointxyz : Option (List pt3) := none
  linexyznbr : Nat := 0
  linexyz : Option (List pt3) := none
  ringnbr : Nat := 0
  ringxyznbr : Option (List Nat) := none
  ringxyz : Option (List (List pt3)) := none
  ext : ObjExt_t := {}
  prim : Option _S57_prim := none
  attribs : List (String × String) := []
  relation : Option GeoRef := none
  touch : Option GeoRef := none
  scamin : Dbl := Dbl.fin 0
  name_rcidstr : Option String := none
  geoOwner : Option GeoRef := none
  centroidIdx : Nat := 0
  centroid : Option (GArray pt2) := none
  nextPoly : Option GeoRef := none
  highlight : Bool := false
deriving DecidableEq, Repr

/-- The `LINE` part of `_simplifyGEO`. -/
def simplifyLine (geo : _S57_geo) : Option _S57_geo :=
  if geo.obj_t = S57_Obj_t.S57_LINES_T then
    if 2 < geo.linexyznbr then
      match geo.linexyz with
      | some buf =>
        match _delInLineSeg geo.linexyznbr buf with
        | some (npt, buf1) => some { geo with linexyznbr := npt, linexyz := some buf1 }
        | none => none
      | none => none
    else some geo
  else some geo

/-- The ring loop of `_simplifyGEO` from ring `i` on, with `n` rings left. -/
def simplifyRings : Nat → Nat → List Nat → List (List pt3) → Option (List Nat × List (List pt3))
  | 0, _, nbr, xyz => some (nbr, xyz)
  | n + 1, i, nbr, xyz =>
    match nbr.get? i with
    | some c =>
      if 3 < c then
        match xyz.get? i with
        | some buf =>
          match _delInLineSeg c buf with
          | some (npt, buf1) => simplifyRings n (i + 1) (nbr.set i npt) (xyz.set i buf1)
          | none => none
        | none => none
      else simplifyRings n (i + 1) nbr xyz
    | none => none

/-- The `AREA` part of `_simplifyGEO`. -/
def simplifyArea (geo : _S57_geo) : Option _S57_geo :=
  if geo.obj_t = S57_Obj_t.S57_AREAS_T then
    if geo.ringnbr = 0 then some geo
    else
      match geo.ringxyznbr, geo.ringxyz with
      | some nbr, some xyz =>
        match simplifyRings geo.ringnbr 0 nbr xyz with
        | some (nbr1, xyz1) => some { geo with ringxyznbr := some nbr1, ringxyz := some xyz1 }
        | none => none
      | _, _ => none
  else some geo

/-- The function `_simplifyGEO(geo)` (it always returns `TRUE`; the result is the
feature after the call). -/
def _simplifyGEO (geo : _S57_geo) : Option _S57_geo :=
  match simplifyLine geo with
  | some g => simplifyArea g
  | none => none

/-! ## `S57_getGeoData` -/

/-- Return value and out-parameters of `S57_getGeoData`: `ret` is the returned
`TRUE`/`FALSE`, `npt` the value left in `*npt`, `ppt` the buffer `*ppt` points to
(`none` when `*ppt` was not assigned). -/
structure GeoData where
  ret : Bool
  npt : Nat
  ppt : Option (List pt3)
deriving DecidableEq, Repr

/-- The `switch (geo->obj_t)` of `S57_getGeoData`: the values given to `*npt` and
`*ppt`; `none` when `ringxyznbr[ringNo]` or `ringxyz[ringNo]` is read outside its
array or through a `NULL` pointer. -/
def geoDataSwitch (geo : _S57_geo) (ringNo : Nat) : Option (Nat × Option (List pt3)) :=
  match geo.obj_t with
  | S57_Obj_t.S57__META_T => some (0, none)
  | S57_Obj_t.S57_POINT_T =>
    match geo.pointxyz with
    | some p => some (1, some p)
    | none => some (0, none)
  | S57_Obj_t.S57_LINES_T =>
    match geo.linexyz with
    | some l => some (geo.linexyznbr, some l)
    | none => some (0, none)
  | S57_Obj_t.S57_AREAS_T =>
    match geo.ringxyznbr with
    | some nbr =>
      match nbr.get? ringNo, geo.ringxyz with
      | some c, some xyz =>
        match xyz.get? ringNo with
        | some b => some (c, some b)
        | none => none
      | _, _ => none
    | none => some (0, none)

/-- The function `S57_getGeoData(geo, ringNo, &npt, &ppt)`. -/
def S57_getGeoData (geo : _S57_geo) (ringNo : Nat) : Option GeoData :=
  if geo.obj_t = S57_Obj_t.S57_AREAS_T ∧ geo.ringnbr < ringNo then
    some { ret := false, npt := 0, ppt := none }
  else
    match geoDataSwitch geo ringNo with
    | none => none
    | some (npt, ppt) =>
      if ringNo = 0 ∧ npt < geo.geoSize then some { ret := false, npt := npt, ppt := ppt }
      else if npt = 0 then some { ret := false, npt := npt, ppt := ppt }
      else some { ret := true, npt := npt, ppt := ppt }

/-- Write-through of the pointer `S57_getGeoData(geo, 0, ..)` hands out: the feature
whose primary buffer is `buf`. -/
def putGeoData (geo : _S57_geo) (buf : List pt3) : _S57_geo :=
  match geo.obj_t with
  | S57_Obj_t.S57__META_T => geo
  | S57_Obj_t.S57_POINT_T => { geo with pointxyz := some buf }
  | S57_Obj_t.S57_LINES_T => { geo with linexyz := some buf }
  | S57_Obj_t.S57_AREAS_T =>
    match geo.ringxyz with
    | some xyz => { geo with ringxyz := some (xyz.set 0 buf) }
    | none => geo

/-! ## `S57_markOverlapGeo` -/

/-- The read `ppt[d]` of a coordinate buffer seen as `double *`. -/
def dblAt (ppt : List pt3) (d : Nat) : Option ℚ :=
  match ppt.get? (d / 3) with
  | some p => some (if d % 3 = 0 then p.x else if d % 3 = 1 then p.y else p.z)
  | none => none

/-- The write `ppt[d] = v` on a coordinate buffer seen as `double *`. -/
def dblSet (ppt : List pt3) (d : Nat) (v : ℚ) : Option (List pt3) :=
  match ppt.get? (d / 3) with
  | some p =>
    some (ppt.set (d / 3)
      (if d % 3 = 0 then { p with x := v } else if d % 3 = 1 then { p with y := v }
       else { p with z := v }))
  | none => none

/-- The test `ppt[a] == pptEdge[b] && ppt[a+1] == pptEdge[b+1]`. -/
def xyEq (ppt : List pt3) (a : Nat) (pptEdge : List pt3) (b : Nat) : Option Bool :=
  match dblAt ppt a, dblAt pptEdge b with
  | some u, some v =>
    if u = v then
      match dblAt ppt (guintAdd a 1), dblAt pptEdge (b + 1) with
      | some u1, some v1 => some (decide (u1 = v1))
      | _, _ => none
    else some false
  | _, _ => none

/-- How one iteration of the search loop ends: `break` with `next` and `i`, or the end
of the body with the (possibly reassigned) loop variable `i`. -/
inductive SearchStep where
  | brk (next : Int) (i : Nat)
  | cont (i : Nat)
deriving DecidableEq, Repr

/-- The test `ppt[(i-1)*3] == pptEdge[3] && ppt[(i-1)*3+1] == pptEdge[4]`. -/
def overlapBack (ppt pptEdge : List pt3) (i : Nat) : Option Bool :=
  xyEq ppt (guintMul (guintSub i 1) 3) pptEdge 3

/-- The part of the loop body from `find if folowing point is ahead` on. -/
def overlapAhead (npt : Nat) (ppt pptEdge : List pt3) (i : Nat) : Option SearchStep :=
  match xyEq ppt (guintMul (guintAdd i 1) 3) pptEdge 3 with
  | none => none
  | some true => some (SearchStep.brk 1 i)
  | some false =>
    match overlapBack ppt pptEdge (if i = 0 then guintSub npt 1 else i) with
    | none => none
    | some true => some (SearchStep.brk (-1) (if i = 0 then guintSub npt 1 else i))
    | some false => some (SearchStep.cont (if i = 0 then guintSub npt 1 else i))

/-- The body of the search loop of `S57_markOverlapGeo` for loop variable `i`. -/
def overlapBody (npt : Nat) (ppt pptEdge : List pt3) (i : Nat) : Option SearchStep :=
  match xyEq ppt (guintMul i 3) pptEdge 0 with
  | none => none
  | some false => some (SearchStep.cont i)
  | some true =>
    if i = guintSub npt 1 then
      match overlapBack ppt pptEdge i with
      | none => none
      | some true => some (SearchStep.brk (-1) i)
      | some false => overlapAhead npt ppt pptEdge i
    else overlapAhead npt ppt pptEdge i

/-- The loop `for (i = 0; i < npt; ++i)`, started at `i`, returning `next` and `i` as
they stand after the loop.  Every iteration increases `i`, so `npt` iterations are
enough; the first argument bounds the number of iterations. -/
def overlapSearch (npt : Nat) (ppt pptEdge : List pt3) : Nat → Nat → Option (Int × Nat)
  | 0, i => if i < npt then none else some (0, i)
  | fuel + 1, i =>
    if i < npt then
      match overlapBody npt ppt pptEdge i with
      | none => none
      | some (SearchStep.brk next i1) => some (next, i1)
      | some (SearchStep.cont i1) => overlapSearch npt ppt pptEdge fuel (guintAdd i1 1)
    else some (0, i)

/-- The marking loop `for (guint j = ...; j < nptEdge; ++j)`, with `n` iterations left:
`ppt[i*3 + 2] = -S57_OVERLAP_GEO_Z; i += next;`. -/
def markLoop (S57_OVERLAP_GEO_Z : ℚ) (next : Int) : Nat → Nat → List pt3 → Option (List pt3)
  | 0, _, ppt => some ppt
  | n + 1, i, ppt =>
    match dblSet ppt (guintAdd (guintMul i 3) 2) (-S57_OVERLAP_GEO_Z) with
    | some ppt1 => markLoop S57_OVERLAP_GEO_Z next n (guintAddInt i next) ppt1
    | none => none

/-- The vertex indices `i` the marking loop goes through, in order. -/
def markIndices (next : Int) : Nat → Nat → List Nat
  | 0, _ => []
  | n + 1, i => i :: markIndices next n (guintAddInt i next)

/-- The function `S57_markOverlapGeo(geo, geoEdge)`: the returned `TRUE`/`FALSE` and
the owner `geo` after the call.  The constant `S57_OVERLAP_GEO_Z` of `S57data.h` is a
parameter. -/
def S57_markOverlapGeo (S57_OVERLAP_GEO_Z : ℚ) (geo geoEdge : _S57_geo) :
    Option (Bool × _S57_geo) :=
  if geo.name = "M_COVR" then some (true, geo)
  else
    match S57_getGeoData geo 0 with
    | none => none
    | some d =>
      if d.ret = false then some (false, geo)
      else
        match S57_getGeoData geoEdge 0 with
        | none => none
        | some e =>
          if e.ret = false then some (false, geo)
          else
            match d.ppt, e.ppt with
            | some ppt, some pptEdge =>
              match overlapSearch d.npt ppt pptEdge d.npt 0 with
              | none => none
              | some (next, i) =>
                if next = 0 then some (false, geo)
                else if next = -1 ∧ toInt32 (guintSub (guintAdd i 1) e.npt) < 0 then
                  some (false, geo)
                else if next = 1 ∧ guintAdd e.npt i > d.npt then some (false, geo)
                else
                  match markLoop S57_OVERLAP_GEO_Z next e.npt i ppt with
                  | some ppt1 => some (true, putGeoData geo ppt1)
                  | none => none
            | _, _ => none

/-! ## List-level description of the compaction -/

/-- The compaction performed by the loop of `_delInLineSeg`, as a recursion on the
vertices that follow the last retained vertex `a`. -/
def compact (a : pt3) : List pt3 → List pt3
  | [] => [a]
  | [b] => [a, b]
  | b :: c :: rest =>
    if b.z ≠ c.z then a :: compact b (c :: rest)
    else if _inLine a b c = true then compact a (c :: rest)
    else a :: compact b (c :: rest)

/-- The visible vertices of a buffer: its first `npt` slots. -/
def visible (npt : Nat) (buf : List pt3) : List pt3 := buf.take npt

/-- Five points lie in this order on one straight line: they are the points of
parameters `tA < tB < tC < tD < tE` of a line with origin `(ox, oy)` and non-zero
direction `(dx, dy)`, which makes them pairwise distinct. -/
def onLineInOrder (A B C D E : pt3) : Prop :=
  ∃ ox oy dx dy tA tB tC tD tE : ℚ,
    (dx ≠ 0 ∨ dy ≠ 0) ∧ tA < tB ∧ tB < tC ∧ tC < tD ∧ tD < tE ∧
    (A.x = ox + tA * dx ∧ A.y = oy + tA * dy) ∧
    (B.x = ox + tB * dx ∧ B.y = oy + tB * dy) ∧
    (C.x = ox + tC * dx ∧ C.y = oy + tC * dy) ∧
    (D.x = ox + tD * dx ∧ D.y = oy + tD * dy) ∧
    (E.x = ox + tE * dx ∧ E.y = oy + tE * dy)

/-- The test under which an iteration of the loop of `_delInLineSeg` removes the
vertex `b` lying between the vertices `a` and `c`. -/
def removable (a b c : pt3) : Bool := decide (b.z = c.z) && _inLine a b c

/-- No vertex of the sequence is removable against its two neighbours. -/
def stable : List pt3 → Prop
  | a :: b :: c :: rest => removable a b c = false ∧ stable (b :: c :: rest)
  | _ => True

/-- The vertex sequence of a Line feature. -/
def lineVerts (geo : _S57_geo) : List pt3 :=
  match geo.linexyz with
  | some buf => visible geo.linexyznbr buf
  | none => []

/-- The vertex sequence of ring `m` of an Area feature. -/
def ringVerts (geo : _S57_geo) (m : Nat) : List pt3 :=
  match geo.ringxyznbr, geo.ringxyz with
  | some nbr, some xyz =>
    match nbr.get? m, xyz.get? m with
    | some c, some buf => visible c buf
    | _, _ => []
  | _, _ => []

/-- The geometry `_simplifyGEO` relies on: counts are `guint` values, a Line that is
simplified has its buffer, an Area has its two parallel ring arrays, and no count
exceeds the length of its buffer. -/
def geoWF (geo : _S57_geo) : Prop :=
  (geo.obj_t = S57_Obj_t.S57_LINES_T →
    geo.linexyznbr < GUINT_MOD ∧
    (2 < geo.linexyznbr → ∃ buf, geo.linexyz = some buf ∧ geo.linexyznbr ≤ buf.length)) ∧
  (geo.obj_t = S57_Obj_t.S57_AREAS_T → 0 < geo.ringnbr →
    ∃ nbr xyz, geo.ringxyznbr = some nbr ∧ geo.ringxyz = some xyz ∧
      nbr.length = geo.ringnbr ∧ xyz.length = geo.ringnbr ∧
      ∀ (m c : Nat) (buf : List pt3), nbr[m]? = some c → xyz[m]? = some buf →
        c ≤ buf.length ∧ c < GUINT_MOD)

/-- The sequence `q` is what one application of the simplifier, run only on sequences
of more than `k` vertices, leaves of the sequence `p`: a subsequence with the same end
vertices, equal to `p` exactly when `p` is too short to be simplified or is stable. -/
def simplifiedFrom (k : Nat) (p q : List pt3) : Prop :=
  q.Sublist p ∧ q.head? = p.head? ∧ q.getLast? = p.getLast? ∧
  (q = p ↔ (p.length ≤ k ∨ stable p))

/-- The guarded call `if (k < c) c = _delInLineSeg(c, buf)` that `_simplifyGEO` makes
for a Line (`k = 2`) and for each ring (`k = 3`). -/
def simplifyPass (k c : Nat) (buf : List pt3) : Option (Nat × List pt3) :=
  if k < c then _delInLineSeg c buf else some (c, buf)

/-- A Line of four vertices `(0,0) (1,1) (3,1) (2,2)` at elevation 0. -/
def zigzagLine : _S57_geo :=
  { obj_t := S57_Obj_t.S57_LINES_T, linexyznbr := 4,
    linexyz := some [⟨0, 0, 0⟩, ⟨1, 1, 0⟩, ⟨3, 1, 0⟩, ⟨2, 2, 0⟩] }

/-- The ring `(0,0) (1,0) (1,1) (0,1)` at elevation 0. -/
def squareRing : List pt3 := [⟨0, 0, 0⟩, ⟨1, 0, 0⟩, ⟨1, 1, 0⟩, ⟨0, 1, 0⟩]

/-- An Area whose only ring is `squareRing`. -/
def squareArea : _S57_geo :=
  { obj_t := S57_Obj_t.S57_AREAS_T, ringnbr := 1, ringxyznbr := some [4],
    ringxyz := some [squareRing] }

/-- A Line (an edge) holding the vertices `l`. -/
def edgeLine (l : List pt3) : _S57_geo :=
  { obj_t := S57_Obj_t.S57_LINES_T, linexyznbr := l.length, linexyz := some l }

/-! ## Spatial predicates -/

/-- The condition under which `S57_isPtInside` toggles `c` for the pair `(p1, p2)`:
`((p1.y>y) != (p2.y>y)) && (x < (p2.x-p1.x) * (y-p1.y) / (p2.y-p1.y) + p1.x)`. -/
def edgeCrosses (p1 p2 : pt3) (x y : ℚ) : Bool :=
  (decide (p1.y > y) != decide (p2.y > y)) &&
    decide (x < (p2.x - p1.x) * (y - p1.y) / (p2.y - p1.y) + p1.x)

/-- The statement `c = !c` on an `int`. -/
def notInt (c : Int) : Int := if c = 0 then 1 else 0

/-- The loop of `S57_isPtInside` for `close == TRUE`, `p1 = v[i]`, `p2 = v[i+1]`, with
`n` iterations left. -/
def insideClose (v : List pt3) (x y : ℚ) : Nat → Nat → Int → Option Int
  | 0, _, c => some c
  | n + 1, i, c =>
    match v.get? i, v.get? (i + 1) with
    | some p1, some p2 =>
      insideClose v x y n (i + 1) (if edgeCrosses p1 p2 x y = true then notInt c else c)
    | _, _ => none

/-- The loop of `S57_isPtInside` for `close != TRUE`, `p1 = v[i]`, `p2 = v[j]`,
`j = i++`, with `n` iterations left. -/
def insideOpen (v : List pt3) (x y : ℚ) : Nat → Nat → Nat → Int → Option Int
  | 0, _, _, c => some c
  | n + 1, i, j, c =>
    match v.get? i, v.get? j with
    | some p1, some p2 =>
      insideOpen v x y n (i + 1) i (if edgeCrosses p1 p2 x y = true then notInt c else c)
    | _, _ => none

/-- The function `S57_isPtInside(npt, pt, close, x, y)`: the returned `int`. -/
def S57_isPtInside (npt : Int) (pt : List pt3) (close : Bool) (x y : ℚ) : Option Int :=
  if npt = 0 then some 0
  else if close = true then insideClose pt x y (npt - 1).toNat 0 0
  else insideOpen pt x y npt.toNat 0 (npt - 1).toNat 0

/-- The function `S57_getObjtype(geo)`. -/
def S57_getObjtype (geo : Option _S57_geo) : S57_Obj_t :=
  match geo with
  | none => S57_Obj_t.S57__META_T
  | some g => g.obj_t

/-- The loop of `S57_touch` over the vertices of `geoA` (`pptA += 3`), with `n`
iterations left. -/
def touchLoop (nptB : Int) (pptB : List pt3) : Nat → List pt3 → Option Bool
  | 0, _ => some false
  | n + 1, pptA =>
    match pptA with
    | p :: rest =>
      match S57_isPtInside nptB pptB true p.x p.y with
      | some c => if c = 1 then some true else touchLoop nptB pptB n rest
      | none => none
    | [] => none

/-- The function `S57_touch(geoA, geoB)`: the returned `TRUE`/`FALSE` together with
the two features after the call (the function has no store through `geoA` or `geoB`:
`S57_getGeoData` writes to the local `npt`/`ppt` only and `S57_isPtInside` reads). -/
def S57_touch (geoA geoB : _S57_geo) : Option (Bool × _S57_geo × _S57_geo) :=
  match S57_getGeoData geoA 0 with
  | none => none
  | some a =>
    if a.ret = false then some (false, geoA, geoB)
    else
      match S57_getGeoData geoB 0 with
      | none => none
      | some b =>
        if b.ret = false then some (false, geoA, geoB)
        else if S57_getObjtype (some geoB) = S57_Obj_t.S57_LINES_T then some (false, geoA, geoB)
        else
          match a.ppt, b.ppt with
          | some pptA, some pptB =>
            match touchLoop (toInt32 b.npt) pptB a.npt pptA with
            | some r => some (r, geoA, geoB)
            | none => none
          | _, _ => none

/-- The effect of one pair on `c`: `if (cond) c = !c`. -/
def tog (b : Bool) (c : Int) : Int := if b = true then notInt c else c

/-- The value of `c` after the pairs `(l[k], l[k+1])` of a list were visited in order
(list-level description of the `close == TRUE` loop). -/
def tglList (x y : ℚ) : List pt3 → Int → Int
  | a :: b :: t, c => tglList x y (b :: t) (tog (edgeCrosses a b x y) c)
  | _, c => c

/-- The value of `c` after the pairs `(l[k+1], l[k])` of a list were visited in order
(list-level description of the `close != TRUE` loop after its first iteration). -/
def tglListRev (x y : ℚ) : List pt3 → Int → Int
  | a :: b :: t, c => tglListRev x y (b :: t) (tog (edgeCrosses b a x y) c)
  | _, c => c

/-- The ring `(0,0) (10,0) (10,10) (0,10)`. -/
def square10 : List pt3 := [⟨0, 0, 0⟩, ⟨10, 0, 0⟩, ⟨10, 10, 0⟩, ⟨0, 10, 0⟩]

/-- An Area whose only ring is `square10`. -/
def square10Area : _S57_geo :=
  { obj_t := S57_Obj_t.S57_AREAS_T, ringnbr := 1, ringxyznbr := some [4],
    ringxyz := some [square10] }

/-- A Point feature at `(5,5)`. -/
def point55 : _S57_geo :=
  { obj_t := S57_Obj_t.S57_POINT_T, pointxyz := some [⟨5, 5, 0⟩] }

/-- A Meta feature as `g_new0` leaves it (no geometry). -/
def metaGeo : _S57_geo := { obj_t := S57_Obj_t.S57__META_T }

/-! ## Constructors and the id counter -/

/-- The extent `(INFINITY, INFINITY, -INFINITY, -INFINITY)` the constructors store. -/
def unsetExt : ObjExt_t := ⟨Dbl.posInf, Dbl.posInf, Dbl.negInf, Dbl.negInf⟩

/-- The function `S57_setPOINT(xyz)`.  The static counter `_S57ID` is passed in and
handed back: the result is the feature returned (`none` when `return_if_null(xyz)`
leaves the function) and the value of the counter after the call (`_S57ID++` on an
`unsigned int`). -/
def S57_setPOINT (_S57ID : Nat) (xyz : Option (List pt3)) : Option _S57_geo × Nat :=
  match xyz with
  | none => (none, _S57ID)
  | some p =>
    (some { S57ID := _S57ID, obj_t := S57_Obj_t.S57_POINT_T, pointxyz := some p,
            ext := unsetExt, scamin := Dbl.posInf, nextPoly := none },
     guintAdd _S57ID 1)

/-- The function `S57_setLINES(xyznbr, xyz)` (no guard on `xyz`: an Edge may have no
node), with the counter `_S57ID` passed in and handed back. -/
def S57_setLINES (_S57ID : Nat) (xyznbr : Nat) (xyz : Option (List pt3)) :
    Option _S57_geo × Nat :=
  (some { S57ID := _S57ID, obj_t := S57_Obj_t.S57_LINES_T, linexyznbr := xyznbr,
          linexyz := xyz, ext := unsetExt, scamin := Dbl.posInf, nextPoly := none },
   guintAdd _S57ID 1)

/-- The function `S57_setAREAS(ringnbr, ringxyznbr, ringxyz)`, with the counter
`_S57ID` passed in and handed back; `none` when one of the two `return_if_null`
guards leaves the function. -/
def S57_setAREAS (_S57ID : Nat) (ringnbr : Nat) (ringxyznbr : Option (List Nat))
    (ringxyz : Option (List (List pt3))) : Option _S57_geo × Nat :=
  match ringxyznbr with
  | none => (none, _S57ID)
  | some nbr =>
    match ringxyz with
    | none => (none, _S57ID)
    | some xyz =>
      (some { S57ID := _S57ID, obj_t := S57_Obj_t.S57_AREAS_T, ringnbr := ringnbr,
              ringxyznbr := some nbr, ringxyz := some xyz, ext := unsetExt,
              scamin := Dbl.posInf, nextPoly := none },
       guintAdd _S57ID 1)

/-- The function `S57_set_META()`, with the counter `_S57ID` passed in and handed
back. -/
def S57_set_META (_S57ID : Nat) : Option _S57_geo × Nat :=
  (some { S57ID := _S57ID, obj_t := S57_Obj_t.S57__META_T, ext := unsetExt,
          scamin := Dbl.posInf, nextPoly := none },
   guintAdd _S57ID 1)

/-- One call of a constructor, with its arguments. -/
inductive CtorCall where
  | META
  | POINT (xyz : Option (List pt3))
  | LINES (xyznbr : Nat) (xyz : Option (List pt3))
  | AREAS (ringnbr : Nat) (ringxyznbr : Option (List Nat)) (ringxyz : Option (List (List pt3)))
deriving DecidableEq, Repr

/-- The constructor call `c` made when the counter holds `_S57ID`. -/
def construct (c : CtorCall) (_S57ID : Nat) : Option _S57_geo × Nat :=
  match c with
  | CtorCall.META => S57_set_META _S57ID
  | CtorCall.POINT xyz => S57_setPOINT _S57ID xyz
  | CtorCall.LINES n xyz => S57_setLINES _S57ID n xyz
  | CtorCall.AREAS n nbr xyz => S57_setAREAS _S57ID n nbr xyz

/-- A sequence of constructor calls made one after the other from the counter value
`_S57ID`: the features of the successful calls, in order, and the counter at the
end. -/
def constructAll : List CtorCall → Nat → List _S57_geo × Nat
  | [], _S57ID => ([], _S57ID)
  | c :: cs, _S57ID =>
    match construct c _S57ID with
    | (some g, id1) => (g :: (constructAll cs id1).1, (constructAll cs id1).2)
    | (none, id1) => constructAll cs id1

/-! ## Setters -/

/-- The function `S57_setGeoLine(geo, xyznbr, xyz)`: the feature after the call. -/
def S57_setGeoLine (geo : _S57_geo) (xyznbr : Nat) (xyz : Option (List pt3)) : _S57_geo :=
  { geo with obj_t := S57_Obj_t.S57_LINES_T, linexyznbr := xyznbr, linexyz := xyz }

/-- The constant `S57_GEO_NM_LN`. -/
def S57_GEO_NM_LN : Nat := 13

/-- The length `len` that `S57_setName` copies: `int len = strlen(name)` (through
`toInt32`), then `len = (S57_GEO_NM_LN < len) ? S57_GEO_NM_LN : len`. -/
def setNameLen (name : String) : Int :=
  if (S57_GEO_NM_LN : Int) < toInt32 (guint name.length) then (S57_GEO_NM_LN : Int)
  else toInt32 (guint name.length)

/-- The function `S57_setName(geo, name)`: the returned `TRUE` and the feature after the
call.  A string is the list of its `char`s; a negative `len` makes `memcpy` run over
the array (`none`). -/
def S57_setName (geo : _S57_geo) (name : String) : Option (Bool × _S57_geo) :=
  if setNameLen name < 0 then none
  else some (true, { geo with name := String.mk (name.toList.take (setNameLen name).toNat) })

/-- The function `S57_getName(geo)`. -/
def S57_getName (geo : _S57_geo) : String := geo.name

/-- The function `S57_initPrimGeo(geo)`: the feature after the call. -/
def S57_initPrimGeo (geo : _S57_geo) : _S57_geo :=
  { geo with prim := some (S57_initPrim geo.prim) }

/-- The function `S57_donePrimGeo(geo)`: the feature after the call. -/
def S57_donePrimGeo (geo : _S57_geo) : _S57_geo :=
  match geo.prim with
  | some _ => { geo with prim := none }
  | none => geo

/-- The function `S57_setExt(geo, W, S, E, N)`: the returned `TRUE` and the feature
after the call. -/
def S57_setExt (geo : _S57_geo) (W S E N : Dbl) : Bool × _S57_geo :=
  (true, { geo with ext := ⟨W, S, E, N⟩ })

/-- The C library test `isinf(d)`. -/
def isinf (d : Dbl) : Bool :=
  match d with
  | Dbl.negInf => true
  | Dbl.posInf => true
  | _ => false

/-- The function `S57_getExt(geo)`: the returned extent and the feature after the
call. -/
def S57_getExt (geo : _S57_geo) : ObjExt_t × _S57_geo :=
  if isinf geo.ext.W = true then
    (⟨Dbl.negInf, Dbl.negInf, Dbl.posInf, Dbl.posInf⟩,
     { geo with ext := ⟨Dbl.negInf, Dbl.negInf, Dbl.posInf, Dbl.posInf⟩ })
  else (geo.ext, geo)

/-- The GLib call `g_datalist_id_get_data(&list, q)`, the quark `q` being the name. -/
def g_datalist_id_get_data (l : List (String × String)) (q : String) : Option String :=
  match l.find? (fun e => e.1 == q) with
  | some e => some e.2
  | none => none

/-- The GLib call `g_datalist_id_set_data_full(&list, q, value, free)` for a
non-`NULL` value: the value of an existing key is replaced, a new key is added. -/
def g_datalist_id_set_data_full (l : List (String × String)) (q value : String) :
    List (String × String) :=
  if l.any (fun e => e.1 == q) = true then
    l.map (fun e => if e.1 = q then (q, value) else e)
  else l ++ [(q, value)]

/-- The function `S57_getAttVal(geo, att_name)`: the returned string (`none` for
`NULL`) and the value of its static `silent` after the call.  The static `silent` is
passed in; `EMPTY_NUMBER_MARKER` is declared outside this file. -/
def S57_getAttVal (EMPTY_NUMBER_MARKER : String) (silent : Bool) (geo : _S57_geo)
    (att_name : String) : Option String × Bool :=
  match g_datalist_id_get_data geo.attribs att_name with
  | none => (none, silent)
  | some att =>
    if att = EMPTY_NUMBER_MARKER then (none, silent)
    else if silent = false ∧ att.length = 0 then (none, true)
    else (some att, silent)

/-- The function `S57_setAtt(geo, name, val)`: the feature after the call (the
returned pointer is its `attribs`). -/
def S57_setAtt (geo : _S57_geo) (name val : String) : _S57_geo :=
  if geo.name = "Edge" ∧ name = "RCID" then
    { geo with name_rcidstr := some val,
               attribs := g_datalist_id_set_data_full geo.attribs name val }
  else { geo with attribs := g_datalist_id_set_data_full geo.attribs name val }

/-- The function `S57_setTouchTOPMAR(geo, touch)`: the returned `TRUE` and the feature
after the call.  Its live debug block reads `touch->name` first, so a `NULL` `touch`
is a `NULL` dereference (`none`); the name only selects what is printed. -/
def S57_setTouchTOPMAR (geo : _S57_geo) (touch : Option GeoRef) : Option (Bool × _S57_geo) :=
  match touch with
  | none => none
  | some t => some (true, { geo with touch := some t })

/-- The function `S57_getTouchTOPMAR(geo)`. -/
def S57_getTouchTOPMAR (geo : _S57_geo) : Option GeoRef := geo.touch

/-- The function `S57_setTouchLIGHTS(geo, touch)`: the returned `TRUE` and the feature
after the call. -/
def S57_setTouchLIGHTS (geo : _S57_geo) (touch : Option GeoRef) : Bool × _S57_geo :=
  (true, { geo with touch := touch })

/-- The function `S57_getTouchLIGHTS(geo)`. -/
def S57_getTouchLIGHTS (geo : _S57_geo) : Option GeoRef := geo.touch

/-- The function `S57_setTouchDEPARE(geo, touch)`: the returned `TRUE` and the feature
after the call. -/
def S57_setTouchDEPARE (geo : _S57_geo) (touch : Option GeoRef) : Bool × _S57_geo :=
  (true, { geo with touch := touch })

/-- The function `S57_getTouchDEPARE(geo)`. -/
def S57_getTouchDEPARE (geo : _S57_geo) : Option GeoRef := geo.touch

/-- The function `S57_setTouchDEPVAL(geo, touch)`: the returned `TRUE` and the feature
after the call. -/
def S57_setTouchDEPVAL (geo : _S57_geo) (touch : Option GeoRef) : Bool × _S57_geo :=
  (true, { geo with touch := touch })

/-- The function `S57_getTouchDEPVAL(geo)`. -/
def S57_getTouchDEPVAL (geo : _S57_geo) : Option GeoRef := geo.touch

/-- The four members of the union `touch`. -/
inductive TouchRole where
  | TOPMAR
  | LIGHTS
  | DEPARE
  | DEPVAL
deriving DecidableEq, Repr

/-- The setter `S57_setTouch<R>(geo, touch)` of role `R`. -/
def setTouch (R : TouchRole) (geo : _S57_geo) (touch : Option GeoRef) :
    Option (Bool × _S57_geo) :=
  match R with
  | TouchRole.TOPMAR => S57_setTouchTOPMAR geo touch
  | TouchRole.LIGHTS => some (S57_setTouchLIGHTS geo touch)
  | TouchRole.DEPARE => some (S57_setTouchDEPARE geo touch)
  | TouchRole.DEPVAL => some (S57_setTouchDEPVAL geo touch)

/-- The getter `S57_getTouch<R>(geo)` of role `R`. -/
def getTouch (R : TouchRole) (geo : _S57_geo) : Option GeoRef :=
  match R with
  | TouchRole.TOPMAR => S57_getTouchTOPMAR geo
  | TouchRole.LIGHTS => S57_getTouchLIGHTS geo
  | TouchRole.DEPARE => S57_getTouchDEPARE geo
  | TouchRole.DEPVAL => S57_getTouchDEPVAL geo

/-- The function `S57_setScamin(geo, scamin)`: the returned value and the feature after
the call. -/
def S57_setScamin (geo : _S57_geo) (scamin : Dbl) : Dbl × _S57_geo :=
  (scamin, { geo with scamin := scamin })

/-- The function `S57_getScamin(geo)`. -/
def S57_getScamin (geo : _S57_geo) : Dbl := geo.scamin

/-- The macro `UNKNOWN`, defined as `FP_NAN`: the integer classification constant of
`<math.h>`, converted to `double` where it is used. -/
def UNKNOWN (FP_NAN : Int) : Dbl := Dbl.fin FP_NAN

/-- The function `S57_resetScamin(geo)`: the returned value, the feature after the call
and the static `silent` of `S57_getAttVal` after it.  `S52_atof` is declared outside
this file. -/
def S57_resetScamin (EMPTY_NUMBER_MARKER : String) (FP_NAN : Int) (S52_atof : String → Dbl)
    (silent : Bool) (geo : _S57_geo) : Dbl × _S57_geo × Bool :=
  match S57_getAttVal EMPTY_NUMBER_MARKER silent geo "SCAMIN" with
  | (none, s) => (UNKNOWN FP_NAN, { geo with scamin := UNKNOWN FP_NAN }, s)
  | (some valstr, s) => (S52_atof valstr, { geo with scamin := S52_atof valstr }, s)

/-- The function `S57_setRelationship(geo, geoRel)` (compiled with
`S52_USE_C_AGGR_C_ASSO`) for a non-`NULL` `geoRel`: the returned `TRUE`/`FALSE` and the
feature after the call. -/
def S57_setRelationship (geo : _S57_geo) (geoRel : GeoRef) : Bool × _S57_geo :=
  match geo.relation with
  | none => (true, { geo with relation := some geoRel })
  | some _ => (false, geo)

/-- The function `S57_getRelationship(geo)`. -/
def S57_getRelationship (geo : _S57_geo) : Option GeoRef := geo.relation

/-- The function `S57_setNextPoly(geo, nextPoly)` (compiled with `S52_USE_WORLD`);
`nextPoly` is given as the pointer and the feature it points to (a feature other than
`geo`).  The result is `geo` and `*nextPoly` after the call; `none` when
`nextPoly->nextPoly` is written through a `NULL` pointer. -/
def S57_setNextPoly (geo : _S57_geo) (nextPoly : Option (GeoRef × _S57_geo)) :
    Option (_S57_geo × Option _S57_geo) :=
  match geo.nextPoly with
  | some old =>
    match nextPoly with
    | some (r, np) => some ({ geo with nextPoly := some r }, some { np with nextPoly := some old })
    | none => none
  | none =>
    match nextPoly with
    | some (r, np) => some ({ geo with nextPoly := some r }, some np)
    | none => some ({ geo with nextPoly := none }, none)

/-- The function `S57_getNextPoly(geo)`. -/
def S57_getNextPoly (geo : _S57_geo) : Option GeoRef := geo.nextPoly

/-- The function `S57_delNextPoly(geo)`: `chain` lists `geo` and the features reached
from it by following `nextPoly`; the result lists them after the call. -/
def S57_delNextPoly (chain : List _S57_geo) : List _S57_geo :=
  chain.map (fun g => { g with nextPoly := none })

/-- The function `S57_getGeoSize(geo)`. -/
def S57_getGeoSize (geo : _S57_geo) : Nat := geo.geoSize

/-- The function `S57_setGeoSize(geo, size)`: the returned `guint` (0 is `FALSE`) and
the feature after the call; `none` when `ringxyznbr[0]` is read through a `NULL`
pointer or outside the array. -/
def S57_setGeoSize (geo : _S57_geo) (size : Nat) : Option (Nat × _S57_geo) :=
  match geo.obj_t with
  | S57_Obj_t.S57_POINT_T => if size > 1 then some (0, geo) else some (size, { geo with geoSize := size })
  | S57_Obj_t.S57_LINES_T =>
    if size > geo.linexyznbr then some (0, geo) else some (size, { geo with geoSize := size })
  | S57_Obj_t.S57_AREAS_T =>
    match geo.ringxyznbr with
    | some nbr =>
      match nbr.get? 0 with
      | some c => if size > c then some (0, geo) else some (size, { geo with geoSize := size })
      | none => none
    | none => none
  | S57_Obj_t.S57__META_T => some (0, geo)

/-- The function `S57_setEdgeOwner(geoEdge, geoOwner)`: the feature after the call. -/
def S57_setEdgeOwner (geoEdge : _S57_geo) (geoOwner : Option GeoRef) : _S57_geo :=
  { geoEdge with geoOwner := geoOwner }

/-- The function `S57_getEdgeOwner(geoEdge)`. -/
def S57_getEdgeOwner (geoEdge : _S57_geo) : Option GeoRef := geoEdge.geoOwner

/-- The function `S57_setHighlight(geo, highlight)`: the returned `TRUE` and the feature
after the call. -/
def S57_setHighlight (geo : _S57_geo) (highlight : Bool) : Bool × _S57_geo :=
  (true, { geo with highlight := highlight })

/-- The function `S57_getHighlight(geo)`. -/
def S57_getHighlight (geo : _S57_geo) : Bool := geo.highlight

/-! ## Centroid store -/

/-- The function `S57_newCentroid(geo)`: the returned `TRUE` and the feature after the
call. -/
def S57_newCentroid (geo : _S57_geo) : Bool × _S57_geo :=
  match geo.centroid with
  | none => (true, { geo with centroid := some g_array_new, centroidIdx := 0 })
  | some a => (true, { geo with centroid := some (g_array_set_size a 0), centroidIdx := 0 })

/-- The function `S57_addCentroid(geo, x, y)`: the returned `TRUE` and the feature after
the call; `none` when `geo->centroid` is `NULL` (GLib is handed a `NULL` array). -/
def S57_addCentroid (geo : _S57_geo) (x y : ℚ) : Option (Bool × _S57_geo) :=
  match geo.centroid with
  | none => none
  | some a => some (true, { geo with centroid := some (g_array_append_val a ⟨x, y⟩) })

/-- The function `S57_getNextCent(geo, &x, &y)`: the returned `TRUE`/`FALSE`, the point
written to `*x`, `*y` (`none` when they are not written) and the feature after the
call.  With `geo->centroid == NULL` the function is left by `return_if_null`, whose
return value is declared outside this file (`none`). -/
def S57_getNextCent (geo : _S57_geo) : Option (Bool × Option pt2 × _S57_geo) :=
  match geo.centroid with
  | none => none
  | some a =>
    if geo.centroidIdx < a.len then
      match a.data.get? geo.centroidIdx with
      | some pt => some (true, some pt, { geo with centroidIdx := guintAdd geo.centroidIdx 1 })
      | none => none
    else some (false, none, geo)

/-- The function `S57_hasCentroid(geo)`: the returned `TRUE`/`FALSE` and the feature
after the call. -/
def S57_hasCentroid (geo : _S57_geo) : Option (Bool × _S57_geo) :=
  match geo.centroid with
  | none =>
    match (S57_newCentroid geo).2.centroid with
    | some a => some (!(a.len == 0), (S57_newCentroid geo).2)
    | none => none
  | some a => some (!(a.len == 0), { geo with centroidIdx := 0 })

/-- A call that may be made on the centroid store of a feature between
`S57_newCentroid` and a replay. -/
inductive CentOp where
  | add (x y : ℚ)
  | next
  | has
deriving DecidableEq, Repr

/-- The feature after a sequence of centroid calls (`none` when one of them is
undefined). -/
def runCentOps : List CentOp → _S57_geo → Option _S57_geo
  | [], geo => some geo
  | CentOp.add x y :: ops, geo =>
    match S57_addCentroid geo x y with
    | some (_, g) => runCentOps ops g
    | none => none
  | CentOp.next :: ops, geo =>
    match S57_getNextCent geo with
    | some (_, _, g) => runCentOps ops g
    | none => none
  | CentOp.has :: ops, geo =>
    match S57_hasCentroid geo with
    | some (_, g) => runCentOps ops g
    | none => none

/-- The points a sequence of centroid calls adds, in order. -/
def centAdds : List CentOp → List pt2
  | [] => []
  | CentOp.add x y :: ops => ⟨x, y⟩ :: centAdds ops
  | _ :: ops => centAdds ops

/-- The result of `n` successive calls of `S57_getNextCent` that all return `TRUE`:
the points they yield and the feature after them (`none` when one of the calls does not
return `TRUE` with a point). -/
def nextCentN : Nat → _S57_geo → Option (List pt2 × _S57_geo)
  | 0, geo => some ([], geo)
  | n + 1, geo =>
    match S57_getNextCent geo with
    | some (true, some p, g) =>
      match nextCentN n g with
      | some (ps, g1) => some (p :: ps, g1)
      | none => none
    | _ => none

/-! ## Projection of a feature -/

/-- The function `S57_getRingNbr(geo)`. -/
def S57_getRingNbr (geo : _S57_geo) : Nat :=
  match geo.obj_t with
  | S57_Obj_t.S57_POINT_T => 1
  | S57_Obj_t.S57_LINES_T => 1
  | S57_Obj_t.S57_AREAS_T => geo.ringnbr
  | S57_Obj_t.S57__META_T => 0

/-- Write-through of the pointer `S57_getGeoData(geo, ringNo, ..)` hands out: the
feature whose buffer of ring `ringNo` is `buf`. -/
def putRingData (geo : _S57_geo) (ringNo : Nat) (buf : List pt3) : _S57_geo :=
  match geo.obj_t with
  | S57_Obj_t.S57__META_T => geo
  | S57_Obj_t.S57_POINT_T => { geo with pointxyz := some buf }
  | S57_Obj_t.S57_LINES_T => { geo with linexyz := some buf }
  | S57_Obj_t.S57_AREAS_T =>
    match geo.ringxyz with
    | some xyz => { geo with ringxyz := some (xyz.set ringNo buf) }
    | none => geo

/-- The loop of `S57_geo2prj` over the rings from `i` on, with `n` iterations left.
The parameter `prj3dv` stands for the call `S57_geo2prj3dv(npt, ppt)`, which works in
place on the buffer through the projection library: its return value and the buffer
after it (`none` when it is undefined). -/
def geo2prjLoop (prj3dv : Nat → List pt3 → Option (Bool × List pt3)) :
    Nat → Nat → _S57_geo → Option (Bool × _S57_geo)
  | 0, _, geo => some (true, geo)
  | n + 1, i, geo =>
    match S57_getGeoData geo i with
    | none => none
    | some d =>
      if d.ret = true then
        match d.ppt with
        | some buf =>
          match prj3dv d.npt buf with
          | some (r, buf1) =>
            if r = false then some (false, putRingData geo i buf1)
            else geo2prjLoop prj3dv n (guintAdd i 1) (putRingData geo i buf1)
          | none => none
        | none => none
      else geo2prjLoop prj3dv n (guintAdd i 1) geo

/-- The function `S57_geo2prj(geo)` (compiled with `S52_USE_PROJ`): the returned
`TRUE`/`FALSE` and the feature after the call.  The statics of the projection engine
are not part of the feature. -/
def S57_geo2prj (prj3dv : Nat → List pt3 → Option (Bool × List pt3)) (geo : _S57_geo) :
    Option (Bool × _S57_geo) :=
  geo2prjLoop prj3dv (S57_getRingNbr geo) 0 geo

/-! ## Operations on a feature -/

/-- One call of a function of the file that writes to a feature (or, for `touch`, reads
it), with the other arguments of the call.  `asNextPoly geo self` is the call
`S57_setNextPoly(geo, self)` seen from the feature `self` points to. -/
inductive GeoOp where
  | setGeoLine (xyznbr : Nat) (xyz : Option (List pt3))
  | setName (name : String)
  | initPrimGeo
  | donePrimGeo
  | setExt (W S E N : Dbl)
  | getExt
  | setAtt (name val : String)
  | setTouch (R : TouchRole) (touch : Option GeoRef)
  | setScamin (scamin : Dbl)
  | resetScamin (EMPTY_NUMBER_MARKER : String) (FP_NAN : Int) (S52_atof : String → Dbl)
      (silent : Bool)
  | setRelationship (geoRel : GeoRef)
  | setNextPoly (nextPoly : Option (GeoRef × _S57_geo))
  | asNextPoly (geo : _S57_geo) (self : GeoRef)
  | delNextPoly
  | setGeoSize (size : Nat)
  | newCentroid
  | addCentroid (x y : ℚ)
  | getNextCent
  | hasCentroid
  | setEdgeOwner (geoOwner : Option GeoRef)
  | setHighlight (highlight : Bool)
  | simplifyGEO
  | geo2prj (prj3dv : Nat → List pt3 → Option (Bool × List pt3))
  | markOverlapGeo (S57_OVERLAP_GEO_Z : ℚ) (geoEdge : _S57_geo)
  | touch (geoB : _S57_geo)

/-- The feature after the call `op` (`none` when the call is undefined). -/
def applyOp (op : GeoOp) (geo : _S57_geo) : Option _S57_geo :=
  match op with
  | GeoOp.setGeoLine n xyz => some (S57_setGeoLine geo n xyz)
  | GeoOp.setName name => (S57_setName geo name).map (fun r => r.2)
  | GeoOp.initPrimGeo => some (S57_initPrimGeo geo)
  | GeoOp.donePrimGeo => some (S57_donePrimGeo geo)
  | GeoOp.setExt W S E N => some (S57_setExt geo W S E N).2
  | GeoOp.getExt => some (S57_getExt geo).2
  | GeoOp.setAtt name val => some (S57_setAtt geo name val)
  | GeoOp.setTouch R t => (setTouch R geo t).map (fun r => r.2)
  | GeoOp.setScamin v => some (S57_setScamin geo v).2
  | GeoOp.resetScamin m nan atof silent => some (S57_resetScamin m nan atof silent geo).2.1
  | GeoOp.setRelationship r => some (S57_setRelationship geo r).2
  | GeoOp.setNextPoly np => (S57_setNextPoly geo np).map (fun r => r.1)
  | GeoOp.asNextPoly other self => (S57_setNextPoly other (some (self, geo))).bind (fun r => r.2)
  | GeoOp.delNextPoly => (S57_delNextPoly [geo]).head?
  | GeoOp.setGeoSize size => (S57_setGeoSize geo size).map (fun r => r.2)
  | GeoOp.newCentroid => some (S57_newCentroid geo).2
  | GeoOp.addCentroid x y => (S57_addCentroid geo x y).map (fun r => r.2)
  | GeoOp.getNextCent => (S57_getNextCent geo).map (fun r => r.2.2)
  | GeoOp.hasCentroid => (S57_hasCentroid geo).map (fun r => r.2)
  | GeoOp.setEdgeOwner o => some (S57_setEdgeOwner geo o)
  | GeoOp.setHighlight h => some (S57_setHighlight geo h).2
  | GeoOp.simplifyGEO => _simplifyGEO geo
  | GeoOp.geo2prj prj3dv => (S57_geo2prj prj3dv geo).map (fun r => r.2)
  | GeoOp.markOverlapGeo Z e => (S57_markOverlapGeo Z geo e).map (fun r => r.2)
  | GeoOp.touch geoB => (S57_touch geo geoB).map (fun r => r.2.1)

/-- The feature after a sequence of calls made one after the other. -/
def runOps : List GeoOp → _S57_geo → Option _S57_geo
  | [], geo => some geo
  | op :: ops, geo =>
    match applyOp op geo with
    | some g => runOps ops g
    | none => none

/-- Whether the call is `S57_setGeoLine`. -/
def GeoOp.isSetGeoLine (op : GeoOp) : Bool :=
  match op with
  | GeoOp.setGeoLine _ _ => true
  | _ => false

/-- Whether the call is `S57_setExt`. -/
def GeoOp.isSetExt (op : GeoOp) : Bool :=
  match op with
  | GeoOp.setExt _ _ _ _ => true
  | _ => false

/-- Whether the call is `S57_setScamin` or `S57_resetScamin`. -/
def GeoOp.isScamin (op : GeoOp) : Bool :=
  match op with
  | GeoOp.setScamin _ => true
  | GeoOp.resetScamin _ _ _ _ => true
  | _ => false

/-- The comparison `a <= b` of two `double`s (false when one of them is NaN). -/
def dblLe (a b : Dbl) : Bool :=
  match a, b with
  | Dbl.nan, _ => false
  | _, Dbl.nan => false
  | Dbl.negInf, _ => true
  | _, Dbl.posInf => true
  | Dbl.fin p, Dbl.fin q => decide (p ≤ q)
  | _, _ => false

/-- The box `(-INFINITY, -INFINITY, INFINITY, INFINITY)` that `S57_getExt` stores and
returns for a feature without extent. -/
def worldExt : ObjExt_t := ⟨Dbl.negInf, Dbl.negInf, Dbl.posInf, Dbl.posInf⟩

/-- The extent invariant of the specification: `W <= E` and `S <= N`, or the unset
sentinel. -/
def extOK (e : ObjExt_t) : Prop := (dblLe e.W e.E = true ∧ dblLe e.S e.N = true) ∨ e = unsetExt

/-- Whether a call is not an `S57_setExt` with `W > E` or `S > N`. -/
def GeoOp.orderedExt (op : GeoOp) : Prop :=
  match op with
  | GeoOp.setExt W S E N => dblLe W E = true ∧ dblLe S N = true
  | _ => True

/-! ## Projection engine -/

/-- A projection handle `projPJ` of the PROJ library, as an opaque handle; `NULL` is the
`none` of `Option projPJ`. -/
abbrev projPJ := Nat

/-- The statics `_pjsrc`, `_pjdst`, `_pjstr`, `_doInit` and `_attList` of the file, with
their initial values. -/
structure PrjState where
  _pjsrc : Option projPJ := none
  _pjdst : Option projPJ := none
  _pjstr : Option String := none
  _doInit : Bool := true
  _attList : Option String := none
deriving DecidableEq, Repr

/-- The static `_argssrc`. -/
def _argssrc : String := "+proj=latlong +ellps=WGS84 +datum=WGS84"

/-- The local `templ` of `S57_setMercPrj`. -/
def templ : String :=
  "+proj=merc +lat_ts=%.6f +lon_0=%.6f +ellps=WGS84 +datum=WGS84 +unit=m +no_defs"

/-- The function `S57_donePROJ()`: the returned `TRUE` and the statics after the call. -/
def S57_donePROJ (_st : PrjState) : Bool × PrjState :=
  (true, { _pjsrc := none, _pjdst := none, _pjstr := none, _doInit := true, _attList := none })

/-- The function `_initPROJ()`: the returned `TRUE`/`FALSE` and the statics after the
call.  The library call `pj_init_plus` is a parameter (`none` is its `NULL`). -/
def _initPROJ (pj_init_plus : String → Option projPJ) (st : PrjState) : Bool × PrjState :=
  if st._doInit = false then (false, st)
  else
    match pj_init_plus _argssrc with
    | none => (false, (S57_donePROJ { st with _pjsrc := none }).2)
    | some p =>
      (true, { st with _pjsrc := some p, _doInit := false,
                       _attList := match st._attList with
                         | none => some ""
                         | some a => some a })

/-- The function `S57_setMercPrj(lat, lon)`: the returned `TRUE`/`FALSE` and the statics
after the call.  The library calls `g_strdup_printf` and `pj_init_plus` are parameters. -/
def S57_setMercPrj (g_strdup_printf : String → ℚ → ℚ → String)
    (pj_init_plus : String → Option projPJ) (st : PrjState) (lat lon : ℚ) : Bool × PrjState :=
  match st._pjstr with
  | some _ => (false, st)
  | none =>
    match pj_init_plus (g_strdup_printf templ lat lon) with
    | none => (false, { st with _pjstr := some (g_strdup_printf templ lat lon), _pjdst := none })
    | some d =>
      (true, { st with _pjstr := some (g_strdup_printf templ lat lon), _pjdst := some d })

/-- The function `S57_getPrjStr()`. -/
def S57_getPrjStr (st : PrjState) : Option String := st._pjstr

/-- The first loop of `S57_geo2prj3dv`, `pt->x *= DEG_TO_RAD; pt->y *= DEG_TO_RAD` on
`n` points (`none` when it runs past the buffer). -/
def deg2rad (DEG_TO_RAD : ℚ) : Nat → List pt3 → Option (List pt3)
  | 0, data => some data
  | n + 1, data =>
    match data with
    | p :: rest =>
      match deg2rad DEG_TO_RAD n rest with
      | some r => some ({ p with x := p.x * DEG_TO_RAD, y := p.y * DEG_TO_RAD } :: r)
      | none => none
    | [] => none

/-- The statement `if (TRUE == _doInit) _initPROJ();`: the statics after it. -/
def initIfNeeded (pj_init_plus : String → Option projPJ) (st : PrjState) : PrjState :=
  if st._doInit = true then (_initPROJ pj_init_plus st).2 else st

/-- The function `S57_geo2prj3dv(npt, data)` (compiled with `S52_USE_PROJ`, without
`S52_USE_GV`): the returned `TRUE`/`FALSE`, the statics and the buffer after the call.
The constant `DEG_TO_RAD` and the library calls `pj_init_plus` and `pj_transform` (its
return code and the buffer after it) are parameters. -/
def S57_geo2prj3dv (DEG_TO_RAD : ℚ) (pj_init_plus : String → Option projPJ)
    (pj_transform : Option projPJ → projPJ → Nat → List pt3 → Int × List pt3)
    (st : PrjState) (npt : Nat) (data : List pt3) : Option (Bool × PrjState × List pt3) :=
  match (initIfNeeded pj_init_plus st)._pjdst with
  | none => some (false, initIfNeeded pj_init_plus st, data)
  | some dst =>
    match deg2rad DEG_TO_RAD npt data with
    | none => none
    | some d1 =>
      some (decide ((pj_transform (initIfNeeded pj_init_plus st)._pjsrc dst npt d1).1 = 0),
            initIfNeeded pj_init_plus st,
            (pj_transform (initIfNeeded pj_init_plus st)._pjsrc dst npt d1).2)

/-- The kind, the extent and `scamin` of `g1` are those of `g`. -/
def sameHead (g g1 : _S57_geo) : Prop :=
  g1.obj_t = g.obj_t ∧ g1.ext = g.ext ∧ g1.scamin = g.scamin

/-- The feature the first `S57_set_META()` of a process returns. -/
def newMeta : _S57_geo :=
  { S57ID := 1, obj_t := S57_Obj_t.S57__META_T, ext := unsetExt, scamin := Dbl.posInf }

/-- The feature `newMeta` after `S57_setHighlight(geo, TRUE)`. -/
def newMetaHighlighted : _S57_geo := { newMeta with highlight := true }

/-- The structure `projUV` (`projXY`) of the PROJ library. -/
structure projUV where
  u : ℚ
  v : ℚ
deriving DecidableEq, Repr

/-- The function `S57_prj2geo(uv)` (compiled with `S52_USE_PROJ`).  The library call
`pj_inv` is a parameter: it gives the inverse-projected point and the value of
`pj_errno` after the call. -/
def S57_prj2geo (DEG_TO_RAD : ℚ) (pj_inv : projUV → projPJ → projUV × Int) (st : PrjState)
    (uv : projUV) : projUV :=
  if st._doInit = true then uv
  else
    match st._pjdst with
    | none => uv
    | some dst =>
      if (pj_inv uv dst).2 ≠ 0 then (pj_inv uv dst).1
      else ⟨(pj_inv uv dst).1.u / DEG_TO_RAD, (pj_inv uv dst).1.v / DEG_TO_RAD⟩

/-! ## Descriptions taken from the specification, for comparison -/

/-- The colinearity predicate as the specification words it, with `eps = 1e-8`: same
longitude, else same latitude, else the absolute difference of the two cross-multiplied
slope numerators below `eps`. -/
def inLineSpec (A B C : pt3) : Bool :=
  if |A.x - C.x| < S57_GEO_TOLERANCE then decide (|B.x - C.x| < S57_GEO_TOLERANCE)
  else if |A.y - C.y| < S57_GEO_TOLERANCE then decide (|B.y - C.y| < S57_GEO_TOLERANCE)
  else decide (|(A.y - C.y) * (B.x - C.x) - (B.y - C.y) * (A.x - C.x)| < S57_GEO_TOLERANCE)

/-- The vertex `B` lies in the axis-aligned bounding box of `A` and `C` enlarged by the
tolerance. -/
def inBox (A B C : pt3) : Prop :=
  (min A.x C.x - S57_GEO_TOLERANCE ≤ B.x ∧ B.x ≤ max A.x C.x + S57_GEO_TOLERANCE) ∧
  (min A.y C.y - S57_GEO_TOLERANCE ≤ B.y ∧ B.y ≤ max A.y C.y + S57_GEO_TOLERANCE)

/-! ## The crossing test with its order of evaluation -/

/-- The condition of `S57_isPtInside`,
`((p1.y>y) != (p2.y>y)) && (x < (p2.x-p1.x) * (y-p1.y) / (p2.y-p1.y) + p1.x)`, with the
short-circuit evaluation of `&&` made explicit: the quotient is evaluated only when the
left operand is true, and `none` stands for a division by zero. -/
def crossTest (p1 p2 : pt3) (x y : ℚ) : Option Bool :=
  if (decide (p1.y > y) != decide (p2.y > y)) = true then
    if p2.y - p1.y = 0 then none
    else some (decide (x < (p2.x - p1.x) * (y - p1.y) / (p2.y - p1.y) + p1.x))
  else some false

/-! ## Sequences of calls on a primitive holder -/

/-- One call on a primitive holder: `S57_begPrim(prim, mode)`,
`S57_addPrimVertex(prim, ptr)`, `S57_endPrim(prim)` or the reset
`S57_initPrim(prim)`. -/
inductive PrimOp where
  | begPrim (mode : Int)
  | addPrimVertex (ptr : pt3)
  | endPrim
  | initPrim
deriving DecidableEq, Repr

/-- The holder after the call `op` (`none` when the call is undefined). -/
def applyPrimOp (op : PrimOp) (prim : _S57_prim) : Option _S57_prim :=
  match op with
  | PrimOp.begPrim mode => some (S57_begPrim prim mode)
  | PrimOp.addPrimVertex ptr => some (S57_addPrimVertex prim ptr)
  | PrimOp.endPrim => (S57_endPrim prim).map (fun r => r.2)
  | PrimOp.initPrim => some (S57_initPrim (some prim))

/-- The holder after a sequence of calls made one after the other. -/
def runPrimOps : List PrimOp → _S57_prim → Option _S57_prim
  | [], prim => some prim
  | op :: ops, prim =>
    match applyPrimOp op prim with
    | some p => runPrimOps ops p
    | none => none

/-- Every `S57_endPrim` of the sequence is issued while the descriptor list is not
empty. -/
def endsOnNonEmpty : List PrimOp → _S57_prim → Prop
  | [], _ => True
  | op :: ops, prim =>
    (op = PrimOp.endPrim → prim.list.len ≠ 0) ∧
    match applyPrimOp op prim with
    | some p => endsOnNonEmpty ops p
    | none => True

/-- The invariant of the primitive holder: every descriptor has
`0 <= first <= vertex->len`, every assigned `count` has `0 <= count` and
`first + count <= vertex->len`, the `first` values are non-decreasing in list order
(and a non-empty descriptor array has storage). -/
def primInv (prim : _S57_prim) : Prop :=
  (prim.list.data ≠ [] → prim.list.allocated = true) ∧
  (∀ d ∈ prim.list.data, 0 ≤ d.first ∧ d.first ≤ (prim.vertex.len : Int) ∧
    ∀ c, d.count = some c → 0 ≤ c ∧ d.first + c ≤ (prim.vertex.len : Int)) ∧
  List.Pairwise (fun a b : _prim => a.first ≤ b.first) prim.list.data

/-- A sequence of calls on a holder: one primitive of two vertices, a reset, one empty
primitive. -/
def primOpsExample : List PrimOp :=
  [PrimOp.begPrim 4, PrimOp.addPrimVertex ⟨1, 2, 3⟩, PrimOp.addPrimVertex ⟨4, 5, 6⟩,
   PrimOp.endPrim, PrimOp.initPrim, PrimOp.begPrim 5, PrimOp.endPrim]

/-! ## Machine-integer lemmas -/

theorem GUINT_MOD_eq : GUINT_MOD = 4294967296 := by
  unfold GUINT_MOD
  rfl

theorem guint_eq (a : Nat) (ha : a < GUINT_MOD) : guint a = a :=
  Nat.mod_eq_of_lt ha

theorem guintSub_eq (a b : Nat) (hb : b ≤ a) : guintSub a b = a - b := by
  unfold guintSub
  rw [if_pos hb]

/-- On `guint` values `guintSub` is subtraction modulo `2 ^ 32`. -/
theorem guintSub_eq_mod (a b : Nat) (ha : a < GUINT_MOD) (hb : b < GUINT_MOD) :
    guintSub a b = (a + GUINT_MOD - b) % GUINT_MOD := by
  unfold guintSub
  by_cases h : b ≤ a
  · rw [if_pos h]
    have e : a + GUINT_MOD - b = (a - b) + GUINT_MOD := by omega
    rw [e, Nat.add_mod_right, Nat.mod_eq_of_lt (by omega)]
  · rw [if_neg h, Nat.mod_eq_of_lt (by omega)]

theorem guintAdd_eq (a b : Nat) (h : a + b < GUINT_MOD) : guintAdd a b = a + b :=
  Nat.mod_eq_of_lt h

theorem guintMul_eq (a b : Nat) (h : a * b < GUINT_MOD) : guintMul a b = a * b :=
  Nat.mod_eq_of_lt h

/-! ## The loop of `_delInLineSeg` computes `compact` -/

theorem compact_length_pos (a : pt3) (l : List pt3) : 2 ≤ (compact a l).length ∨ l = [] := by
  induction l using List.rec generalizing a with
  | nil => right; rfl
  | cons b t ih =>
    left
    cases t with
    | nil => simp [compact]
    | cons c rest =>
      simp only [compact]
      split_ifs
      · rcases ih b with h | h
        · simp; omega
        · simp at h
      · rcases ih a with h | h
        · exact h
        · simp at h
      · rcases ih b with h | h
        · simp; omega
        · simp at h

theorem compact_length_le (a : pt3) (l : List pt3) : (compact a l).length ≤ l.length + 1 := by
  induction l using List.rec generalizing a with
  | nil => simp [compact]
  | cons b t ih =>
    cases t with
    | nil => simp [compact]
    | cons c rest =>
      simp only [compact]
      split_ifs
      · have := ih b; simp at this ⊢; omega
      · have := ih a; simp at this ⊢; omega
      · have := ih b; simp at this ⊢; omega

theorem getOpt_append_add {α : Type} (pre l : List α) (n : Nat) :
    (pre ++ l).get? (pre.length + n) = l.get? n := by
  induction pre with
  | nil => simp
  | cons x xs ih =>
    have h : (x :: xs).length + n = (xs.length + n) + 1 := by simp; omega
    rw [h]
    simpa using ih

theorem take_append_length {α : Type} (pre l : List α) (n : Nat) :
    (pre ++ l).take (pre.length + n) = pre ++ l.take n := by
  induction pre with
  | nil => simp
  | cons x xs ih =>
    have h : (x :: xs).length + n = (xs.length + n) + 1 := by simp; omega
    rw [h]
    simpa using ih

theorem drop_append_length {α : Type} (pre l : List α) (n : Nat) :
    (pre ++ l).drop (pre.length + n) = l.drop n := by
  induction pre with
  | nil => simp
  | cons x xs ih =>
    have h : (x :: xs).length + n = (xs.length + n) + 1 := by simp; omega
    rw [h]
    simp

theorem memmove_shift (pre : List pt3) (a b c : pt3) (rest junk : List pt3) :
    memmove (pre ++ a :: b :: (c :: rest ++ junk)) (pre.length + 1) (pre.length + 2)
        (rest.length + 1)
      = some (pre ++ a :: (c :: rest ++ ((c :: rest).drop rest.length ++ junk))) := by
  unfold memmove
  have hlen : (pre ++ a :: b :: (c :: rest ++ junk)).length
      = pre.length + (rest.length + junk.length + 3) := by
    simp only [List.length_append, List.length_cons]; omega
  rw [if_pos (by rw [hlen]; constructor <;> omega)]
  have h1 : (pre ++ a :: b :: (c :: rest ++ junk)).take (pre.length + 1) = pre ++ [a] := by
    rw [take_append_length]; simp
  have h2 : ((pre ++ a :: b :: (c :: rest ++ junk)).drop (pre.length + 2)).take (rest.length + 1)
      = c :: rest := by
    rw [drop_append_length]; simp
  have h3 : (pre ++ a :: b :: (c :: rest ++ junk)).drop (pre.length + 1 + (rest.length + 1))
      = (c :: rest).drop rest.length ++ junk := by
    have : pre.length + 1 + (rest.length + 1) = pre.length + (rest.length + 2) := by omega
    rw [this, drop_append_length]
    show List.drop rest.length ((c :: rest) ++ junk) = _
    exact List.drop_append_of_le_length (by simp)
  rw [h1, h2, h3]
  simp

theorem delBody_advance (npt i : Nat) (pre : List pt3) (a b c : pt3) (t : List pt3) (j : Nat)
    (h : b.z ≠ c.z ∨ _inLine a b c = false) :
    delBody npt i { k := pre.length, j := j, buf := pre ++ a :: b :: c :: t }
      = some { k := (pre ++ [a]).length, j := j, buf := (pre ++ [a]) ++ b :: c :: t } := by
  have g0 : (pre ++ a :: b :: c :: t).get? pre.length = some a := by
    simpa using getOpt_append_add pre (a :: b :: c :: t) 0
  have g1 : (pre ++ a :: b :: c :: t).get? (pre.length + 1) = some b := by
    simpa using getOpt_append_add pre (a :: b :: c :: t) 1
  have g2 : (pre ++ a :: b :: c :: t).get? (pre.length + 2) = some c := by
    simpa using getOpt_append_add pre (a :: b :: c :: t) 2
  unfold delBody
  dsimp only
  rw [g1, g2]
  dsimp only
  rw [g0]
  dsimp only
  by_cases hz : b.z ≠ c.z
  · rw [if_pos hz]; simp
  · rw [if_neg hz]
    rcases h with h | h
    · exact absurd h hz
    · rw [h]; simp

theorem delBody_remove (npt i : Nat) (pre : List pt3) (a b c : pt3) (rest junk : List pt3)
    (j : Nat) (hj : 1 ≤ j) (hi : rest.length + i + 3 = npt)
    (hz : b.z = c.z) (hl : _inLine a b c = true) :
    delBody npt i { k := pre.length, j := j, buf := pre ++ a :: b :: (c :: rest ++ junk) }
      = some { k := pre.length, j := j - 1,
               buf := pre ++ a :: (c :: rest ++ ((c :: rest).drop rest.length ++ junk)) } := by
  have g0 : (pre ++ a :: b :: (c :: rest ++ junk)).get? pre.length = some a := by
    simpa using getOpt_append_add pre (a :: b :: (c :: rest ++ junk)) 0
  have g1 : (pre ++ a :: b :: (c :: rest ++ junk)).get? (pre.length + 1) = some b := by
    simpa using getOpt_append_add pre (a :: b :: (c :: rest ++ junk)) 1
  have g2 : (pre ++ a :: b :: (c :: rest ++ junk)).get? (pre.length + 2) = some c := by
    simpa using getOpt_append_add pre (a :: b :: (c :: rest ++ junk)) 2
  have hcnt : guintSub (guintSub npt i) 2 = rest.length + 1 := by
    rw [guintSub_eq npt i (by omega), guintSub_eq (npt - i) 2 (by omega)]
    omega
  have hj1 : guintSub j 1 = j - 1 := guintSub_eq j 1 hj
  unfold delBody
  dsimp only
  rw [g1, g2]
  dsimp only
  rw [g0]
  dsimp only
  rw [if_neg (by simpa using hz), if_pos hl, hcnt, hj1, memmove_shift]

theorem delLoop_compact (npt : Nat) :
    ∀ (n i : Nat) (pre : List pt3) (a : pt3) (rem junk : List pt3),
      n + i + 2 = npt → rem.length = n + 1 → pre.length ≤ i →
      ∃ junk1 : List pt3,
        junk1.length + (compact a rem).length = rem.length + 1 + junk.length ∧
        delLoop npt n i
            { k := pre.length, j := pre.length + n + 2, buf := pre ++ a :: (rem ++ junk) }
          = some { k := pre.length + (compact a rem).length - 2,
                   j := pre.length + (compact a rem).length,
                   buf := pre ++ (compact a rem ++ junk1) } := by
  intro n
  induction n with
  | zero =>
    intro i pre a rem junk _ hrem _
    match rem, hrem with
    | [b], _ => exact ⟨junk, by simp [compact]; omega, by simp [delLoop, compact]⟩
  | succ n ih =>
    intro i pre a rem junk hi hrem hpre
    match rem, hrem with
    | b :: c :: rest, hrem =>
      have hrest : rest.length = n := by simpa using hrem
      by_cases hadv : b.z ≠ c.z ∨ _inLine a b c = false
      · obtain ⟨junk1, hlen, hrun⟩ :=
          ih (i + 1) (pre ++ [a]) b (c :: rest) junk (by omega) (by simp [hrest])
            (by simp; omega)
        have hc : compact a (b :: c :: rest) = a :: compact b (c :: rest) := by
          rcases hadv with h | h
          · simp [compact, h]
          · simp [compact, h]
        refine ⟨junk1, by rw [hc]; simp at hlen ⊢; omega, ?_⟩
        have hb := delBody_advance npt i pre a b c (rest ++ junk) (pre.length + (n + 1) + 2) hadv
        have e1 : (b :: c :: rest ++ junk) = b :: c :: (rest ++ junk) := by simp
        rw [delLoop, e1, hb]
        have e2 : ({ k := (pre ++ [a]).length, j := pre.length + (n + 1) + 2,
                     buf := (pre ++ [a]) ++ b :: c :: (rest ++ junk) } : DelState)
            = { k := (pre ++ [a]).length, j := (pre ++ [a]).length + n + 2,
                buf := (pre ++ [a]) ++ b :: (c :: rest ++ junk) } := by
          simp; omega
        simp only [e2, hrun, hc]
        have hpos := compact_length_pos b (c :: rest)
        simp at hpos
        simp
        omega
      · have hz : b.z = c.z := by
          by_contra h; exact hadv (Or.inl h)
        have hl : _inLine a b c = true := by
          cases h : _inLine a b c
          · exact absurd (Or.inr h) hadv
          · rfl
        obtain ⟨junk1, hlen, hrun⟩ :=
          ih (i + 1) pre a (c :: rest) ((c :: rest).drop rest.length ++ junk) (by omega)
            (by simp [hrest]) (by omega)
        have hc : compact a (b :: c :: rest) = compact a (c :: rest) := by
          simp [compact, hz, hl]
        refine ⟨junk1, by rw [hc]; simp at hlen ⊢; omega, ?_⟩
        have hb := delBody_remove npt i pre a b c rest junk (pre.length + (n + 1) + 2)
          (by omega) (by omega) hz hl
        have e1 : (b :: c :: rest ++ junk) = b :: (c :: rest ++ junk) := by simp
        rw [delLoop, e1, hb]
        have e2 : pre.length + (n + 1) + 2 - 1 = pre.length + n + 2 := by omega
        simp only [e2, hrun, hc]

theorem delInLineSeg_cons (npt : Nat) (a : pt3) (rem junk : List pt3)
    (hn : rem.length + 1 = npt) (h2 : 2 ≤ npt) (hnpt : npt < GUINT_MOD) :
    ∃ junk1 : List pt3,
      junk1.length + (compact a rem).length = rem.length + 1 + junk.length ∧
      _delInLineSeg npt (a :: (rem ++ junk))
        = some ((compact a rem).length, compact a rem ++ junk1) := by
  obtain ⟨junk1, hlen, hrun⟩ :=
    delLoop_compact npt (npt - 2) 0 [] a rem junk (by omega) (by omega) (Nat.le_refl 0)
  refine ⟨junk1, hlen, ?_⟩
  unfold _delInLineSeg
  rw [guintSub_eq npt 2 h2, guint_eq npt hnpt]
  have e : ({ k := 0, j := npt, buf := a :: (rem ++ junk) } : DelState)
      = { k := ([] : List pt3).length, j := ([] : List pt3).length + (npt - 2) + 2,
          buf := [] ++ a :: (rem ++ junk) } := by
    simp; omega
  rw [e, hrun]
  simp

/-- The result of `_delInLineSeg` on any buffer holding at least `npt ≥ 2` vertices. -/
theorem delInLineSeg_visible (npt : Nat) (ppt : List pt3)
    (h2 : 2 ≤ npt) (hle : npt ≤ ppt.length) (hnpt : npt < GUINT_MOD) :
    ∃ (a : pt3) (rem out : List pt3),
      visible npt ppt = a :: rem ∧ out.length = ppt.length ∧
      _delInLineSeg npt ppt = some ((compact a rem).length, out) ∧
      visible (compact a rem).length out = compact a rem := by
  have hsplit : ppt = ppt.take npt ++ ppt.drop npt := (List.take_append_drop npt ppt).symm
  have htl : (ppt.take npt).length = npt := by simp [hle]
  match hv : ppt.take npt, htl with
  | a :: rem, htl =>
    have hrem : rem.length + 1 = npt := by simpa using htl
    obtain ⟨junk1, hlen, hrun⟩ := delInLineSeg_cons npt a rem (ppt.drop npt) hrem h2 hnpt
    refine ⟨a, rem, compact a rem ++ junk1, hv, ?_, ?_, ?_⟩
    · have : (ppt.drop npt).length = ppt.length - npt := by simp
      simp only [List.length_append]
      omega
    · have e : ppt = a :: (rem ++ ppt.drop npt) := by
        conv_lhs => rw [hsplit, hv]
        simp
      conv_lhs => rw [e]
      exact hrun
    · simp [visible]
  | [], htl =>
    simp at htl
    omega

theorem compact_sublist (a : pt3) (l : List pt3) : (compact a l).Sublist (a :: l) := by
  induction l using List.rec generalizing a with
  | nil => simp [compact]
  | cons b t ih =>
    cases t with
    | nil => simp [compact]
    | cons c rest =>
      simp only [compact]
      split_ifs
      · exact (ih b).cons₂ a
      · exact ((ih a).trans ((List.sublist_cons_self b (c :: rest)).cons₂ a))
      · exact (ih b).cons₂ a

theorem compact_head (a : pt3) (l : List pt3) : (compact a l).head? = some a := by
  induction l using List.rec generalizing a with
  | nil => simp [compact]
  | cons b t ih =>
    cases t with
    | nil => simp [compact]
    | cons c rest =>
      simp only [compact]
      split_ifs
      · simp
      · exact ih a
      · simp

theorem getLastOpt_cons_ne {α : Type} (a : α) (l : List α) (h : l ≠ []) :
    (a :: l).getLast? = l.getLast? := by
  cases l with
  | nil => exact absurd rfl h
  | cons b t => exact List.getLast?_cons_cons

theorem compact_getLast (a : pt3) (l : List pt3) :
    (compact a l).getLast? = (a :: l).getLast? := by
  induction l using List.rec generalizing a with
  | nil => simp [compact]
  | cons b t ih =>
    cases t with
    | nil => simp [compact]
    | cons c rest =>
      have hne : compact b (c :: rest) ≠ [] := by
        intro h
        have := compact_head b (c :: rest)
        rw [h] at this
        simp at this
      simp only [compact]
      split_ifs
      · rw [getLastOpt_cons_ne a _ hne, ih b, getLastOpt_cons_ne a (b :: c :: rest) (by simp)]
      · rw [ih a, getLastOpt_cons_ne a (b :: c :: rest) (by simp),
          getLastOpt_cons_ne a (c :: rest) (by simp), getLastOpt_cons_ne b (c :: rest) (by simp)]
      · rw [getLastOpt_cons_ne a _ hne, ih b, getLastOpt_cons_ne a (b :: c :: rest) (by simp)]

/-! ## Claims on `_delInLineSeg` and `_simplifyGEO` -/

/-- C1: on a buffer holding `npt ≥ 3` vertices `_delInLineSeg` returns a count `j` and
leaves in the first `j` slots a subsequence (original relative order, nothing altered,
duplicated or reordered) of the original `npt` vertices, which starts with the original
first vertex and ends with the original last vertex. -/
theorem C1_delInLineSeg_subsequence (npt : Nat) (ppt : List pt3)
    (h3 : 3 ≤ npt) (hle : npt ≤ ppt.length) (hnpt : npt < GUINT_MOD) :
    ∃ (j : Nat) (out : List pt3),
      _delInLineSeg npt ppt = some (j, out) ∧
      out.length = ppt.length ∧ j ≤ npt ∧
      (visible j out).Sublist (visible npt ppt) ∧
      (visible j out).head? = (visible npt ppt).head? ∧
      (visible j out).getLast? = (visible npt ppt).getLast? := by
  obtain ⟨a, rem, out, hv, hlen, hrun, hout⟩ :=
    delInLineSeg_visible npt ppt (by omega) hle hnpt
  have hvl : (visible npt ppt).length = npt := by simp [visible, hle]
  refine ⟨(compact a rem).length, out, hrun, hlen, ?_, ?_, ?_, ?_⟩
  · have h1 := compact_length_le a rem
    rw [hv] at hvl
    simp at hvl
    omega
  · rw [hout, hv]; exact compact_sublist a rem
  · rw [hout, hv, compact_head]; rfl
  · rw [hout, hv]; exact compact_getLast a rem

theorem C1_delInLineSeg_subsequence_witness :
    ∃ (j : Nat) (out : List pt3),
      _delInLineSeg 3 [⟨0, 0, 0⟩, ⟨1, 5, 0⟩, ⟨2, 0, 0⟩] = some (j, out) ∧
      out.length = [(⟨0, 0, 0⟩ : pt3), ⟨1, 5, 0⟩, ⟨2, 0, 0⟩].length ∧ j ≤ 3 ∧
      (visible j out).Sublist (visible 3 [⟨0, 0, 0⟩, ⟨1, 5, 0⟩, ⟨2, 0, 0⟩]) ∧
      (visible j out).head? = (visible 3 [⟨0, 0, 0⟩, ⟨1, 5, 0⟩, ⟨2, 0, 0⟩]).head? ∧
      (visible j out).getLast? = (visible 3 [⟨0, 0, 0⟩, ⟨1, 5, 0⟩, ⟨2, 0, 0⟩]).getLast? :=
  C1_delInLineSeg_subsequence 3 [⟨0, 0, 0⟩, ⟨1, 5, 0⟩, ⟨2, 0, 0⟩] (by decide) (by decide)
    (by rw [GUINT_MOD_eq]; decide)

theorem ABS_eq_abs (a : ℚ) : ABS a = |a| := by
  unfold ABS
  split_ifs with h
  · exact (abs_of_neg h).symm
  · exact (abs_of_nonneg (not_lt.mp h)).symm

/-- A vertex between `A` and `Y` on the line through them is in line for `_inLine`. -/
theorem inLine_of_between (A X Y : pt3) (ox oy dx dy tA tX tY : ℚ)
    (h1 : tA < tX) (h2 : tX < tY)
    (hA : A.x = ox + tA * dx ∧ A.y = oy + tA * dy)
    (hX : X.x = ox + tX * dx ∧ X.y = oy + tX * dy)
    (hY : Y.x = ox + tY * dx ∧ Y.y = oy + tY * dy) :
    _inLine A X Y = true := by
  have key : ∀ d : ℚ, |(tX - tY) * d| ≤ |(tA - tY) * d| := by
    intro d
    rw [abs_mul, abs_mul]
    apply mul_le_mul_of_nonneg_right _ (abs_nonneg d)
    rw [abs_of_neg (by linarith), abs_of_neg (by linarith)]
    linarith
  have ex1 : A.x - Y.x = (tA - tY) * dx := by rw [hA.1, hY.1]; ring
  have ex2 : X.x - Y.x = (tX - tY) * dx := by rw [hX.1, hY.1]; ring
  have ey1 : A.y - Y.y = (tA - tY) * dy := by rw [hA.2, hY.2]; ring
  have ey2 : X.y - Y.y = (tX - tY) * dy := by rw [hX.2, hY.2]; ring
  unfold _inLine
  simp only [ABS_eq_abs]
  split_ifs with hx hy
  · rw [decide_eq_true_eq, ex2]
    rw [ex1] at hx
    exact lt_of_le_of_lt (key dx) hx
  · rw [decide_eq_true_eq, ey2]
    rw [ey1] at hy
    exact lt_of_le_of_lt (key dy) hy
  · rw [decide_eq_true_eq, ex1, ex2, ey1, ey2]
    have e : (tA - tY) * dy * ((tX - tY) * dx) = (tX - tY) * dy * ((tA - tY) * dx) := by ring
    rw [e, sub_self, abs_zero]
    norm_num [S57_GEO_TOLERANCE]

/-- C2: five distinct points `A, B, C, D, E` of equal elevation lying in this order on
one straight line, held by a Line feature, are reduced by `_simplifyGEO` to a vertex
count of 2 with the two vertices `[A, E]`. -/
theorem C2_five_colinear (geo : _S57_geo) (A B C D E : pt3)
    (hline : onLineInOrder A B C D E)
    (hz : A.z = B.z ∧ B.z = C.z ∧ C.z = D.z ∧ D.z = E.z)
    (ht : geo.obj_t = S57_Obj_t.S57_LINES_T)
    (hn : geo.linexyznbr = 5) (hb : geo.linexyz = some [A, B, C, D, E]) :
    ∃ out : List pt3,
      _simplifyGEO geo = some { geo with linexyznbr := 2, linexyz := some out } ∧
      visible 2 out = [A, E] := by
  obtain ⟨ox, oy, dx, dy, tA, tB, tC, tD, tE, _, hAB, hBC, hCD, hDE, hA, hB, hC, hD, hE⟩ :=
    hline
  have i1 : _inLine A B C = true := inLine_of_between A B C ox oy dx dy tA tB tC hAB hBC hA hB hC
  have i2 : _inLine A C D = true :=
    inLine_of_between A C D ox oy dx dy tA tC tD (by linarith) hCD hA hC hD
  have i3 : _inLine A D E = true :=
    inLine_of_between A D E ox oy dx dy tA tD tE (by linarith) hDE hA hD hE
  have hc : compact A [B, C, D, E] = [A, E] := by
    simp [compact, hz.2.1, hz.2.2.1, hz.2.2.2, i1, i2, i3]
  obtain ⟨junk1, _, hrun⟩ :=
    delInLineSeg_cons 5 A [B, C, D, E] [] rfl (by decide) (by rw [GUINT_MOD_eq]; decide)
  rw [hc] at hrun
  refine ⟨[A, E] ++ junk1, ?_, by simp [visible]⟩
  unfold _simplifyGEO simplifyLine
  rw [if_pos ht, hn, if_pos (by decide), hb]
  simp only [List.append_nil] at hrun
  simp only [hrun, List.length_cons, List.length_nil]
  unfold simplifyArea
  rw [if_neg (by rw [ht]; decide)]

theorem C2_five_colinear_witness :
    ∃ out : List pt3,
      _simplifyGEO { obj_t := S57_Obj_t.S57_LINES_T, linexyznbr := 5,
                     linexyz := some [⟨0, 0, 7⟩, ⟨1, 2, 7⟩, ⟨2, 4, 7⟩, ⟨3, 6, 7⟩, ⟨4, 8, 7⟩] }
        = some { obj_t := S57_Obj_t.S57_LINES_T, linexyznbr := 2, linexyz := some out } ∧
      visible 2 out = [⟨0, 0, 7⟩, ⟨4, 8, 7⟩] :=
  C2_five_colinear
    { obj_t := S57_Obj_t.S57_LINES_T, linexyznbr := 5,
      linexyz := some [⟨0, 0, 7⟩, ⟨1, 2, 7⟩, ⟨2, 4, 7⟩, ⟨3, 6, 7⟩, ⟨4, 8, 7⟩] }
    ⟨0, 0, 7⟩ ⟨1, 2, 7⟩ ⟨2, 4, 7⟩ ⟨3, 6, 7⟩ ⟨4, 8, 7⟩
    ⟨0, 0, 1, 2, 0, 1, 2, 3, 4, by norm_num⟩
    (by norm_num) rfl rfl rfl

/-! ## One application of the simplifier -/

theorem compact_eq_self_iff (a : pt3) (l : List pt3) :
    compact a l = a :: l ↔ stable (a :: l) := by
  induction l using List.rec generalizing a with
  | nil => simp [compact, stable]
  | cons b t ih =>
    cases t with
    | nil => simp [compact, stable]
    | cons c rest =>
      simp only [compact, stable, removable]
      by_cases hz : b.z ≠ c.z
      · rw [if_pos hz]
        have hd : decide (b.z = c.z) = false := by simpa using hz
        rw [hd]
        simp only [Bool.false_and, true_and, List.cons.injEq]
        exact ih b
      · rw [if_neg hz]
        have hd : decide (b.z = c.z) = true := by simpa using hz
        rw [hd]
        by_cases hl : _inLine a b c = true
        · rw [if_pos hl, hl]
          have hlen := compact_length_le a (c :: rest)
          constructor
          · intro h
            rw [h] at hlen
            simp at hlen
          · intro h
            simp at h
        · rw [if_neg hl]
          have hl2 : _inLine a b c = false := by simpa using hl
          rw [hl2]
          simp only [Bool.and_false, true_and, List.cons.injEq]
          exact ih b

theorem visible_length (c : Nat) (buf : List pt3) (h : c ≤ buf.length) :
    (visible c buf).length = c := by
  simp [visible, h]

theorem simplifyPass_spec (k c : Nat) (buf : List pt3) (hk : 1 ≤ k)
    (hc : c ≤ buf.length) (hG : c < GUINT_MOD) :
    ∃ (c1 : Nat) (out : List pt3),
      simplifyPass k c buf = some (c1, out) ∧ out.length = buf.length ∧
      c1 ≤ out.length ∧ c1 < GUINT_MOD ∧
      simplifiedFrom k (visible c buf) (visible c1 out) := by
  unfold simplifyPass
  by_cases hkc : k < c
  · rw [if_pos hkc]
    obtain ⟨a, rem, out, hv, hlen, hrun, hout⟩ :=
      delInLineSeg_visible c buf (by omega) hc hG
    have hvl := visible_length c buf hc
    have hcl := compact_length_le a rem
    rw [hv] at hvl
    simp only [List.length_cons] at hvl
    refine ⟨(compact a rem).length, out, hrun, hlen, by omega, by omega, ?_⟩
    rw [hout, hv]
    refine ⟨compact_sublist a rem, ?_, compact_getLast a rem, ?_⟩
    · rw [compact_head]; rfl
    · rw [compact_eq_self_iff]
      constructor
      · intro h; exact Or.inr h
      · intro h
        rcases h with h | h
        · simp only [List.length_cons] at h; omega
        · exact h
  · rw [if_neg hkc]
    refine ⟨c, buf, rfl, rfl, hc, hG, List.Sublist.refl _, rfl, rfl, ?_⟩
    have hvl := visible_length c buf hc
    constructor
    · intro _; left; omega
    · intro _; rfl

theorem set_getElem_same {α : Type} (l : List α) (i : Nat) (h : i < l.length) :
    l.set i l[i] = l := by
  induction l generalizing i with
  | nil => simp at h
  | cons x xs ih =>
    cases i with
    | zero => rfl
    | succ k =>
      simp only [List.set_cons_succ, List.getElem_cons_succ]
      rw [ih k (by simpa using h)]

theorem simplifyRings_spec :
    ∀ (n i : Nat) (nbr : List Nat) (xyz : List (List pt3)),
      i + n ≤ nbr.length → nbr.length = xyz.length →
      (∀ (m c : Nat) (buf : List pt3), nbr[m]? = some c → xyz[m]? = some buf → c ≤ buf.length ∧ c < GUINT_MOD) →
      ∃ (nbr1 : List Nat) (xyz1 : List (List pt3)),
        simplifyRings n i nbr xyz = some (nbr1, xyz1) ∧
        nbr1.length = nbr.length ∧ xyz1.length = xyz.length ∧
        (∀ (m c : Nat) (buf : List pt3), nbr1[m]? = some c → xyz1[m]? = some buf →
          c ≤ buf.length ∧ c < GUINT_MOD) ∧
        (∀ m, m < i → nbr1[m]? = nbr[m]? ∧ xyz1[m]? = xyz[m]?) ∧
        (∀ m, i ≤ m → m < i + n →
          ∃ c buf c1 out, nbr[m]? = some c ∧ xyz[m]? = some buf ∧
            nbr1[m]? = some c1 ∧ xyz1[m]? = some out ∧
            simplifiedFrom 3 (visible c buf) (visible c1 out)) := by
  intro n
  induction n with
  | zero =>
    intro i nbr xyz _ _ hv
    exact ⟨nbr, xyz, rfl, rfl, rfl, hv, fun m _ => ⟨rfl, rfl⟩, fun m h1 h2 => by omega⟩
  | succ n ih =>
    intro i nbr xyz hl1 hl2 hv
    have hi1 : i < nbr.length := by omega
    have hi2 : i < xyz.length := by omega
    have hc : nbr[i]? = some nbr[i] := List.getElem?_eq_getElem hi1
    have hb : xyz[i]? = some xyz[i] := List.getElem?_eq_getElem hi2
    obtain ⟨hcb, hcG⟩ := hv i nbr[i] xyz[i] hc hb
    obtain ⟨c1, out, hpass, holen, hc1, hc1G, hrel⟩ :=
      simplifyPass_spec 3 nbr[i] xyz[i] (by decide) hcb hcG
    have hstep : simplifyRings (n + 1) i nbr xyz
        = simplifyRings n (i + 1) (nbr.set i c1) (xyz.set i out) := by
      rw [simplifyRings]
      simp only [List.get?_eq_getElem?, hc, hb]
      unfold simplifyPass at hpass
      by_cases h3 : 3 < nbr[i]
      · rw [if_pos h3] at hpass
        rw [if_pos h3, hpass]
      · rw [if_neg h3] at hpass
        rw [if_neg h3]
        have e1 : c1 = nbr[i] := by
          have := congrArg Prod.fst (Option.some.inj hpass); exact this.symm
        have e2 : out = xyz[i] := by
          have := congrArg Prod.snd (Option.some.inj hpass); exact this.symm
        rw [e1, e2, set_getElem_same nbr i hi1, set_getElem_same xyz i hi2]
    have hv2 : ∀ (m c : Nat) (buf : List pt3), (nbr.set i c1)[m]? = some c → (xyz.set i out)[m]? = some buf →
        c ≤ buf.length ∧ c < GUINT_MOD := by
      intro m c buf h1 h2
      by_cases hm : i = m
      · subst hm
        rw [List.getElem?_set_self hi1] at h1
        rw [List.getElem?_set_self hi2] at h2
        cases h1; cases h2
        exact ⟨hc1, hc1G⟩
      · rw [List.getElem?_set_ne hm] at h1
        rw [List.getElem?_set_ne hm] at h2
        exact hv m c buf h1 h2
    obtain ⟨nbr1, xyz1, hrun, hn1, hx1, hv1, hlow, hhigh⟩ :=
      ih (i + 1) (nbr.set i c1) (xyz.set i out) (by simp; omega) (by simp; omega) hv2
    refine ⟨nbr1, xyz1, by rw [hstep, hrun], by simpa using hn1, by simpa using hx1, hv1, ?_, ?_⟩
    · intro m hm
      obtain ⟨h1, h2⟩ := hlow m (by omega)
      rw [h1, h2, List.getElem?_set_ne (by omega), List.getElem?_set_ne (by omega)]
      exact ⟨rfl, rfl⟩
    · intro m hm1 hm2
      by_cases hm : m = i
      · subst hm
        obtain ⟨h1, h2⟩ := hlow m (by omega)
        rw [List.getElem?_set_self hi1] at h1
        rw [List.getElem?_set_self hi2] at h2
        exact ⟨nbr[m], xyz[m], c1, out, hc, hb, h1, h2, hrel⟩
      · obtain ⟨c, buf, c2, out2, g1, g2, g3, g4, hr⟩ := hhigh m (by omega) (by omega)
        rw [List.getElem?_set_ne (by omega)] at g1
        rw [List.getElem?_set_ne (by omega)] at g2
        exact ⟨c, buf, c2, out2, g1, g2, g3, g4, hr⟩

theorem simplifiedFrom_short (k : Nat) (p : List pt3) (h : p.length ≤ k) :
    simplifiedFrom k p p :=
  ⟨List.Sublist.refl p, rfl, rfl, ⟨fun _ => Or.inl h, fun _ => rfl⟩⟩

theorem simplifyArea_of_not_area (geo : _S57_geo) (h : geo.obj_t ≠ S57_Obj_t.S57_AREAS_T) :
    simplifyArea geo = some geo := by
  unfold simplifyArea
  rw [if_neg h]

theorem simplifyLine_of_not_line (geo : _S57_geo) (h : geo.obj_t ≠ S57_Obj_t.S57_LINES_T) :
    simplifyLine geo = some geo := by
  unfold simplifyLine
  rw [if_neg h]

theorem simplifyGEO_line (geo : _S57_geo) (hwf : geoWF geo)
    (ht : geo.obj_t = S57_Obj_t.S57_LINES_T) :
    ∃ g1, _simplifyGEO geo = some g1 ∧ geoWF g1 ∧ g1.obj_t = geo.obj_t ∧
      g1.ringnbr = geo.ringnbr ∧ simplifiedFrom 2 (lineVerts geo) (lineVerts g1) := by
  obtain ⟨hG, hbuf⟩ := hwf.1 ht
  by_cases h2 : 2 < geo.linexyznbr
  · obtain ⟨buf, hb, hle⟩ := hbuf h2
    obtain ⟨c1, out, hpass, _, hc1, hc1G, hrel⟩ :=
      simplifyPass_spec 2 geo.linexyznbr buf (by decide) hle hG
    unfold simplifyPass at hpass
    rw [if_pos h2] at hpass
    refine ⟨{ geo with linexyznbr := c1, linexyz := some out }, ?_, ?_, rfl, rfl, ?_⟩
    · unfold _simplifyGEO simplifyLine
      rw [if_pos ht, if_pos h2, hb]
      simp only [hpass]
      exact simplifyArea_of_not_area _ (by simp [ht])
    · refine ⟨fun _ => ⟨hc1G, fun _ => ⟨out, rfl, hc1⟩⟩, fun h => ?_⟩
      simp [ht] at h
    · simpa [lineVerts, hb] using hrel
  · refine ⟨geo, ?_, hwf, rfl, rfl, ?_⟩
    · unfold _simplifyGEO simplifyLine
      rw [if_pos ht, if_neg h2]
      exact simplifyArea_of_not_area _ (by simp [ht])
    · apply simplifiedFrom_short
      unfold lineVerts
      cases geo.linexyz with
      | none => simp
      | some buf =>
        simp only [visible, List.length_take]
        omega

theorem simplifyGEO_area (geo : _S57_geo) (hwf : geoWF geo)
    (ht : geo.obj_t = S57_Obj_t.S57_AREAS_T) :
    ∃ g1, _simplifyGEO geo = some g1 ∧ geoWF g1 ∧ g1.obj_t = geo.obj_t ∧
      g1.ringnbr = geo.ringnbr ∧
      ∀ m, m < geo.ringnbr → simplifiedFrom 3 (ringVerts geo m) (ringVerts g1 m) := by
  have hline : simplifyLine geo = some geo := simplifyLine_of_not_line geo (by simp [ht])
  by_cases h0 : geo.ringnbr = 0
  · refine ⟨geo, ?_, hwf, rfl, rfl, fun m hm => by omega⟩
    unfold _simplifyGEO
    rw [hline]
    dsimp only
    unfold simplifyArea
    rw [if_pos ht, if_pos h0]
  · obtain ⟨nbr, xyz, hn, hx, hnl, hxl, hv⟩ := hwf.2 ht (by omega)
    obtain ⟨nbr1, xyz1, hrun, hn1, hx1, hv1, _, hhigh⟩ :=
      simplifyRings_spec geo.ringnbr 0 nbr xyz (by omega) (by omega) hv
    refine ⟨{ geo with ringxyznbr := some nbr1, ringxyz := some xyz1 }, ?_, ?_, rfl, rfl, ?_⟩
    · unfold _simplifyGEO
      rw [hline]
      dsimp only
      unfold simplifyArea
      rw [if_pos ht, if_neg h0, hn, hx]
      simp only [hrun]
    · have e1 : nbr1.length = geo.ringnbr := by omega
      have e2 : xyz1.length = geo.ringnbr := by omega
      refine ⟨fun h => ?_, fun _ _ => ⟨nbr1, xyz1, rfl, rfl, e1, e2, hv1⟩⟩
      simp [ht] at h
    · intro m hm
      obtain ⟨c, buf, c1, out, g1, g2, g3, g4, hr⟩ := hhigh m (by omega) (by omega)
      simpa [ringVerts, hn, hx, g1, g2, g3, g4] using hr

/-- C3 (amended): a second application of `_simplifyGEO` may remove further vertices.
For every Line feature and every ring of every Area feature, the vertex sequence after
the second application is a subsequence of the sequence after the first application
with the same first and last vertex, and it is that same sequence (hence the same
count) exactly when the first result is no longer simplified (a Line of at most 2, a
ring of at most 3 vertices) or has no three consecutive vertices `A, B, C` with
`B.z = C.z` and `_inLine(A, B, C)`. -/
theorem C3_second_pass (geo : _S57_geo) (hwf : geoWF geo) :
    ∃ g1 g2, _simplifyGEO geo = some g1 ∧ _simplifyGEO g1 = some g2 ∧
      (geo.obj_t = S57_Obj_t.S57_LINES_T →
        simplifiedFrom 2 (lineVerts g1) (lineVerts g2)) ∧
      (geo.obj_t = S57_Obj_t.S57_AREAS_T →
        ∀ m, m < geo.ringnbr → simplifiedFrom 3 (ringVerts g1 m) (ringVerts g2 m)) := by
  by_cases hl : geo.obj_t = S57_Obj_t.S57_LINES_T
  · obtain ⟨g1, h1, hwf1, ht1, _, _⟩ := simplifyGEO_line geo hwf hl
    obtain ⟨g2, h2, _, _, _, hr⟩ := simplifyGEO_line g1 hwf1 (by rw [ht1, hl])
    exact ⟨g1, g2, h1, h2, fun _ => hr, fun h => by simp [hl] at h⟩
  · by_cases ha : geo.obj_t = S57_Obj_t.S57_AREAS_T
    · obtain ⟨g1, h1, hwf1, ht1, hr1, _⟩ := simplifyGEO_area geo hwf ha
      obtain ⟨g2, h2, _, _, _, hr⟩ := simplifyGEO_area g1 hwf1 (by rw [ht1, ha])
      exact ⟨g1, g2, h1, h2, fun h => absurd h hl, fun _ m hm => hr m (by rw [hr1]; exact hm)⟩
    · have e : _simplifyGEO geo = some geo := by
        unfold _simplifyGEO
        rw [simplifyLine_of_not_line geo hl]
        exact simplifyArea_of_not_area geo ha
      exact ⟨geo, geo, e, e, fun h => absurd h hl, fun h => absurd h ha⟩

/-- C3 (counterexample): on the Line `(0,0) (1,1) (3,1) (2,2)` the first application of
`_simplifyGEO` leaves the 3 vertices `(0,0) (1,1) (2,2)` and the second application
leaves the 2 vertices `(0,0) (2,2)`: simplification is not idempotent. -/
theorem C3_not_idempotent :
    _simplifyGEO zigzagLine
        = some { zigzagLine with
                 linexyznbr := 3,
                 linexyz := some [⟨0, 0, 0⟩, ⟨1, 1, 0⟩, ⟨2, 2, 0⟩, ⟨2, 2, 0⟩] } ∧
    _simplifyGEO { zigzagLine with
                   linexyznbr := 3,
                   linexyz := some [⟨0, 0, 0⟩, ⟨1, 1, 0⟩, ⟨2, 2, 0⟩, ⟨2, 2, 0⟩] }
        = some { zigzagLine with
                 linexyznbr := 2,
                 linexyz := some [⟨0, 0, 0⟩, ⟨2, 2, 0⟩, ⟨2, 2, 0⟩, ⟨2, 2, 0⟩] } := by
  constructor
  · simp [zigzagLine, _simplifyGEO, simplifyLine, simplifyArea, _delInLineSeg, delLoop, delBody,
      memmove, guintSub, guint, GUINT_MOD_eq, _inLine, ABS, S57_GEO_TOLERANCE]
    norm_num
  · simp [zigzagLine, _simplifyGEO, simplifyLine, simplifyArea, _delInLineSeg, delLoop, delBody,
      memmove, guintSub, guint, GUINT_MOD_eq, _inLine, ABS, S57_GEO_TOLERANCE]
    norm_num

theorem C3_second_pass_witness :
    ∃ g1 g2, _simplifyGEO zigzagLine = some g1 ∧ _simplifyGEO g1 = some g2 ∧
      (zigzagLine.obj_t = S57_Obj_t.S57_LINES_T →
        simplifiedFrom 2 (lineVerts g1) (lineVerts g2)) ∧
      (zigzagLine.obj_t = S57_Obj_t.S57_AREAS_T →
        ∀ m, m < zigzagLine.ringnbr → simplifiedFrom 3 (ringVerts g1 m) (ringVerts g2 m)) :=
  C3_second_pass zigzagLine
    ⟨fun _ => ⟨by rw [GUINT_MOD_eq]; decide, fun _ => ⟨_, rfl, by decide⟩⟩,
     fun h => by simp [zigzagLine] at h⟩

/-! ## The elevation guard -/

theorem compact_cons_cases (a x y : pt3) (l : List pt3) :
    compact a (x :: y :: l) = a :: compact x (y :: l) ∨
    compact a (x :: y :: l) = compact a (y :: l) := by
  simp only [compact]
  split_ifs
  · left; rfl
  · right; rfl
  · left; rfl

theorem compact_retain (b c : pt3) (l2 : List pt3) (hz : b.z ≠ c.z) :
    ∀ (l1 : List pt3) (a : pt3),
      ∃ pre, compact a (l1 ++ b :: c :: l2) = pre ++ compact b (c :: l2) ∧
        pre.Sublist (a :: l1) := by
  intro l1
  induction l1 with
  | nil =>
    intro a
    exact ⟨[a], by simp [compact, hz], List.Sublist.refl _⟩
  | cons x t ih =>
    intro a
    obtain ⟨y, rest, hy⟩ : ∃ y rest, t ++ b :: c :: l2 = y :: rest := by
      cases t with
      | nil => exact ⟨b, c :: l2, rfl⟩
      | cons y t1 => exact ⟨y, t1 ++ b :: c :: l2, rfl⟩
    have e : (x :: t) ++ b :: c :: l2 = x :: y :: rest := by rw [← hy]; rfl
    rcases compact_cons_cases a x y rest with h | h
    · obtain ⟨pre, hp, hs⟩ := ih x
      refine ⟨a :: pre, ?_, hs.cons₂ a⟩
      rw [e, h, ← hy, hp]; rfl
    · obtain ⟨pre, hp, hs⟩ := ih a
      refine ⟨pre, ?_, hs.trans ((List.sublist_cons_self x t).cons₂ a)⟩
      rw [e, h, ← hy, hp]

theorem compact_cons_tail (b : pt3) (l : List pt3) :
    ∃ post, compact b l = b :: post ∧ post.Sublist l := by
  have hh := compact_head b l
  have hs := compact_sublist b l
  cases hc : compact b l with
  | nil => rw [hc] at hh; simp at hh
  | cons x post =>
    rw [hc] at hh hs
    simp only [List.head?_cons, Option.some.injEq] at hh
    subst hh
    exact ⟨post, rfl, List.cons_sublist_cons.mp hs⟩

/-- C4 (counterexample): in the buffer `A = (0,0,5)`, `B = (1,0,0)`, `C = (2,0,0)` the
vertex `B` is removed although its elevation differs from that of its neighbour `A`. -/
theorem C4_removed_across_elevation :
    (⟨0, 0, 5⟩ : pt3).z ≠ (⟨1, 0, 0⟩ : pt3).z ∧
    _delInLineSeg 3 [⟨0, 0, 5⟩, ⟨1, 0, 0⟩, ⟨2, 0, 0⟩]
      = some (2, [⟨0, 0, 5⟩, ⟨2, 0, 0⟩, ⟨2, 0, 0⟩]) := by
  constructor
  · norm_num
  · simp [_delInLineSeg, delLoop, delBody, memmove, guintSub, guint, GUINT_MOD_eq, _inLine, ABS,
      S57_GEO_TOLERANCE]
    norm_num

/-- C4 (amended): the elevation guard of `_delInLineSeg` compares a vertex with the
vertex that follows it only.  Whenever an iteration removes the vertex `B` standing
between `A` and `C` (the pointer `p` is not advanced), `B.z = C.z` holds (and
`_inLine(A, B, C)`); the elevation of `A` is not compared.  A vertex `B` whose elevation
differs from that of the vertex `C` following it is always retained: it stands in the
result between what is left of the vertices before it and what is left of the
vertices after it. -/
theorem C4_elevation_guard :
    (∀ (npt i : Nat) (s s1 : DelState), delBody npt i s = some s1 → s1.k = s.k →
      ∃ A B C, s.buf.get? s.k = some A ∧ s.buf.get? (s.k + 1) = some B ∧
        s.buf.get? (s.k + 2) = some C ∧ B.z = C.z ∧ _inLine A B C = true) ∧
    (∀ (npt : Nat) (ppt : List pt3) (a B C : pt3) (l1 l2 : List pt3),
      visible npt ppt = a :: (l1 ++ B :: C :: l2) → npt ≤ ppt.length → npt < GUINT_MOD →
      B.z ≠ C.z →
      ∃ j out pre post, _delInLineSeg npt ppt = some (j, out) ∧
        visible j out = pre ++ B :: post ∧ pre.Sublist (a :: l1) ∧ post.Sublist (C :: l2)) := by
  constructor
  · intro npt i s s1 h hk
    unfold delBody at h
    split at h
    · rename_i p1 p2 h1 h2
      split at h
      · cases h
        simp at hk
      · rename_i hz
        split at h
        · rename_i p0 h0
          split at h
          · rename_i hl
            exact ⟨p0, p1, p2, h0, h1, h2, by simpa using hz, hl⟩
          · cases h
            simp at hk
        · cases h
    · cases h
  · intro npt ppt a B C l1 l2 hv hle hG hz
    have hvl := visible_length npt ppt hle
    rw [hv] at hvl
    simp only [List.length_cons, List.length_append] at hvl
    obtain ⟨a1, rem, out, hv1, _, hrun, hout⟩ := delInLineSeg_visible npt ppt (by omega) hle hG
    rw [hv] at hv1
    simp only [List.cons.injEq] at hv1
    obtain ⟨ha, hrem⟩ := hv1
    subst ha
    subst hrem
    obtain ⟨pre, hp, hs⟩ := compact_retain B C l2 hz l1 a
    obtain ⟨post, hq, hs2⟩ := compact_cons_tail B (C :: l2)
    refine ⟨_, out, pre, post, hrun, ?_, hs, hs2⟩
    rw [hout, hp, hq]

theorem C4_elevation_guard_witness :
    ∃ j out pre post,
      _delInLineSeg 4 [⟨0, 0, 0⟩, ⟨1, 0, 0⟩, ⟨2, 0, 9⟩, ⟨3, 0, 9⟩] = some (j, out) ∧
      visible j out = pre ++ (⟨1, 0, 0⟩ : pt3) :: post ∧ pre.Sublist [⟨0, 0, 0⟩] ∧
      post.Sublist [⟨2, 0, 9⟩, ⟨3, 0, 9⟩] :=
  C4_elevation_guard.2 4 [⟨0, 0, 0⟩, ⟨1, 0, 0⟩, ⟨2, 0, 9⟩, ⟨3, 0, 9⟩]
    ⟨0, 0, 0⟩ ⟨1, 0, 0⟩ ⟨2, 0, 9⟩ [] [⟨3, 0, 9⟩] rfl (by decide)
    (by rw [GUINT_MOD_eq]; decide) (by norm_num)

/-! ## Overlap marking -/

theorem dblAt_x (ppt : List pt3) (i : Nat) (p : pt3) (h : ppt[i]? = some p) :
    dblAt ppt (i * 3) = some p.x := by
  unfold dblAt
  have e1 : i * 3 / 3 = i := by omega
  have e2 : i * 3 % 3 = 0 := by omega
  rw [List.get?_eq_getElem?, e1, h]
  simp [e2]

theorem dblAt_y (ppt : List pt3) (i : Nat) (p : pt3) (h : ppt[i]? = some p) :
    dblAt ppt (i * 3 + 1) = some p.y := by
  unfold dblAt
  have e1 : (i * 3 + 1) / 3 = i := by omega
  have e2 : (i * 3 + 1) % 3 = 1 := by omega
  rw [List.get?_eq_getElem?, e1, h]
  simp [e2]

theorem dblAt_none (ppt : List pt3) (i : Nat) (h : ppt.length ≤ i) :
    dblAt ppt (i * 3) = none := by
  unfold dblAt
  have e1 : i * 3 / 3 = i := by omega
  rw [List.get?_eq_getElem?, e1, List.getElem?_eq_none h]

theorem dblSet_z (ppt : List pt3) (i : Nat) (p : pt3) (v : ℚ) (h : ppt[i]? = some p) :
    dblSet ppt (i * 3 + 2) v = some (ppt.set i { p with z := v }) := by
  unfold dblSet
  have e1 : (i * 3 + 2) / 3 = i := by omega
  have e2 : (i * 3 + 2) % 3 = 2 := by omega
  rw [List.get?_eq_getElem?, e1, h]
  simp [e2]

/-- The test on vertex `i` of the owner against vertex `b` of the edge compares their
`x` and `y`. -/
theorem xyEq_vertex (ppt pptEdge : List pt3) (i b : Nat) (p q : pt3)
    (hp : ppt[i]? = some p) (hq : pptEdge[b]? = some q) (hi : i * 3 + 1 < GUINT_MOD) :
    xyEq ppt (guintMul i 3) pptEdge (b * 3) = some (decide (p.x = q.x ∧ p.y = q.y)) := by
  unfold xyEq
  rw [guintMul_eq i 3 (by omega), guintAdd_eq (i * 3) 1 hi, dblAt_x ppt i p hp,
    dblAt_x pptEdge b q hq, dblAt_y ppt i p hp, dblAt_y pptEdge b q hq]
  by_cases hx : p.x = q.x
  · simp [hx]
  · simp [hx]

theorem xyEq_first (ppt pptEdge : List pt3) (i : Nat) (p q : pt3)
    (hp : ppt[i]? = some p) (hq : pptEdge[0]? = some q) (hi : i * 3 + 1 < GUINT_MOD) :
    xyEq ppt (guintMul i 3) pptEdge 0 = some (decide (p.x = q.x ∧ p.y = q.y)) :=
  xyEq_vertex ppt pptEdge i 0 p q hp hq hi

theorem xyEq_second (ppt pptEdge : List pt3) (i : Nat) (p q : pt3)
    (hp : ppt[i]? = some p) (hq : pptEdge[1]? = some q) (hi : i * 3 + 1 < GUINT_MOD) :
    xyEq ppt (guintMul i 3) pptEdge 3 = some (decide (p.x = q.x ∧ p.y = q.y)) :=
  xyEq_vertex ppt pptEdge i 1 p q hp hq hi

/-- The search skips the owner vertices that differ from the first edge vertex. -/
theorem overlapSearch_skip (npt : Nat) (ppt pptEdge : List pt3) (q : pt3)
    (hq : pptEdge[0]? = some q) (hlen : npt ≤ ppt.length) (hG : npt * 3 < GUINT_MOD) :
    ∀ (d i0 fuel : Nat), i0 + d ≤ npt →
      (∀ k p, i0 ≤ k → k < i0 + d → ppt[k]? = some p → ¬(p.x = q.x ∧ p.y = q.y)) →
      overlapSearch npt ppt pptEdge (fuel + d) i0
        = overlapSearch npt ppt pptEdge fuel (i0 + d) := by
  intro d
  induction d with
  | zero => intro i0 fuel _ _; rfl
  | succ d ih =>
    intro i0 fuel hd hne
    have hi0 : i0 < ppt.length := by omega
    have hp : ppt[i0]? = some ppt[i0] := List.getElem?_eq_getElem hi0
    have hx := xyEq_first ppt pptEdge i0 ppt[i0] q hp hq (by omega)
    have hf : decide (ppt[i0].x = q.x ∧ ppt[i0].y = q.y) = false := by
      simpa using hne i0 ppt[i0] (le_refl _) (by omega) hp
    rw [hf] at hx
    have e : fuel + (d + 1) = (fuel + d) + 1 := by omega
    rw [e, overlapSearch, if_pos (by omega)]
    unfold overlapBody
    rw [hx]
    dsimp only
    rw [guintAdd_eq i0 1 (by omega), ih (i0 + 1) fuel (by omega)
      (fun k p h1 h2 h3 => hne k p (by omega) (by omega) h3)]
    have e2 : i0 + 1 + d = i0 + (d + 1) := by omega
    rw [e2]

theorem guintAddInt_one (i : Nat) (h : i + 1 < GUINT_MOD) : guintAddInt i 1 = i + 1 := by
  rw [GUINT_MOD_eq] at h
  unfold guintAddInt
  omega

theorem guintAddInt_neg_one (i : Nat) (h1 : 1 ≤ i) (h : i < GUINT_MOD) :
    guintAddInt i (-1) = i - 1 := by
  rw [GUINT_MOD_eq] at h
  unfold guintAddInt
  omega

theorem overlapSearch_no_match (npt : Nat) (ppt pptEdge : List pt3) (q : pt3)
    (hq : pptEdge[0]? = some q) (hlen : npt ≤ ppt.length) (hG : npt * 3 < GUINT_MOD)
    (hne : ∀ k p, k < npt → ppt[k]? = some p → ¬(p.x = q.x ∧ p.y = q.y)) :
    overlapSearch npt ppt pptEdge npt 0 = some (0, npt) := by
  have h := overlapSearch_skip npt ppt pptEdge q hq hlen hG npt 0 0 (by omega)
    (fun k p _ h2 h3 => hne k p (by omega) h3)
  simp only [Nat.zero_add] at h
  rw [h, overlapSearch, if_neg (lt_irrefl npt)]

theorem overlapSearch_forward (npt : Nat) (ppt pptEdge : List pt3) (q0 q1 p0 p1 : pt3) (i : Nat)
    (hq0 : pptEdge[0]? = some q0) (hq1 : pptEdge[1]? = some q1)
    (hlen : npt ≤ ppt.length) (hG : npt * 3 < GUINT_MOD)
    (hi : i + 1 < npt) (hp0 : ppt[i]? = some p0) (hp1 : ppt[i + 1]? = some p1)
    (hm0 : p0.x = q0.x ∧ p0.y = q0.y) (hm1 : p1.x = q1.x ∧ p1.y = q1.y)
    (hne : ∀ k p, k < i → ppt[k]? = some p → ¬(p.x = q0.x ∧ p.y = q0.y)) :
    overlapSearch npt ppt pptEdge npt 0 = some (1, i) := by
  have h := overlapSearch_skip npt ppt pptEdge q0 hq0 hlen hG i 0 (npt - i) (by omega)
    (fun k p _ h2 h3 => hne k p (by omega) h3)
  have e1 : npt - i + i = npt := by omega
  have e2 : npt - i = (npt - i - 1) + 1 := by omega
  simp only [Nat.zero_add] at h
  rw [e1] at h
  rw [h, e2, overlapSearch, if_pos (by omega)]
  unfold overlapBody
  rw [xyEq_first ppt pptEdge i p0 q0 hp0 hq0 (by omega)]
  have d0 : decide (p0.x = q0.x ∧ p0.y = q0.y) = true := by simpa using hm0
  rw [d0]
  dsimp only
  rw [guintSub_eq npt 1 (by omega), if_neg (by omega)]
  unfold overlapAhead
  rw [guintAdd_eq i 1 (by omega), xyEq_second ppt pptEdge (i + 1) p1 q1 hp1 hq1 (by omega)]
  have d1 : decide (p1.x = q1.x ∧ p1.y = q1.y) = true := by simpa using hm1
  rw [d1]

/-- The vertex left at index `k` by marking the vertices `lo ≤ k < hi` of a buffer. -/
theorem markLoop_forward (Z : ℚ) :
    ∀ (n i : Nat) (ppt : List pt3), i + n ≤ ppt.length → (i + n) * 3 < GUINT_MOD →
      ∃ out, markLoop Z 1 n i ppt = some out ∧ out.length = ppt.length ∧
        ∀ (k : Nat) (p : pt3), ppt[k]? = some p →
          out[k]? = some (if i ≤ k ∧ k < i + n then { p with z := -Z } else p) := by
  intro n
  induction n with
  | zero =>
    intro i ppt _ _
    refine ⟨ppt, rfl, rfl, fun k p hk => ?_⟩
    rw [if_neg (by omega)]
    exact hk
  | succ n ih =>
    intro i ppt hlen hG
    have hi : i < ppt.length := by omega
    have hp : ppt[i]? = some ppt[i] := List.getElem?_eq_getElem hi
    obtain ⟨out, hrun, hol, hk⟩ :=
      ih (i + 1) (ppt.set i { ppt[i] with z := -Z }) (by simp; omega) (by omega)
    refine ⟨out, ?_, by simpa using hol, fun k p hkp => ?_⟩
    · rw [markLoop, guintMul_eq i 3 (by omega), guintAdd_eq (i * 3) 2 (by omega),
        dblSet_z ppt i ppt[i] (-Z) hp]
      dsimp only
      rw [guintAddInt_one i (by omega)]
      exact hrun
    · by_cases hki : k = i
      · subst hki
        rw [hp] at hkp
        cases hkp
        rw [hk k { ppt[k] with z := -Z } (by rw [List.getElem?_set_self hi]),
          if_neg (by omega), if_pos (by omega)]
      · rw [hk k p (by rw [List.getElem?_set_ne (fun h => hki h.symm)]; exact hkp)]
        by_cases hr : i + 1 ≤ k ∧ k < i + 1 + n
        · rw [if_pos hr, if_pos (by omega)]
        · rw [if_neg hr, if_neg (by omega)]

theorem getGeoData_area (geo : _S57_geo) (nbr : List Nat) (xyz : List (List pt3))
    (ring : List pt3) (npt : Nat)
    (hA : geo.obj_t = S57_Obj_t.S57_AREAS_T) (hnbr : geo.ringxyznbr = some nbr)
    (hxyz : geo.ringxyz = some xyz) (hn0 : nbr[0]? = some npt) (hr0 : xyz[0]? = some ring) :
    S57_getGeoData geo 0
      = some { ret := decide (geo.geoSize ≤ npt ∧ npt ≠ 0), npt := npt, ppt := some ring } := by
  unfold S57_getGeoData
  rw [if_neg (by omega)]
  have hs : geoDataSwitch geo 0 = some (npt, some ring) := by
    unfold geoDataSwitch
    rw [hA]
    simp [hnbr, hxyz, hn0, hr0]
  rw [hs]
  dsimp only
  by_cases h1 : npt < geo.geoSize
  · rw [if_pos ⟨rfl, h1⟩]
    have : decide (geo.geoSize ≤ npt ∧ npt ≠ 0) = false := by
      simp only [decide_eq_false_iff_not]; omega
    rw [this]
  · rw [if_neg (by omega)]
    by_cases h2 : npt = 0
    · rw [if_pos h2]
      have : decide (geo.geoSize ≤ npt ∧ npt ≠ 0) = false := by
        simp only [decide_eq_false_iff_not]; omega
      rw [this]
    · rw [if_neg h2]
      have : decide (geo.geoSize ≤ npt ∧ npt ≠ 0) = true := by
        simp only [decide_eq_true_eq]; omega
      rw [this]

theorem getGeoData_line (geo : _S57_geo) (e : List pt3)
    (hL : geo.obj_t = S57_Obj_t.S57_LINES_T) (he : geo.linexyz = some e) :
    S57_getGeoData geo 0
      = some { ret := decide (geo.geoSize ≤ geo.linexyznbr ∧ geo.linexyznbr ≠ 0),
               npt := geo.linexyznbr, ppt := some e } := by
  unfold S57_getGeoData
  rw [if_neg (by rw [hL]; simp)]
  have hs : geoDataSwitch geo 0 = some (geo.linexyznbr, some e) := by
    unfold geoDataSwitch
    rw [hL]
    simp [he]
  rw [hs]
  dsimp only
  by_cases h1 : geo.linexyznbr < geo.geoSize
  · rw [if_pos ⟨rfl, h1⟩]
    have : decide (geo.geoSize ≤ geo.linexyznbr ∧ geo.linexyznbr ≠ 0) = false := by
      simp only [decide_eq_false_iff_not]; omega
    rw [this]
  · rw [if_neg (by omega)]
    by_cases h2 : geo.linexyznbr = 0
    · rw [if_pos h2]
      have : decide (geo.geoSize ≤ geo.linexyznbr ∧ geo.linexyznbr ≠ 0) = false := by
        simp only [decide_eq_false_iff_not]; omega
      rw [this]
    · rw [if_neg h2]
      have : decide (geo.geoSize ≤ geo.linexyznbr ∧ geo.linexyznbr ≠ 0) = true := by
        simp only [decide_eq_true_eq]; omega
      rw [this]

theorem putGeoData_area (geo : _S57_geo) (xyz : List (List pt3)) (buf : List pt3)
    (hA : geo.obj_t = S57_Obj_t.S57_AREAS_T) (hxyz : geo.ringxyz = some xyz) :
    putGeoData geo buf = { geo with ringxyz := some (xyz.set 0 buf) } := by
  unfold putGeoData
  rw [hA]
  simp [hxyz]

/-- C5: forward overlap marking.  For an owner Area not named `M_COVR` whose outer ring
has `npt` vertices and an edge Line of `n ≥ 2` vertices: if `i` is the smallest owner
index whose `(x, y)` is that of the first edge vertex, `i < npt - 1`, owner vertex
`i + 1` has the `(x, y)` of the second edge vertex and `i + n ≤ npt`, then
`S57_markOverlapGeo` returns `TRUE` and the owner differs from before only in its outer
ring, where the vertices `i .. i+n-1` have elevation `-S57_OVERLAP_GEO_Z` and every
`x`, every `y` and every other elevation is unchanged. -/
theorem C5_mark_forward (Z : ℚ) (geo edge : _S57_geo) (nbr : List Nat)
    (xyz : List (List pt3)) (ring e : List pt3) (npt n i : Nat) (p0 p1 q0 q1 : pt3)
    (hname : geo.name ≠ "M_COVR")
    (hA : geo.obj_t = S57_Obj_t.S57_AREAS_T) (hnbr : geo.ringxyznbr = some nbr)
    (hxyz : geo.ringxyz = some xyz) (hn0 : nbr[0]? = some npt) (hr0 : xyz[0]? = some ring)
    (hcap : npt ≤ ring.length) (hsize : geo.geoSize ≤ npt) (hG : npt * 3 < GUINT_MOD)
    (hL : edge.obj_t = S57_Obj_t.S57_LINES_T) (he : edge.linexyz = some e)
    (hen : edge.linexyznbr = n) (hn2 : 2 ≤ n) (hesize : edge.geoSize ≤ n)
    (hq0 : e[0]? = some q0) (hq1 : e[1]? = some q1)
    (hi : i + 1 < npt) (hp0 : ring[i]? = some p0) (hp1 : ring[i + 1]? = some p1)
    (hm0 : p0.x = q0.x ∧ p0.y = q0.y)
    (hfirst : ∀ k p, k < i → ring[k]? = some p → ¬(p.x = q0.x ∧ p.y = q0.y))
    (hm1 : p1.x = q1.x ∧ p1.y = q1.y) (hrun : i + n ≤ npt) :
    ∃ out, S57_markOverlapGeo Z geo edge
          = some (true, { geo with ringxyz := some (xyz.set 0 out) }) ∧
      out.length = ring.length ∧
      ∀ (k : Nat) (p : pt3), ring[k]? = some p →
        out[k]? = some (if i ≤ k ∧ k < i + n then { p with z := -Z } else p) := by
  obtain ⟨out, hmark, hol, hk⟩ := markLoop_forward Z n i ring (by omega) (by omega)
  refine ⟨out, ?_, hol, hk⟩
  have hd := getGeoData_area geo nbr xyz ring npt hA hnbr hxyz hn0 hr0
  have hdt : decide (geo.geoSize ≤ npt ∧ npt ≠ 0) = true := by
    simp only [decide_eq_true_eq]; omega
  rw [hdt] at hd
  have hed := getGeoData_line edge e hL he
  have het : decide (edge.geoSize ≤ edge.linexyznbr ∧ edge.linexyznbr ≠ 0) = true := by
    simp only [decide_eq_true_eq]; omega
  rw [het, hen] at hed
  have hs := overlapSearch_forward npt ring e q0 q1 p0 p1 i hq0 hq1 hcap hG hi hp0 hp1 hm0 hm1
    hfirst
  unfold S57_markOverlapGeo
  rw [if_neg hname, hd]
  dsimp only
  rw [if_neg (by decide), hed]
  dsimp only
  rw [if_neg (by decide), hs]
  dsimp only
  rw [if_neg (by decide), if_neg (fun h => absurd h.1 (by decide)),
    guintAdd_eq n i (by omega), if_neg (by omega), hmark]
  dsimp only
  rw [putGeoData_area geo xyz out hA hxyz]

theorem C5_mark_forward_witness :
    ∃ out, S57_markOverlapGeo 10000 squareArea (edgeLine [⟨0, 0, 0⟩, ⟨1, 0, 0⟩])
          = some (true, { squareArea with ringxyz := some ([squareRing].set 0 out) }) ∧
      out.length = squareRing.length ∧
      ∀ (k : Nat) (p : pt3), squareRing[k]? = some p →
        out[k]? = some (if 0 ≤ k ∧ k < 0 + 2 then { p with z := -10000 } else p) :=
  C5_mark_forward 10000 squareArea (edgeLine [⟨0, 0, 0⟩, ⟨1, 0, 0⟩]) [4] [squareRing]
    squareRing [⟨0, 0, 0⟩, ⟨1, 0, 0⟩] 4 2 0 ⟨0, 0, 0⟩ ⟨1, 0, 0⟩ ⟨0, 0, 0⟩ ⟨1, 0, 0⟩
    (by decide) rfl rfl rfl rfl rfl (by decide) (by decide) (by rw [GUINT_MOD_eq]; decide)
    rfl rfl rfl (by decide) (by decide) rfl rfl (by decide) rfl rfl ⟨rfl, rfl⟩
    (fun k _ hk => absurd hk (Nat.not_lt_zero k)) ⟨rfl, rfl⟩ (by decide)

/-- C6: overlap marking without alignment.  For an owner Area not named `M_COVR` and an
edge Line with non-empty geometry: if no vertex of the owner's outer ring has the
`(x, y)` of the first edge vertex, `S57_markOverlapGeo` returns `FALSE` and the owner
is unchanged, every coordinate and every elevation included. -/
theorem C6_no_alignment (Z : ℚ) (geo edge : _S57_geo) (nbr : List Nat)
    (xyz : List (List pt3)) (ring e : List pt3) (npt : Nat) (q0 : pt3)
    (hname : geo.name ≠ "M_COVR")
    (hA : geo.obj_t = S57_Obj_t.S57_AREAS_T) (hnbr : geo.ringxyznbr = some nbr)
    (hxyz : geo.ringxyz = some xyz) (hn0 : nbr[0]? = some npt) (hr0 : xyz[0]? = some ring)
    (hcap : npt ≤ ring.length) (hG : npt * 3 < GUINT_MOD)
    (hL : edge.obj_t = S57_Obj_t.S57_LINES_T) (he : edge.linexyz = some e)
    (hq0 : e[0]? = some q0)
    (hnone : ∀ k p, k < npt → ring[k]? = some p → ¬(p.x = q0.x ∧ p.y = q0.y)) :
    S57_markOverlapGeo Z geo edge = some (false, geo) := by
  have hd := getGeoData_area geo nbr xyz ring npt hA hnbr hxyz hn0 hr0
  have hed := getGeoData_line edge e hL he
  have hs := overlapSearch_no_match npt ring e q0 hq0 hcap hG hnone
  unfold S57_markOverlapGeo
  rw [if_neg hname, hd]
  dsimp only
  by_cases h1 : decide (geo.geoSize ≤ npt ∧ npt ≠ 0) = false
  · rw [if_pos h1]
  · rw [if_neg h1, hed]
    dsimp only
    by_cases h2 : decide (edge.geoSize ≤ edge.linexyznbr ∧ edge.linexyznbr ≠ 0) = false
    · rw [if_pos h2]
    · rw [if_neg h2, hs]
      dsimp only
      rw [if_pos rfl]

theorem C6_no_alignment_witness :
    S57_markOverlapGeo 10000 squareArea (edgeLine [⟨5, 1, 0⟩, ⟨1, 1, 0⟩])
      = some (false, squareArea) :=
  C6_no_alignment 10000 squareArea (edgeLine [⟨5, 1, 0⟩, ⟨1, 1, 0⟩]) [4] [squareRing]
    squareRing [⟨5, 1, 0⟩, ⟨1, 1, 0⟩] 4 ⟨5, 1, 0⟩
    (by decide) rfl rfl rfl rfl rfl (by decide) (by rw [GUINT_MOD_eq]; decide) rfl rfl rfl
    (by
      intro k p hk hp
      have h4 : k = 0 ∨ k = 1 ∨ k = 2 ∨ k = 3 := by omega
      rcases h4 with h | h | h | h <;> subst h <;>
        simp [squareRing] at hp <;> subst hp <;> norm_num)

/-! ## Runs that leave the owner ring -/

theorem overlapAhead_brk (npt : Nat) (ppt pptEdge : List pt3) (i0 i1 : Nat) (next : Int)
    (h : overlapAhead npt ppt pptEdge i0 = some (SearchStep.brk next i1)) (hi : i0 < npt) :
    (next = 1 ∨ next = -1) ∧ i1 < npt := by
  have hw : (if i0 = 0 then guintSub npt 1 else i0) < npt := by
    split_ifs with h0
    · rw [guintSub_eq npt 1 (by omega)]; omega
    · exact hi
  unfold overlapAhead at h
  split at h
  · cases h
  · cases h
    exact ⟨Or.inl rfl, hi⟩
  · split at h
    · cases h
    · cases h
      exact ⟨Or.inr rfl, hw⟩
    · cases h

theorem overlapBody_brk (npt : Nat) (ppt pptEdge : List pt3) (i0 i1 : Nat) (next : Int)
    (h : overlapBody npt ppt pptEdge i0 = some (SearchStep.brk next i1)) (hi : i0 < npt) :
    (next = 1 ∨ next = -1) ∧ i1 < npt := by
  unfold overlapBody at h
  split at h
  · cases h
  · cases h
  · split at h
    · split at h
      · cases h
      · cases h
        exact ⟨Or.inr rfl, hi⟩
      · exact overlapAhead_brk npt ppt pptEdge i0 i1 next h hi
    · exact overlapAhead_brk npt ppt pptEdge i0 i1 next h hi

theorem overlapAhead_cont (npt : Nat) (ppt pptEdge : List pt3) (i0 i1 : Nat)
    (h : overlapAhead npt ppt pptEdge i0 = some (SearchStep.cont i1)) (hi : i0 < npt) :
    i0 ≤ i1 ∧ i1 < npt := by
  have hw : i0 ≤ (if i0 = 0 then guintSub npt 1 else i0) ∧
      (if i0 = 0 then guintSub npt 1 else i0) < npt := by
    split_ifs with h0
    · rw [guintSub_eq npt 1 (by omega)]; omega
    · exact ⟨le_refl _, hi⟩
  unfold overlapAhead at h
  split at h
  · cases h
  · cases h
  · split at h
    · cases h
    · cases h
    · cases h
      exact hw

theorem overlapBody_cont (npt : Nat) (ppt pptEdge : List pt3) (i0 i1 : Nat)
    (h : overlapBody npt ppt pptEdge i0 = some (SearchStep.cont i1)) (hi : i0 < npt) :
    i0 ≤ i1 ∧ i1 < npt := by
  unfold overlapBody at h
  split at h
  · cases h
  · cases h
    exact ⟨le_refl _, hi⟩
  · split at h
    · split at h
      · cases h
      · cases h
      · exact overlapAhead_cont npt ppt pptEdge i0 i1 h hi
    · exact overlapAhead_cont npt ppt pptEdge i0 i1 h hi

/-- The bound on the number of iterations is never what ends the search: from `npt`
iterations on, allowing more iterations does not change its result. -/
theorem overlapSearch_fuel (npt : Nat) (ppt pptEdge : List pt3) (hG : npt < GUINT_MOD) :
    ∀ (fuel i0 : Nat), npt ≤ i0 + fuel →
      overlapSearch npt ppt pptEdge (fuel + 1) i0 = overlapSearch npt ppt pptEdge fuel i0 := by
  intro fuel
  induction fuel with
  | zero =>
    intro i0 h
    have hi : ¬i0 < npt := by omega
    simp only [overlapSearch, if_neg hi]
  | succ fuel ih =>
    intro i0 h
    rw [overlapSearch.eq_def npt ppt pptEdge (fuel + 1 + 1) i0,
      overlapSearch.eq_def npt ppt pptEdge (fuel + 1) i0]
    dsimp only
    by_cases hi : i0 < npt
    · rw [if_pos hi, if_pos hi]
      cases hb : overlapBody npt ppt pptEdge i0 with
      | none => rfl
      | some st =>
        cases st with
        | brk next i1 => rfl
        | cont i1 =>
          obtain ⟨h1, h2⟩ := overlapBody_cont npt ppt pptEdge i0 i1 hb hi
          dsimp only
          rw [guintAdd_eq i1 1 (by omega)]
          exact ih (i1 + 1) (by omega)
    · rw [if_neg hi, if_neg hi]

theorem overlapSearch_result (npt : Nat) (ppt pptEdge : List pt3) :
    ∀ (fuel i0 : Nat) (next : Int) (i : Nat),
      overlapSearch npt ppt pptEdge fuel i0 = some (next, i) →
      next = 0 ∨ ((next = 1 ∨ next = -1) ∧ i < npt) := by
  intro fuel
  induction fuel with
  | zero =>
    intro i0 next i h
    unfold overlapSearch at h
    split at h
    · cases h
    · cases h
      exact Or.inl rfl
  | succ fuel ih =>
    intro i0 next i h
    unfold overlapSearch at h
    split at h
    · rename_i hi
      split at h
      · cases h
      · rename_i n1 i1 hb
        cases h
        exact Or.inr (overlapBody_brk npt ppt pptEdge i0 i next hb hi)
      · exact ih _ next i h
    · cases h
      exact Or.inl rfl

theorem markIndices_forward :
    ∀ (n i : Nat), i + n ≤ GUINT_MOD → ∀ k ∈ markIndices 1 n i, i ≤ k ∧ k < i + n := by
  intro n
  induction n with
  | zero => intro i _ k hk; simp [markIndices] at hk
  | succ n ih =>
    intro i hG k hk
    simp only [markIndices, List.mem_cons] at hk
    rcases hk with hk | hk
    · omega
    · cases n with
      | zero => simp [markIndices] at hk
      | succ m =>
        rw [guintAddInt_one i (by omega)] at hk
        have := ih (i + 1) (by omega) k hk
        omega

theorem markIndices_backward :
    ∀ (n i : Nat), n ≤ i + 1 → i < GUINT_MOD → ∀ k ∈ markIndices (-1) n i, k ≤ i := by
  intro n
  induction n with
  | zero => intro i _ _ k hk; simp [markIndices] at hk
  | succ n ih =>
    intro i hn hG k hk
    simp only [markIndices, List.mem_cons] at hk
    rcases hk with hk | hk
    · omega
    · cases n with
      | zero => simp [markIndices] at hk
      | succ m =>
        rw [guintAddInt_neg_one i (by omega) hG] at hk
        have := ih (i - 1) (by omega) (by omega) k hk
        omega

/-- The marking loop changes the buffer at the vertices of `markIndices` only. -/
theorem markLoop_frame (Z : ℚ) (next : Int) :
    ∀ (n i : Nat) (ppt out : List pt3), markLoop Z next n i ppt = some out →
      (∀ k ∈ markIndices next n i, k * 3 + 2 < GUINT_MOD) →
      out.length = ppt.length ∧ ∀ k, k ∉ markIndices next n i → out[k]? = ppt[k]? := by
  intro n
  induction n with
  | zero =>
    intro i ppt out h _
    simp only [markLoop, Option.some.injEq] at h
    subst h
    exact ⟨rfl, fun _ _ => rfl⟩
  | succ n ih =>
    intro i ppt out h hG
    have hi : i * 3 + 2 < GUINT_MOD := hG i (by simp [markIndices])
    rw [markLoop, guintMul_eq i 3 (by omega), guintAdd_eq (i * 3) 2 hi] at h
    cases hp : ppt[i]? with
    | none =>
      have hd : dblSet ppt (i * 3 + 2) (-Z) = none := by
        unfold dblSet
        have e1 : (i * 3 + 2) / 3 = i := by omega
        rw [List.get?_eq_getElem?, e1, hp]
      rw [hd] at h
      cases h
    | some p =>
      rw [dblSet_z ppt i p (-Z) hp] at h
      dsimp only at h
      obtain ⟨hl, hk⟩ := ih _ _ _ h (fun k hk => hG k (by simp [markIndices, hk]))
      refine ⟨by simpa using hl, fun k hkn => ?_⟩
      simp only [markIndices, List.mem_cons, not_or] at hkn
      rw [hk k hkn.2, List.getElem?_set_ne (fun h => hkn.1 h.symm)]

theorem toInt32_sub_neg (a b : Nat) (hab : a < b) (hb : b < 2147483648) :
    toInt32 (guintSub a b) < 0 := by
  have hsub : guintSub a b = a + 4294967296 - b := by
    unfold guintSub
    rw [if_neg (by omega), GUINT_MOD_eq]
  have e : (a + 4294967296 - b) % 4294967296 = a + 4294967296 - b := by omega
  unfold toInt32
  rw [hsub, GUINT_MOD_eq, e, if_neg (by omega)]
  omega

theorem markOverlapGeo_unfold (Z : ℚ) (geo edge : _S57_geo) (npt n : Nat)
    (ppt pptEdge : List pt3) (next : Int) (i : Nat)
    (hname : geo.name ≠ "M_COVR")
    (hd : S57_getGeoData geo 0 = some { ret := true, npt := npt, ppt := some ppt })
    (hed : S57_getGeoData edge 0 = some { ret := true, npt := n, ppt := some pptEdge })
    (hs : overlapSearch npt ppt pptEdge npt 0 = some (next, i)) :
    S57_markOverlapGeo Z geo edge =
      if next = 0 then some (false, geo)
      else if next = -1 ∧ toInt32 (guintSub (guintAdd i 1) n) < 0 then some (false, geo)
      else if next = 1 ∧ guintAdd n i > npt then some (false, geo)
      else
        match markLoop Z next n i ppt with
        | some ppt1 => some (true, putGeoData geo ppt1)
        | none => none := by
  unfold S57_markOverlapGeo
  rw [if_neg hname, hd]
  dsimp only
  rw [if_neg (by decide), hed]
  dsimp only
  rw [if_neg (by decide), hs]

/-- C7: runs that leave the owner ring are rejected before any vertex is marked.  When
the search of `S57_markOverlapGeo` ends with an alignment at owner index `i` and the
`n` vertices of the edge would run past the ring (forward with `i + n > npt`, backward
with `n > i + 1`), the function returns `FALSE` and the owner is unchanged; and
whenever it returns `TRUE` (the owner not being `M_COVR`), every vertex index the
marking loop goes through is below `npt` and the buffer is changed at these indices
only. -/
theorem C7_run_leaves_ring (Z : ℚ) (geo edge : _S57_geo) (npt n : Nat)
    (ppt pptEdge : List pt3) (next : Int) (i : Nat)
    (hname : geo.name ≠ "M_COVR")
    (hd : S57_getGeoData geo 0 = some { ret := true, npt := npt, ppt := some ppt })
    (hed : S57_getGeoData edge 0 = some { ret := true, npt := n, ppt := some pptEdge })
    (hG : npt * 3 < GUINT_MOD) (hn : n < 2147483648)
    (hs : overlapSearch npt ppt pptEdge npt 0 = some (next, i)) :
    (((next = 1 ∧ npt < i + n) ∨ (next = -1 ∧ i + 1 < n)) →
      S57_markOverlapGeo Z geo edge = some (false, geo)) ∧
    (∀ g1, S57_markOverlapGeo Z geo edge = some (true, g1) →
      ∃ out, markLoop Z next n i ppt = some out ∧ g1 = putGeoData geo out ∧
        (∀ k ∈ markIndices next n i, k < npt) ∧ out.length = ppt.length ∧
        ∀ k, k ∉ markIndices next n i → out[k]? = ppt[k]?) := by
  have hform := markOverlapGeo_unfold Z geo edge npt n ppt pptEdge next i hname hd hed hs
  have hres := overlapSearch_result npt ppt pptEdge npt 0 next i hs
  have hG2 : npt * 3 < 4294967296 := by rw [← GUINT_MOD_eq]; exact hG
  constructor
  · intro hcase
    rw [hform]
    rcases hcase with ⟨h1, hrun⟩ | ⟨h1, hrun⟩
    · have hi : i < npt := by
        rcases hres with h0 | ⟨_, h⟩
        · rw [h1] at h0; exact absurd h0 (by decide)
        · exact h
      subst h1
      rw [if_neg (by decide), if_neg (fun h => absurd h.1 (by decide)),
        guintAdd_eq n i (by rw [GUINT_MOD_eq]; omega), if_pos ⟨rfl, by omega⟩]
    · have hi : i < npt := by
        rcases hres with h0 | ⟨_, h⟩
        · rw [h1] at h0; exact absurd h0 (by decide)
        · exact h
      subst h1
      rw [if_neg (by decide), guintAdd_eq i 1 (by rw [GUINT_MOD_eq]; omega),
        if_pos ⟨rfl, toInt32_sub_neg (i + 1) n hrun hn⟩]
  · intro g1 hg
    rw [hform] at hg
    rcases hres with h0 | ⟨hnext, hi⟩
    · rw [if_pos h0] at hg
      cases hg
    · have hne0 : next ≠ 0 := by
        rcases hnext with h | h <;> rw [h] <;> decide
      rw [if_neg hne0] at hg
      split at hg
      · cases hg
      · rename_i hback
        split at hg
        · cases hg
        · rename_i hfwd
          cases hm : markLoop Z next n i ppt with
          | none => rw [hm] at hg; cases hg
          | some out =>
            rw [hm] at hg
            simp only [Option.some.injEq, Prod.mk.injEq, true_and] at hg
            have hidx : ∀ k ∈ markIndices next n i, k < npt := by
              rcases hnext with h | h
              · subst h
                rw [guintAdd_eq n i (by rw [GUINT_MOD_eq]; omega)] at hfwd
                have hle : i + n ≤ npt := by
                  by_contra hc
                  exact hfwd ⟨rfl, by omega⟩
                intro k hk
                have := markIndices_forward n i (by rw [GUINT_MOD_eq]; omega) k hk
                omega
              · subst h
                rw [guintAdd_eq i 1 (by rw [GUINT_MOD_eq]; omega)] at hback
                have hle : n ≤ i + 1 := by
                  by_contra hc
                  exact hback ⟨rfl, toInt32_sub_neg (i + 1) n (by omega) hn⟩
                intro k hk
                have := markIndices_backward n i hle (by rw [GUINT_MOD_eq]; omega) k hk
                omega
            obtain ⟨hl, hfr⟩ := markLoop_frame Z next n i ppt out hm
              (fun k hk => by
                have := hidx k hk
                rw [GUINT_MOD_eq]
                omega)
            exact ⟨out, rfl, hg.symm, hidx, hl, hfr⟩

theorem C7_run_leaves_ring_witness :
    ((((1 : Int) = 1 ∧ 4 < 2 + 3) ∨ ((1 : Int) = -1 ∧ 2 + 1 < 3)) →
      S57_markOverlapGeo 10000 squareArea (edgeLine [⟨1, 1, 0⟩, ⟨0, 1, 0⟩, ⟨0, 0, 0⟩])
        = some (false, squareArea)) ∧
    (∀ g1, S57_markOverlapGeo 10000 squareArea (edgeLine [⟨1, 1, 0⟩, ⟨0, 1, 0⟩, ⟨0, 0, 0⟩])
        = some (true, g1) →
      ∃ out, markLoop 10000 1 3 2 squareRing = some out ∧ g1 = putGeoData squareArea out ∧
        (∀ k ∈ markIndices 1 3 2, k < 4) ∧ out.length = squareRing.length ∧
        ∀ k, k ∉ markIndices 1 3 2 → out[k]? = squareRing[k]?) :=
  C7_run_leaves_ring 10000 squareArea (edgeLine [⟨1, 1, 0⟩, ⟨0, 1, 0⟩, ⟨0, 0, 0⟩]) 4 3
    squareRing [⟨1, 1, 0⟩, ⟨0, 1, 0⟩, ⟨0, 0, 0⟩] 1 2 (by decide)
    (by simp [S57_getGeoData, geoDataSwitch, squareArea])
    (by simp [S57_getGeoData, geoDataSwitch, edgeLine])
    (by rw [GUINT_MOD_eq]; decide) (by decide)
    (by
      simp [overlapSearch, overlapBody, overlapAhead, overlapBack, xyEq, dblAt, guintMul,
        guintAdd, guintSub, GUINT_MOD_eq, squareRing])

/-! ## Wraparound of the search -/

/-- C8 (the code at the failing input): on the ring `(0,0) (1,0) (1,1) (0,1)` the edge
`(0,0) (0,1)`, whose second vertex is the owner vertex before index 0 across the ring
start, gets no alignment (the search ends with `next = 0`, the function returns
`FALSE`); for the edge `(0,1) (0,0)`, whose second vertex is the owner vertex after
the last index, the forward test reads owner vertex 4, outside the buffer. -/
theorem C8_wraparound_missed :
    overlapSearch 4 squareRing [⟨0, 0, 0⟩, ⟨0, 1, 0⟩] 4 0 = some (0, 4) ∧
    S57_markOverlapGeo 10000 squareArea (edgeLine [⟨0, 0, 0⟩, ⟨0, 1, 0⟩])
      = some (false, squareArea) ∧
    xyEq squareRing (guintMul (guintAdd 3 1) 3) [⟨0, 1, 0⟩, ⟨0, 0, 0⟩] 3 = none ∧
    S57_markOverlapGeo 10000 squareArea (edgeLine [⟨0, 1, 0⟩, ⟨0, 0, 0⟩]) = none := by
  refine ⟨?_, ?_, ?_, ?_⟩
  · simp [overlapSearch, overlapBody, overlapAhead, overlapBack, xyEq, dblAt, guintMul,
      guintAdd, guintSub, GUINT_MOD_eq, squareRing]
  · have hname : ¬("" : String) = "M_COVR" := by decide
    simp [S57_markOverlapGeo, S57_getGeoData, geoDataSwitch, squareArea, edgeLine,
      overlapSearch, overlapBody, overlapAhead, overlapBack, xyEq, dblAt, guintMul,
      guintAdd, guintSub, GUINT_MOD_eq, squareRing, hname]
  · simp [xyEq, dblAt, guintMul, guintAdd, GUINT_MOD_eq, squareRing]
  · have hname : ¬("" : String) = "M_COVR" := by decide
    simp [S57_markOverlapGeo, S57_getGeoData, geoDataSwitch, squareArea, edgeLine,
      overlapSearch, overlapBody, overlapAhead, overlapBack, xyEq, dblAt, guintMul,
      guintAdd, guintSub, GUINT_MOD_eq, squareRing, hname]

/-! ## Primitive holder -/

theorem toInt32_small (u : Nat) (h : u < 2147483648) : toInt32 u = (u : Int) := by
  unfold toInt32
  rw [GUINT_MOD_eq]
  have e : u % 4294967296 = u := by omega
  rw [e, if_pos h]

theorem ofInt32_natCast (u : Nat) (h : u < 2147483648) : ofInt32 (u : Int) = u := by
  unfold ofInt32
  omega

theorem addPrimVertex_foldl (vs : List pt3) :
    ∀ p : _S57_prim,
      (vs.foldl S57_addPrimVertex p).list = p.list ∧
      (vs.foldl S57_addPrimVertex p).DList = p.DList ∧
      (vs.foldl S57_addPrimVertex p).vertex.data = p.vertex.data ++ vs := by
  induction vs with
  | nil => intro p; simp
  | cons v t ih =>
    intro p
    obtain ⟨h1, h2, h3⟩ := ih (S57_addPrimVertex p v)
    simp only [List.foldl_cons]
    refine ⟨h1, h2, ?_⟩
    rw [h3]
    simp [S57_addPrimVertex, g_array_append_val]

/-- C9: for every holder with a vertex buffer of length `L`, every mode `m` and every
`n` vertices (with `L + n` in the range of the `int` fields of a descriptor):
`S57_begPrim(m)`, `n` calls of `S57_addPrimVertex` and `S57_endPrim` return `TRUE` and
leave a holder whose last descriptor, read with `S57_getPrimIdx`, is
`{mode = m, first = L, count = n}`, whose vertex buffer is the old one followed by the
`n` vertices (length `L + n`), and whose earlier descriptors and handle are unchanged. -/
theorem C9_prim_descriptor (prim : _S57_prim) (m : Int) (vs : List pt3)
    (hint : prim.vertex.len + vs.length < 2147483648) :
    ∃ prim3, S57_endPrim (vs.foldl S57_addPrimVertex (S57_begPrim prim m)) = some (true, prim3) ∧
      prim3.list.len = prim.list.len + 1 ∧
      S57_getPrimIdx prim3 (prim3.list.len - 1)
        = some { mode := m, first := (prim.vertex.len : Int), count := some (vs.length : Int) } ∧
      prim3.vertex.len = prim.vertex.len + vs.length ∧
      prim3.vertex.data = prim.vertex.data ++ vs ∧
      (∀ i, i < prim.list.len → prim3.list.data.get? i = prim.list.data.get? i) ∧
      prim3.DList = prim.DList := by
  obtain ⟨h1, h2, h3⟩ := addPrimVertex_foldl vs (S57_begPrim prim m)
  have hl : (S57_begPrim prim m).list.data
      = prim.list.data ++ [{ mode := m, first := (prim.vertex.len : Int), count := none }] := by
    simp [S57_begPrim, g_array_append_val, toInt32_small prim.vertex.len (by omega)]
  have hal : (S57_begPrim prim m).list.allocated = true := rfl
  have hv : (S57_begPrim prim m).vertex = prim.vertex := rfl
  have hD : (S57_begPrim prim m).DList = prim.DList := rfl
  have hlen : (vs.foldl S57_addPrimVertex (S57_begPrim prim m)).list.len = prim.list.len + 1 := by
    rw [h1]; simp [GArray.len, hl]
  have hidx : guintSub (prim.list.len + 1) 1 = prim.list.len := by
    rw [guintSub_eq _ 1 (by omega)]; omega
  have hget : (prim.list.data ++ [(⟨m, (prim.vertex.len : Int), none⟩ : _prim)]).get?
      prim.list.len = some ⟨m, (prim.vertex.len : Int), none⟩ := by
    simp [GArray.len]
  have hvl : (vs.foldl S57_addPrimVertex (S57_begPrim prim m)).vertex.len
      = prim.vertex.len + vs.length := by
    simp [GArray.len, h3, hv]
  have hcount : toInt32 (guintSub (prim.vertex.len + vs.length)
      (ofInt32 (prim.vertex.len : Int))) = (vs.length : Int) := by
    rw [ofInt32_natCast _ (by omega), guintSub_eq _ _ (by omega),
      Nat.add_sub_cancel_left, toInt32_small _ (by omega)]
  unfold S57_endPrim
  rw [hlen, hidx]
  have hnull : elemPtrIsNull (vs.foldl S57_addPrimVertex (S57_begPrim prim m)).list
      prim.list.len = false := by
    simp [elemPtrIsNull, h1, hal]
  rw [hnull, if_neg (by decide), h1, hl, hget]
  dsimp only
  rw [hvl, hcount]
  refine ⟨_, rfl, ?_, ?_, ?_, ?_, ?_, ?_⟩
  · simp [GArray.len]
  · simp [S57_getPrimIdx, GArray.len, elemPtrIsNull, hal]
  · simp only [GArray.len, h3, hv, List.length_append]
  · rw [h3, hv]
  · intro i hi
    simp only [GArray.len] at hi
    simp [GArray.len, List.getElem?_set_ne (Nat.ne_of_gt hi), List.getElem?_append_left hi]
  · rw [h2, hD]

theorem C9_prim_descriptor_witness :
    ∃ prim3,
      S57_endPrim
          ([(⟨1, 2, 3⟩ : pt3), ⟨4, 5, 6⟩, ⟨7, 8, 9⟩].foldl S57_addPrimVertex
            (S57_begPrim (S57_initPrim none) 4)) = some (true, prim3) ∧
      prim3.list.len = (S57_initPrim none).list.len + 1 ∧
      S57_getPrimIdx prim3 (prim3.list.len - 1)
        = some { mode := 4, first := ((S57_initPrim none).vertex.len : Int),
                 count := some (([(⟨1, 2, 3⟩ : pt3), ⟨4, 5, 6⟩, ⟨7, 8, 9⟩].length : Nat) : Int) } ∧
      prim3.vertex.len
        = (S57_initPrim none).vertex.len + [(⟨1, 2, 3⟩ : pt3), ⟨4, 5, 6⟩, ⟨7, 8, 9⟩].length ∧
      prim3.vertex.data
        = (S57_initPrim none).vertex.data ++ [(⟨1, 2, 3⟩ : pt3), ⟨4, 5, 6⟩, ⟨7, 8, 9⟩] ∧
      (∀ i, i < (S57_initPrim none).list.len →
        prim3.list.data.get? i = (S57_initPrim none).list.data.get? i) ∧
      prim3.DList = (S57_initPrim none).DList :=
  C9_prim_descriptor (S57_initPrim none) 4 [⟨1, 2, 3⟩, ⟨4, 5, 6⟩, ⟨7, 8, 9⟩] (by decide)

/-- C10 (the code at the failing input): on a holder whose descriptor list is empty
`S57_endPrim` does not return `FALSE`.  The index `len - 1` wraps to `2^32 - 1`, the
address of that element is not `NULL`, so the `NULL == p` test does not fire and
`p->count` is written outside the (empty) descriptor array: undefined behaviour. -/
theorem C10_endPrim_empty_list (prim : _S57_prim) (h : prim.list.data = []) :
    guintSub prim.list.len 1 = 4294967295 ∧
    elemPtrIsNull prim.list (guintSub prim.list.len 1) = false ∧
    S57_endPrim prim = none ∧ S57_endPrim prim ≠ some (false, prim) := by
  have hidx : guintSub prim.list.len 1 = 4294967295 := by
    simp [GArray.len, h, guintSub, GUINT_MOD_eq]
  have hnull : elemPtrIsNull prim.list 4294967295 = false := by
    simp [elemPtrIsNull]
  have hrun : S57_endPrim prim = none := by
    unfold S57_endPrim
    rw [hidx, hnull, if_neg (by decide), h]
    rfl
  refine ⟨hidx, by rw [hidx]; exact hnull, hrun, ?_⟩
  rw [hrun]
  exact fun h => Option.noConfusion h

theorem C10_endPrim_empty_list_witness :
    guintSub (S57_initPrim none).list.len 1 = 4294967295 ∧
    elemPtrIsNull (S57_initPrim none).list (guintSub (S57_initPrim none).list.len 1) = false ∧
    S57_endPrim (S57_initPrim none) = none ∧
    S57_endPrim (S57_initPrim none) ≠ some (false, S57_initPrim none) :=
  C10_endPrim_empty_list (S57_initPrim none) rfl

/-! ## A second `S57_endPrim` -/

/-- The effect of `S57_endPrim` on a holder whose descriptor array is allocated and
ends with the descriptor `d`. -/
theorem endPrim_last (prim : _S57_prim) (pre : List _prim) (d : _prim)
    (hl : prim.list.data = pre ++ [d]) (hal : prim.list.allocated = true) :
    S57_endPrim prim = some (true,
      { prim with
        list := { prim.list with
          data := pre ++ [{ d with
            count := some (toInt32 (guintSub prim.vertex.len (ofInt32 d.first))) }] } }) := by
  have hlen : prim.list.len = pre.length + 1 := by simp [GArray.len, hl]
  have hidx : guintSub (pre.length + 1) 1 = pre.length := by
    rw [guintSub_eq _ 1 (by omega)]; omega
  have hnull : elemPtrIsNull prim.list pre.length = false := by
    simp [elemPtrIsNull, hal]
  have hget : (pre ++ [d]).get? pre.length = some d := by simp
  unfold S57_endPrim
  rw [hlen, hidx, hnull, if_neg (by decide), hl, hget]
  simp

/-- Vertices added to a holder whose last descriptor `d` starts at vertex `F`, then
`S57_endPrim`: the call returns `TRUE` and gives `d` the count of the vertices from `F`
on. -/
theorem endPrim_after_add (prim : _S57_prim) (pre : List _prim) (d : _prim) (F : Nat)
    (vs : List pt3) (hl : prim.list.data = pre ++ [d]) (hal : prim.list.allocated = true)
    (hF : d.first = (F : Int)) (hFle : F ≤ prim.vertex.len)
    (hint : prim.vertex.len + vs.length < 2147483648) :
    ∃ prim1, S57_endPrim (vs.foldl S57_addPrimVertex prim) = some (true, prim1) ∧
      prim1.list.data
        = pre ++ [{ d with count := some ((prim.vertex.len + vs.length - F : Nat) : Int) }] ∧
      prim1.list.allocated = true ∧ prim1.vertex.data = prim.vertex.data ++ vs ∧
      prim1.DList = prim.DList := by
  obtain ⟨h1, h2, h3⟩ := addPrimVertex_foldl vs prim
  have hvl : (vs.foldl S57_addPrimVertex prim).vertex.len = prim.vertex.len + vs.length := by
    simp only [GArray.len, h3, List.length_append]
  have hc : toInt32 (guintSub (prim.vertex.len + vs.length) (ofInt32 d.first))
      = ((prim.vertex.len + vs.length - F : Nat) : Int) := by
    rw [hF, ofInt32_natCast _ (by omega), guintSub_eq _ _ (by omega), toInt32_small _ (by omega)]
  have e := endPrim_last (vs.foldl S57_addPrimVertex prim) pre d (by rw [h1]; exact hl)
    (by rw [h1]; exact hal)
  rw [hvl, hc] at e
  exact ⟨_, e, rfl, by rw [h1]; exact hal, h3, h2⟩

/-- C11 (counterexample): on a new holder, after `S57_begPrim(4)` and a first
`S57_endPrim` (count 0), one `S57_addPrimVertex` and a second `S57_endPrim` without
`S57_begPrim` in between, the second call returns `TRUE` and the count of the closed
descriptor has become 1. -/
theorem C11_second_endPrim_accepted :
    S57_endPrim (S57_begPrim (S57_initPrim none) 4)
      = some (true, { list := { data := [⟨4, 0, some 0⟩], allocated := true },
                      vertex := g_array_new, DList := 0 }) ∧
    S57_endPrim (S57_addPrimVertex
        { list := { data := [⟨4, 0, some 0⟩], allocated := true },
          vertex := g_array_new, DList := 0 } ⟨1, 2, 3⟩)
      = some (true, { list := { data := [⟨4, 0, some 1⟩], allocated := true },
                      vertex := { data := [⟨1, 2, 3⟩], allocated := true }, DList := 0 }) := by
  constructor
  · rw [endPrim_last (S57_begPrim (S57_initPrim none) 4) [] ⟨4, toInt32 0, none⟩ rfl rfl]
    simp [S57_begPrim, S57_initPrim, g_array_new, g_array_append_val, GArray.len, toInt32,
      ofInt32, guintSub, GUINT_MOD_eq]
  · rw [endPrim_last _ [] ⟨4, 0, some 0⟩ rfl rfl]
    simp [S57_addPrimVertex, g_array_new, g_array_append_val, GArray.len, toInt32,
      ofInt32, guintSub, GUINT_MOD_eq]

/-- When `S57_endPrim` returns `FALSE`: exactly when the address of the last descriptor,
`list->data + (len - 1)`, is `NULL`, that is when the descriptor array has no storage
and `len - 1` is 0; the holder is then left as it is. -/
theorem endPrim_false (q : _S57_prim) :
    (∀ r, S57_endPrim q = some (false, r) →
      q.list.allocated = false ∧ guintSub q.list.len 1 = 0 ∧ r = q) ∧
    (q.list.allocated = false ∧ guintSub q.list.len 1 = 0 → S57_endPrim q = some (false, q)) := by
  constructor
  · intro r h
    unfold S57_endPrim at h
    split at h
    · rename_i hn
      simp only [Option.some.injEq, Prod.mk.injEq, true_and] at h
      simp only [elemPtrIsNull, Bool.and_eq_true, Bool.not_eq_true', beq_iff_eq] at hn
      exact ⟨hn.1, hn.2, h.symm⟩
    · split at h
      · exact absurd (congrArg (fun o => o.map Prod.fst) h) (by simp)
      · exact absurd h (by simp)
  · rintro ⟨h1, h2⟩
    unfold S57_endPrim
    have hn : elemPtrIsNull q.list (guintSub q.list.len 1) = true := by
      simp [elemPtrIsNull, h1, h2]
    rw [if_pos hn]

/-- C11 (amended): a second `S57_endPrim` without an intervening `S57_begPrim` is not
rejected.  After `S57_begPrim(m)`, `n1` vertices and a first `S57_endPrim`, then `n2`
more vertices and a second `S57_endPrim`: both calls return `TRUE`, the first leaves
the last descriptor `{m, L, n1}` and the second leaves it `{m, L, n1 + n2}`, the
earlier descriptors being unchanged; the count is therefore unchanged exactly when no
vertex was added between the two calls.  On any holder, `S57_endPrim` returns `FALSE`
only when the descriptor array has no storage (and exactly when, besides, `len - 1` is
0), and it then leaves the holder as it is. -/
theorem C11_second_endPrim (prim : _S57_prim) (m : Int) (vs1 vs2 : List pt3)
    (hint : prim.vertex.len + vs1.length + vs2.length < 2147483648) :
    (∃ prim3 prim5,
      S57_endPrim (vs1.foldl S57_addPrimVertex (S57_begPrim prim m)) = some (true, prim3) ∧
      S57_endPrim (vs2.foldl S57_addPrimVertex prim3) = some (true, prim5) ∧
      prim3.list.data
        = prim.list.data ++ [⟨m, (prim.vertex.len : Int), some (vs1.length : Int)⟩] ∧
      prim5.list.data
        = prim.list.data
          ++ [⟨m, (prim.vertex.len : Int), some ((vs1.length + vs2.length : Nat) : Int)⟩] ∧
      S57_getPrimIdx prim5 (prim5.list.len - 1)
        = some ⟨m, (prim.vertex.len : Int), some ((vs1.length + vs2.length : Nat) : Int)⟩) ∧
    ((((vs1.length + vs2.length : Nat) : Int) = (vs1.length : Int)) ↔ vs2 = []) ∧
    (∀ q r : _S57_prim, S57_endPrim q = some (false, r) →
      q.list.allocated = false ∧ guintSub q.list.len 1 = 0 ∧ r = q) ∧
    (∀ q : _S57_prim, q.list.allocated = false ∧ guintSub q.list.len 1 = 0 →
      S57_endPrim q = some (false, q)) := by
  have hb : (S57_begPrim prim m).list.data
      = prim.list.data ++ [⟨m, (prim.vertex.len : Int), none⟩] := by
    simp [S57_begPrim, g_array_append_val, toInt32_small prim.vertex.len (by omega)]
  have hbv : (S57_begPrim prim m).vertex = prim.vertex := rfl
  obtain ⟨prim3, e1, l1, a1, v1, _⟩ :=
    endPrim_after_add (S57_begPrim prim m) prim.list.data ⟨m, (prim.vertex.len : Int), none⟩
      prim.vertex.len vs1 hb rfl rfl (by rw [hbv]) (by rw [hbv]; omega)
  have hv3 : prim3.vertex.len = prim.vertex.len + vs1.length := by
    simp only [GArray.len, v1, hbv, List.length_append]
  rw [hbv] at l1
  have l1b : prim3.list.data
      = prim.list.data ++ [⟨m, (prim.vertex.len : Int), some (vs1.length : Int)⟩] := by
    rw [l1]
    simp
  obtain ⟨prim5, e2, l2, a2, _, _⟩ :=
    endPrim_after_add prim3 prim.list.data ⟨m, (prim.vertex.len : Int), some (vs1.length : Int)⟩
      prim.vertex.len vs2 l1b a1 rfl (by omega) (by omega)
  have l2b : prim5.list.data = prim.list.data
      ++ [⟨m, (prim.vertex.len : Int), some ((vs1.length + vs2.length : Nat) : Int)⟩] := by
    rw [l2, hv3]
    simp
    omega
  refine ⟨⟨prim3, prim5, e1, e2, l1b, l2b, ?_⟩, ?_, fun q => (endPrim_false q).1,
    fun q => (endPrim_false q).2⟩
  · simp [S57_getPrimIdx, GArray.len, elemPtrIsNull, l2b, a2]
  · constructor
    · intro h
      have h0 : vs2.length = 0 := by omega
      exact List.length_eq_zero.mp h0
    · intro h
      rw [h]
      simp

theorem C11_second_endPrim_witness :
    (∃ prim3 prim5,
      S57_endPrim ([(⟨1, 2, 3⟩ : pt3)].foldl S57_addPrimVertex
          (S57_begPrim (S57_initPrim none) 4)) = some (true, prim3) ∧
      S57_endPrim ([(⟨4, 5, 6⟩ : pt3), ⟨7, 8, 9⟩].foldl S57_addPrimVertex prim3)
        = some (true, prim5) ∧
      prim3.list.data
        = (S57_initPrim none).list.data
          ++ [⟨4, ((S57_initPrim none).vertex.len : Int),
               some (([(⟨1, 2, 3⟩ : pt3)].length : Nat) : Int)⟩] ∧
      prim5.list.data
        = (S57_initPrim none).list.data
          ++ [⟨4, ((S57_initPrim none).vertex.len : Int),
               some (([(⟨1, 2, 3⟩ : pt3)].length
                 + [(⟨4, 5, 6⟩ : pt3), ⟨7, 8, 9⟩].length : Nat) : Int)⟩] ∧
      S57_getPrimIdx prim5 (prim5.list.len - 1)
        = some ⟨4, ((S57_initPrim none).vertex.len : Int),
            some (([(⟨1, 2, 3⟩ : pt3)].length
              + [(⟨4, 5, 6⟩ : pt3), ⟨7, 8, 9⟩].length : Nat) : Int)⟩) ∧
    (((([(⟨1, 2, 3⟩ : pt3)].length + [(⟨4, 5, 6⟩ : pt3), ⟨7, 8, 9⟩].length : Nat) : Int)
        = ([(⟨1, 2, 3⟩ : pt3)].length : Int)) ↔ [(⟨4, 5, 6⟩ : pt3), ⟨7, 8, 9⟩] = []) ∧
    (∀ q r : _S57_prim, S57_endPrim q = some (false, r) →
      q.list.allocated = false ∧ guintSub q.list.len 1 = 0 ∧ r = q) ∧
    (∀ q : _S57_prim, q.list.allocated = false ∧ guintSub q.list.len 1 = 0 →
      S57_endPrim q = some (false, q)) :=
  C11_second_endPrim (S57_initPrim none) 4 [⟨1, 2, 3⟩] [⟨4, 5, 6⟩, ⟨7, 8, 9⟩] (by decide)

/-! ## Point in polygon -/

/-- C12: for the axis-aligned rectangle ring `(x0,y0) (x1,y0) (x1,y1) (x0,y1)` with
`x0 < x1` and `y0 < y1` (any elevations), `S57_isPtInside` with `close = FALSE` returns
1 for every point with `x0 < x < x1` and `y0 < y < y1`, and returns 0 for every point
with `x < x0`, `x > x1`, `y < y0` or `y > y1`. -/
theorem C12_rectangle (x0 y0 x1 y1 za zb zc zd x y : ℚ) (hx : x0 < x1) (hy : y0 < y1) :
    ((x0 < x ∧ x < x1 ∧ y0 < y ∧ y < y1) →
      S57_isPtInside 4 [⟨x0, y0, za⟩, ⟨x1, y0, zb⟩, ⟨x1, y1, zc⟩, ⟨x0, y1, zd⟩] false x y
        = some 1) ∧
    ((x < x0 ∨ x > x1 ∨ y < y0 ∨ y > y1) →
      S57_isPtInside 4 [⟨x0, y0, za⟩, ⟨x1, y0, zb⟩, ⟨x1, y1, zc⟩, ⟨x0, y1, zd⟩] false x y
        = some 0) := by
  have hrun : S57_isPtInside 4 [⟨x0, y0, za⟩, ⟨x1, y0, zb⟩, ⟨x1, y1, zc⟩, ⟨x0, y1, zd⟩] false x y
      = some (if (decide (y1 > y) != decide (y0 > y)) && decide (x < x1) then
          notInt (if (decide (y0 > y) != decide (y1 > y)) && decide (x < x0) then notInt 0 else 0)
        else (if (decide (y0 > y) != decide (y1 > y)) && decide (x < x0) then notInt 0 else 0)) := by
    have n4 : ((4 : Int)).toNat = 4 := rfl
    have n3 : ((4 : Int) - 1).toNat = 3 := rfl
    unfold S57_isPtInside
    rw [if_neg (by decide), if_neg (by decide), n4, n3]
    simp [insideOpen, edgeCrosses]
  rw [hrun]
  constructor
  · rintro ⟨h1, h2, h3, h4⟩
    have a1 : decide (y1 > y) = true := by simpa using h4
    have a2 : decide (y0 > y) = false := by simpa using le_of_lt h3
    have a3 : decide (x < x1) = true := by simpa using h2
    have a4 : decide (x < x0) = false := by simpa using le_of_lt h1
    simp [a1, a2, a3, a4, notInt]
  · intro h
    by_cases c1 : y0 > y
    · have c2 : y1 > y := lt_trans c1 hy
      simp [c1, c2]
    · by_cases c2 : y1 > y
      · have b1 : decide (y0 > y) = false := by simpa using c1
        have b2 : decide (y1 > y) = true := by simpa using c2
        have hxx : x < x0 ∨ x > x1 := by
          rcases h with h | h | h | h
          · exact Or.inl h
          · exact Or.inr h
          · exact absurd h c1
          · exact absurd c2 (not_lt.mpr (le_of_lt h))
        rcases hxx with h | h
        · have b3 : decide (x < x0) = true := by simpa using h
          have b4 : decide (x < x1) = true := by simpa using lt_trans h hx
          simp [b1, b2, b3, b4, notInt]
        · have b3 : decide (x < x0) = false := by simpa using le_of_lt (lt_trans hx h)
          have b4 : decide (x < x1) = false := by simpa using le_of_lt h
          simp [b1, b2, b3, b4]
      · have b1 : decide (y0 > y) = false := by simpa using c1
        have b2 : decide (y1 > y) = false := by simpa using c2
        simp [b1, b2]

theorem C12_rectangle_witness :
    ((0 : ℚ) < 10 ∧ (0 : ℚ) < 10) ∧
    S57_isPtInside 4 [⟨0, 0, 0⟩, ⟨10, 0, 0⟩, ⟨10, 10, 0⟩, ⟨0, 10, 0⟩] false 5 5 = some 1 ∧
    S57_isPtInside 4 [⟨0, 0, 0⟩, ⟨10, 0, 0⟩, ⟨10, 10, 0⟩, ⟨0, 10, 0⟩] false 15 15 = some 0 :=
  ⟨by norm_num,
   (C12_rectangle 0 0 10 10 0 0 0 0 5 5 (by norm_num) (by norm_num)).1 (by norm_num),
   (C12_rectangle 0 0 10 10 0 0 0 0 15 15 (by norm_num) (by norm_num)).2 (by norm_num)⟩

/-! ## The two ring conventions -/

theorem edgeCrosses_symm (p1 p2 : pt3) (x y : ℚ) :
    edgeCrosses p1 p2 x y = edgeCrosses p2 p1 x y := by
  unfold edgeCrosses
  by_cases h : decide (p1.y > y) = decide (p2.y > y)
  · simp [h]
  · have hne : p1.y ≠ p2.y := by
      intro e
      apply h
      rw [e]
    have h1 : p2.y - p1.y ≠ 0 := sub_ne_zero.mpr (Ne.symm hne)
    have h2 : p1.y - p2.y ≠ 0 := sub_ne_zero.mpr hne
    have e : (p2.x - p1.x) * (y - p1.y) / (p2.y - p1.y) + p1.x
        = (p1.x - p2.x) * (y - p2.y) / (p1.y - p2.y) + p2.x := by
      field_simp
      ring
    rw [e]
    have hs : (decide (p1.y > y) != decide (p2.y > y)) = (decide (p2.y > y) != decide (p1.y > y)) := by
      cases decide (p1.y > y) <;> cases decide (p2.y > y) <;> rfl
    rw [hs]

theorem tog_comm (a b : Bool) (c : Int) : tog a (tog b c) = tog b (tog a c) := by
  cases a <;> cases b <;> simp [tog]

theorem tglList_tog (x y : ℚ) (b : Bool) :
    ∀ (l : List pt3) (c : Int), tglList x y l (tog b c) = tog b (tglList x y l c) := by
  intro l
  induction l with
  | nil => intro c; simp [tglList]
  | cons a t ih =>
    intro c
    cases t with
    | nil => simp [tglList]
    | cons d u =>
      simp only [tglList]
      rw [tog_comm, ih]

theorem tglListRev_eq (x y : ℚ) :
    ∀ (l : List pt3) (c : Int), tglListRev x y l c = tglList x y l c := by
  intro l
  induction l with
  | nil => intro c; simp [tglList, tglListRev]
  | cons a t ih =>
    intro c
    cases t with
    | nil => simp [tglList, tglListRev]
    | cons d u =>
      simp only [tglList, tglListRev]
      rw [ih, edgeCrosses_symm]

theorem tglList_snoc (x y : ℚ) (z : pt3) :
    ∀ (a : pt3) (t : List pt3) (c : Int),
      tglList x y (a :: t ++ [z]) c
        = tog (edgeCrosses ((a :: t).getLast (List.cons_ne_nil a t)) z x y) (tglList x y (a :: t) c) := by
  intro a t
  induction t generalizing a with
  | nil => intro c; simp [tglList]
  | cons d u ih =>
    intro c
    have h := ih d (tog (edgeCrosses a d x y) c)
    simp only [List.cons_append] at h
    have e : tglList x y (a :: d :: u ++ [z]) c
        = tglList x y (d :: (u ++ [z])) (tog (edgeCrosses a d x y) c) := rfl
    have e2 : tglList x y (a :: d :: u) c
        = tglList x y (d :: u) (tog (edgeCrosses a d x y) c) := rfl
    rw [e, e2, h]
    simp

theorem insideClose_list (x y : ℚ) :
    ∀ (n : Nat) (pre l suf : List pt3) (c : Int), l.length = n + 1 →
      insideClose (pre ++ l ++ suf) x y n pre.length c = some (tglList x y l c) := by
  intro n
  induction n with
  | zero =>
    intro pre l suf c hl
    match l, hl with
    | [a], _ => simp [insideClose, tglList]
  | succ k ih =>
    intro pre l suf c hl
    match l, hl with
    | a :: b :: t, hl =>
      have g0 : (pre ++ (a :: b :: t) ++ suf).get? pre.length = some a := by
        have := getOpt_append_add pre ((a :: b :: t) ++ suf) 0
        simpa using this
      have g1 : (pre ++ (a :: b :: t) ++ suf).get? (pre.length + 1) = some b := by
        have := getOpt_append_add pre ((a :: b :: t) ++ suf) 1
        simpa using this
      unfold insideClose
      rw [g0, g1]
      dsimp only
      have e : pre ++ (a :: b :: t) ++ suf = (pre ++ [a]) ++ (b :: t) ++ suf := by simp
      have e2 : pre.length + 1 = (pre ++ [a]).length := by simp
      rw [e, e2, ih (pre ++ [a]) (b :: t) suf _ (by simpa using hl)]
      simp [tglList, tog]

theorem insideOpen_list (x y : ℚ) :
    ∀ (n : Nat) (pre l suf : List pt3) (c : Int), l.length = n + 1 →
      insideOpen (pre ++ l ++ suf) x y n (pre.length + 1) pre.length c
        = some (tglListRev x y l c) := by
  intro n
  induction n with
  | zero =>
    intro pre l suf c hl
    match l, hl with
    | [a], _ => simp [insideOpen, tglListRev]
  | succ k ih =>
    intro pre l suf c hl
    match l, hl with
    | a :: b :: t, hl =>
      have g0 : (pre ++ (a :: b :: t) ++ suf).get? pre.length = some a := by
        have := getOpt_append_add pre ((a :: b :: t) ++ suf) 0
        simpa using this
      have g1 : (pre ++ (a :: b :: t) ++ suf).get? (pre.length + 1) = some b := by
        have := getOpt_append_add pre ((a :: b :: t) ++ suf) 1
        simpa using this
      unfold insideOpen
      rw [g1, g0]
      dsimp only
      have e : pre ++ (a :: b :: t) ++ suf = (pre ++ [a]) ++ (b :: t) ++ suf := by simp
      have e2 : pre.length + 1 = (pre ++ [a]).length := by simp
      rw [e, e2, ih (pre ++ [a]) (b :: t) suf _ (by simpa using hl)]
      simp [tglListRev, tog]

theorem getOpt_last (a : pt3) (t : List pt3) :
    (a :: t).get? t.length = some ((a :: t).getLast (List.cons_ne_nil a t)) := by
  induction t generalizing a with
  | nil => simp
  | cons d u ih =>
    have h := ih d
    simpa using h

theorem isPtInside_open_list (v0 : pt3) (rest : List pt3) (x y : ℚ) :
    S57_isPtInside ((rest.length + 1 : Nat) : Int) (v0 :: rest) false x y
      = some (tglList x y (v0 :: rest)
          (tog (edgeCrosses v0 ((v0 :: rest).getLast (List.cons_ne_nil v0 rest)) x y) 0)) := by
  unfold S57_isPtInside
  have n0 : ¬ (((rest.length + 1 : Nat) : Int) = 0) := by omega
  have n1 : (((rest.length + 1 : Nat) : Int)).toNat = rest.length + 1 := by omega
  have n2 : (((rest.length + 1 : Nat) : Int) - 1).toNat = rest.length := by omega
  rw [if_neg n0, if_neg (by decide), n1, n2]
  unfold insideOpen
  have g0 : (v0 :: rest).get? 0 = some v0 := rfl
  rw [g0, getOpt_last]
  dsimp only
  have h := insideOpen_list x y rest.length [] (v0 :: rest) []
    (if edgeCrosses v0 ((v0 :: rest).getLast (List.cons_ne_nil v0 rest)) x y = true then notInt 0 else 0)
    (by simp)
  simp only [List.nil_append, List.append_nil, List.length_nil, Nat.zero_add] at h
  rw [h, tglListRev_eq]
  rfl

theorem isPtInside_close_list (v0 : pt3) (rest : List pt3) (x y : ℚ) :
    S57_isPtInside ((rest.length + 1 + 1 : Nat) : Int) (v0 :: rest ++ [v0]) true x y
      = some (tglList x y (v0 :: rest ++ [v0]) 0) := by
  unfold S57_isPtInside
  have n0 : ¬ (((rest.length + 1 + 1 : Nat) : Int) = 0) := by omega
  have n2 : (((rest.length + 1 + 1 : Nat) : Int) - 1).toNat = rest.length + 1 := by omega
  rw [if_neg n0, if_pos rfl, n2]
  have h := insideClose_list x y (rest.length + 1) [] (v0 :: rest ++ [v0]) [] 0 (by simp)
  simp only [List.nil_append, List.append_nil, List.length_nil] at h
  exact h

/-- C13: for every non-empty vertex list `r = v0 :: rest` (of `n` vertices) and every
point, `S57_isPtInside` on the closed list `r ++ [v0]` with `npt = n + 1` and
`close = TRUE` returns a value, and it is the value `S57_isPtInside` returns on `r` with
`npt = n` and `close = FALSE`. -/
theorem C13_conventions_agree (v0 : pt3) (rest : List pt3) (x y : ℚ) :
    ∃ c : Int,
      S57_isPtInside ((rest.length + 1 + 1 : Nat) : Int) (v0 :: rest ++ [v0]) true x y = some c ∧
      S57_isPtInside ((rest.length + 1 : Nat) : Int) (v0 :: rest) false x y = some c := by
  refine ⟨_, isPtInside_close_list v0 rest x y, ?_⟩
  rw [isPtInside_open_list, tglList_snoc, tglList_tog, edgeCrosses_symm]

/-! ## `S57_touch` -/

theorem notInt_range (c : Int) : notInt c = 0 ∨ notInt c = 1 := by
  unfold notInt
  split
  · exact Or.inr rfl
  · exact Or.inl rfl

theorem insideClose_total (v : List pt3) (x y : ℚ) :
    ∀ (n i : Nat) (c : Int), (n = 0 ∨ i + n < v.length) → (c = 0 ∨ c = 1) →
      ∃ r, insideClose v x y n i c = some r ∧ (r = 0 ∨ r = 1) := by
  intro n
  induction n with
  | zero => intro i c _ hc; exact ⟨c, rfl, hc⟩
  | succ k ih =>
    intro i c hn hc
    have hlen : i + (k + 1) < v.length := by
      rcases hn with h | h
      · omega
      · exact h
    have h0 : i < v.length := by omega
    have h1 : i + 1 < v.length := by omega
    unfold insideClose
    rw [List.get?_eq_get h0, List.get?_eq_get h1]
    dsimp only
    apply ih
    · right; omega
    · split
      · exact notInt_range c
      · exact hc

theorem isPtInside_close_total (npt : Nat) (pt : List pt3) (x y : ℚ) (h : npt ≤ pt.length) :
    ∃ r, S57_isPtInside (npt : Int) pt true x y = some r ∧ (r = 0 ∨ r = 1) := by
  unfold S57_isPtInside
  by_cases h0 : (npt : Int) = 0
  · rw [if_pos h0]; exact ⟨0, rfl, Or.inl rfl⟩
  · rw [if_neg h0, if_pos rfl]
    have e : ((npt : Int) - 1).toNat = npt - 1 := by omega
    rw [e]
    apply insideClose_total
    · right; omega
    · exact Or.inl rfl

theorem touchLoop_spec (nptB : Int) (pptB : List pt3)
    (htot : ∀ x y : ℚ, ∃ r, S57_isPtInside nptB pptB true x y = some r) :
    ∀ (n : Nat) (pptA : List pt3), n ≤ pptA.length →
      ∃ b, touchLoop nptB pptB n pptA = some b ∧
        (b = true ↔ ∃ p ∈ pptA.take n, S57_isPtInside nptB pptB true p.x p.y = some 1) := by
  intro n
  induction n with
  | zero => intro pptA _; exact ⟨false, rfl, by simp⟩
  | succ k ih =>
    intro pptA hl
    match pptA, hl with
    | p :: rest, hl =>
      obtain ⟨r, hr⟩ := htot p.x p.y
      unfold touchLoop
      dsimp only
      rw [hr]
      dsimp only
      by_cases h1 : r = 1
      · rw [if_pos h1]
        refine ⟨true, rfl, ?_⟩
        simp only [true_iff]
        exact ⟨p, by simp, by rw [hr, h1]⟩
      · rw [if_neg h1]
        obtain ⟨b, hb, hiff⟩ := ih rest (by simpa using hl)
        refine ⟨b, hb, ?_⟩
        rw [hiff]
        constructor
        · rintro ⟨q, hq, hq1⟩
          exact ⟨q, by simp [hq], hq1⟩
        · rintro ⟨q, hq, hq1⟩
          simp only [List.take_succ_cons, List.mem_cons] at hq
          rcases hq with e | hq
          · rw [e, hr] at hq1
            exact absurd (Option.some.inj hq1) h1
          · exact ⟨q, hq, hq1⟩

/-- C14: for features A and B whose primary geometry is non-empty (`S57_getGeoData`
with ring 0 returns `TRUE` with `nA` vertices in buffer `pA`, resp. `nB` in `pB`, the
buffers holding at least that many vertices and `nB` below `2^31`), `S57_touch(A,B)`
returns; the two features after the call are the features before it; the result is
`FALSE` whenever B is a Line; otherwise it is `TRUE` if and only if one of the first
`nA` vertices of `pA` makes `S57_isPtInside(nB, pB, TRUE, x, y)` return 1 (the only
non-zero value it returns). -/
theorem C14_touch (geoA geoB : _S57_geo) (nA nB : Nat) (pA pB : List pt3)
    (hA : S57_getGeoData geoA 0 = some { ret := true, npt := nA, ppt := some pA })
    (hB : S57_getGeoData geoB 0 = some { ret := true, npt := nB, ppt := some pB })
    (hlA : nA ≤ pA.length) (hlB : nB ≤ pB.length) (hB31 : nB < 2147483648) :
    (∀ x y : ℚ, ∃ r, S57_isPtInside (nB : Int) pB true x y = some r ∧ (r = 0 ∨ r = 1)) ∧
    ∃ b, S57_touch geoA geoB = some (b, geoA, geoB) ∧
      (geoB.obj_t = S57_Obj_t.S57_LINES_T → b = false) ∧
      (geoB.obj_t ≠ S57_Obj_t.S57_LINES_T →
        (b = true ↔ ∃ p ∈ pA.take nA, S57_isPtInside (nB : Int) pB true p.x p.y = some 1)) := by
  have htot := fun x y => isPtInside_close_total nB pB x y hlB
  refine ⟨htot, ?_⟩
  unfold S57_touch
  rw [hA]
  dsimp only
  rw [if_neg (by decide), hB]
  dsimp only
  rw [if_neg (by decide)]
  by_cases hL : geoB.obj_t = S57_Obj_t.S57_LINES_T
  · have hO : S57_getObjtype (some geoB) = S57_Obj_t.S57_LINES_T := hL
    rw [if_pos hO]
    exact ⟨false, rfl, fun _ => rfl, fun h => absurd hL h⟩
  · have hO : ¬ S57_getObjtype (some geoB) = S57_Obj_t.S57_LINES_T := hL
    rw [if_neg hO, toInt32_small nB hB31]
    obtain ⟨b, hb, hiff⟩ := touchLoop_spec (nB : Int) pB
      (fun x y => (htot x y).imp (fun _ h => h.1)) nA pA hlA
    rw [hb]
    exact ⟨b, rfl, fun h => absurd h hL, fun _ => hiff⟩

theorem C14_touch_witness :
    (∀ x y : ℚ, ∃ r, S57_isPtInside ((4 : Nat) : Int) square10 true x y = some r ∧ (r = 0 ∨ r = 1)) ∧
    ∃ b, S57_touch point55 square10Area = some (b, point55, square10Area) ∧
      (square10Area.obj_t = S57_Obj_t.S57_LINES_T → b = false) ∧
      (square10Area.obj_t ≠ S57_Obj_t.S57_LINES_T →
        (b = true ↔ ∃ p ∈ [(⟨5, 5, 0⟩ : pt3)].take 1,
          S57_isPtInside ((4 : Nat) : Int) square10 true p.x p.y = some 1)) :=
  C14_touch point55 square10Area 1 4 [⟨5, 5, 0⟩] square10 (by rfl) (by rfl) (by decide)
    (by decide) (by decide)

/-! ## Ring index and empty geometry in `S57_getGeoData` -/

/-- C15: for an Area feature, `S57_getGeoData` with `ringNo > ringnbr` returns `FALSE`
with `*npt = 0` and `*ppt` unassigned, whatever the ring arrays hold (they may be
absent or shorter than `ringNo`: no ring is read); with `ringNo < ringnbr`, a ring of
`c != 0` vertices in buffer `buf` (and, for ring 0, `geoSize <= c`, which
`S57_setGeoSize` maintains) it returns `TRUE` with `*npt = c` and `*ppt = buf`. -/
theorem C15_ring_index (geo : _S57_geo) (ringNo : Nat)
    (hA : geo.obj_t = S57_Obj_t.S57_AREAS_T) :
    (geo.ringnbr < ringNo →
      S57_getGeoData geo ringNo = some { ret := false, npt := 0, ppt := none }) ∧
    (∀ (nbr : List Nat) (xyz : List (List pt3)) (c : Nat) (buf : List pt3),
      ringNo < geo.ringnbr → geo.ringxyznbr = some nbr → geo.ringxyz = some xyz →
      nbr.get? ringNo = some c → xyz.get? ringNo = some buf → c ≠ 0 →
      (ringNo = 0 → geo.geoSize ≤ c) →
      S57_getGeoData geo ringNo = some { ret := true, npt := c, ppt := some buf }) := by
  constructor
  · intro h
    unfold S57_getGeoData
    rw [if_pos ⟨hA, h⟩]
  · intro nbr xyz c buf hlt hnbr hxyz hc hbuf hc0 hsz
    unfold S57_getGeoData
    rw [if_neg (by omega)]
    have hs : geoDataSwitch geo ringNo = some (c, some buf) := by
      unfold geoDataSwitch
      rw [hA]
      simp only [hnbr, hxyz, hc, hbuf]
    rw [hs]
    dsimp only
    rw [if_neg (by omega), if_neg hc0]

theorem C15_ring_index_witness :
    S57_getGeoData square10Area 2 = some { ret := false, npt := 0, ppt := none } ∧
    S57_getGeoData square10Area 0 = some { ret := true, npt := 4, ppt := some square10 } :=
  ⟨(C15_ring_index square10Area 2 rfl).1 (by decide),
   (C15_ring_index square10Area 0 rfl).2 [4] [square10] 4 square10 (by decide) rfl rfl rfl rfl
     (by decide) (fun _ => by decide)⟩

/-- C16 (counterexample): a Meta feature queried for ring 0 gives `FALSE` with
`*npt = 0` and `*ppt` unassigned, which is exactly what an Area gives for an invalid
ring index (ring 2 of a one-ring Area): the caller cannot tell the two apart. -/
theorem C16_empty_same_as_invalid_ring :
    S57_getGeoData metaGeo 0 = some { ret := false, npt := 0, ppt := none } ∧
    S57_getGeoData square10Area 2 = some { ret := false, npt := 0, ppt := none } ∧
    S57_getGeoData metaGeo 0 = S57_getGeoData square10Area 2 := by
  refine ⟨by rfl, by rfl, by rfl⟩

/-- C16 (amended): for every Meta feature, every Point without coordinate buffer, every
Line without buffer or with vertex count 0, and every Area without ring-count array or
whose ring `ringNo` has vertex count 0, `S57_getGeoData` leaves 0 in `*npt` and returns
`FALSE`, the return value of the invalid-ring path; when the buffer is absent (and for
Meta) the whole result equals the invalid-ring result. -/
theorem C16_empty_geometry (geo : _S57_geo) (ringNo : Nat)
    (h : geo.obj_t = S57_Obj_t.S57__META_T ∨
      (geo.obj_t = S57_Obj_t.S57_POINT_T ∧ geo.pointxyz = none) ∨
      (geo.obj_t = S57_Obj_t.S57_LINES_T ∧ (geo.linexyz = none ∨ geo.linexyznbr = 0)) ∨
      (geo.obj_t = S57_Obj_t.S57_AREAS_T ∧ (geo.ringxyznbr = none ∨
        ∃ nbr xyz buf, geo.ringxyznbr = some nbr ∧ geo.ringxyz = some xyz ∧
          nbr.get? ringNo = some 0 ∧ xyz.get? ringNo = some buf))) :
    (∃ d, S57_getGeoData geo ringNo = some d ∧ d.ret = false ∧ d.npt = 0) ∧
    ((geo.obj_t = S57_Obj_t.S57__META_T ∨ geo.pointxyz = none ∧ geo.linexyz = none ∧
        geo.ringxyznbr = none) →
      S57_getGeoData geo ringNo = some { ret := false, npt := 0, ppt := none }) := by
  by_cases hc : geo.obj_t = S57_Obj_t.S57_AREAS_T ∧ geo.ringnbr < ringNo
  · have e : S57_getGeoData geo ringNo = some { ret := false, npt := 0, ppt := none } := by
      unfold S57_getGeoData
      rw [if_pos hc]
    exact ⟨⟨_, e, rfl, rfl⟩, fun _ => e⟩
  · have key : ∀ p, geoDataSwitch geo ringNo = some (0, p) →
        S57_getGeoData geo ringNo = some { ret := false, npt := 0, ppt := p } := by
      intro p hs
      unfold S57_getGeoData
      rw [if_neg hc, hs]
      dsimp only
      split
      · rfl
      · rw [if_pos rfl]
    rcases h with h | h | h | h
    · have hs : geoDataSwitch geo ringNo = some (0, none) := by
        unfold geoDataSwitch
        rw [h]
      exact ⟨⟨_, key _ hs, rfl, rfl⟩, fun _ => key _ hs⟩
    · have hs : geoDataSwitch geo ringNo = some (0, none) := by
        unfold geoDataSwitch
        rw [h.1]
        simp only [h.2]
      exact ⟨⟨_, key _ hs, rfl, rfl⟩, fun _ => key _ hs⟩
    · rcases h with ⟨hL, h | h⟩
      · have hs : geoDataSwitch geo ringNo = some (0, none) := by
          unfold geoDataSwitch
          rw [hL]
          simp only [h]
        exact ⟨⟨_, key _ hs, rfl, rfl⟩, fun _ => key _ hs⟩
      · have hs : ∃ p, geoDataSwitch geo ringNo = some (0, p) ∧
            (geo.linexyz = none → p = none) := by
          unfold geoDataSwitch
          rw [hL]
          dsimp only
          cases hl : geo.linexyz with
          | none => exact ⟨none, rfl, fun _ => rfl⟩
          | some l => exact ⟨some l, by rw [h], fun c => absurd c (by simp)⟩
        obtain ⟨p, hp, hn⟩ := hs
        refine ⟨⟨_, key _ hp, rfl, rfl⟩, ?_⟩
        rintro (hm | ⟨_, h2, _⟩)
        · rw [hL] at hm; exact absurd hm (by decide)
        · rw [key _ hp, hn h2]
    · rcases h with ⟨hA, h | ⟨nbr, xyz, buf, h1, h2, h3, h4⟩⟩
      · have hs : geoDataSwitch geo ringNo = some (0, none) := by
          unfold geoDataSwitch
          rw [hA]
          simp only [h]
        exact ⟨⟨_, key _ hs, rfl, rfl⟩, fun _ => key _ hs⟩
      · have hs : geoDataSwitch geo ringNo = some (0, some buf) := by
          unfold geoDataSwitch
          rw [hA]
          simp only [h1, h2, h3, h4]
        refine ⟨⟨_, key _ hs, rfl, rfl⟩, ?_⟩
        rintro (hm | ⟨_, _, h5⟩)
        · rw [hA] at hm; exact absurd hm (by decide)
        · rw [h1] at h5; exact absurd h5 (by simp)

theorem C16_empty_geometry_witness :
    (∃ d, S57_getGeoData metaGeo 0 = some d ∧ d.ret = false ∧ d.npt = 0) ∧
    ((metaGeo.obj_t = S57_Obj_t.S57__META_T ∨ metaGeo.pointxyz = none ∧
        metaGeo.linexyz = none ∧ metaGeo.ringxyznbr = none) →
      S57_getGeoData metaGeo 0 = some { ret := false, npt := 0, ppt := none }) :=
  C16_empty_geometry metaGeo 0 (Or.inl rfl)

/-! ## Centroid replay -/

theorem runCentOps_store :
    ∀ (ops : List CentOp) (g : _S57_geo) (a : GArray pt2), g.centroid = some a →
      ∃ g1 a1, runCentOps ops g = some g1 ∧ g1.centroid = some a1 ∧
        a1.data = a.data ++ centAdds ops := by
  intro ops
  induction ops with
  | nil => intro g a h; exact ⟨g, a, rfl, h, by simp [centAdds]⟩
  | cons op ops ih =>
    intro g a h
    cases op with
    | add x y =>
      obtain ⟨g1, a1, h1, h2, h3⟩ :=
        ih { g with centroid := some (g_array_append_val a ⟨x, y⟩) }
          (g_array_append_val a ⟨x, y⟩) rfl
      refine ⟨g1, a1, ?_, h2, ?_⟩
      · simp only [runCentOps, S57_addCentroid, h]
        exact h1
      · rw [h3]
        simp [centAdds, g_array_append_val]
    | next =>
      by_cases hlt : g.centroidIdx < a.len
      · have hlt2 : g.centroidIdx < a.data.length := hlt
        obtain ⟨g1, a1, h1, h2, h3⟩ :=
          ih { g with centroidIdx := guintAdd g.centroidIdx 1 } a h
        refine ⟨g1, a1, ?_, h2, ?_⟩
        · simp only [runCentOps, S57_getNextCent, h, if_pos hlt, List.get?_eq_get hlt2]
          simp only [h] at h1
          exact h1
        · rw [h3]
          simp [centAdds]
      · obtain ⟨g1, a1, h1, h2, h3⟩ := ih g a h
        refine ⟨g1, a1, ?_, h2, ?_⟩
        · simp only [runCentOps, S57_getNextCent, h, if_neg hlt]
          exact h1
        · rw [h3]
          simp [centAdds]
    | has =>
      obtain ⟨g1, a1, h1, h2, h3⟩ := ih { g with centroidIdx := 0 } a h
      refine ⟨g1, a1, ?_, h2, ?_⟩
      · simp only [runCentOps, S57_hasCentroid, h]
        simp only [h] at h1
        exact h1
      · rw [h3]
        simp [centAdds]

theorem nextCentN_spec :
    ∀ (l pre : List pt2) (g : _S57_geo) (a : GArray pt2), g.centroid = some a →
      a.data = pre ++ l → g.centroidIdx = pre.length → (pre ++ l).length < 4294967296 →
      ∃ gN, nextCentN l.length g = some (l, gN) ∧ gN.centroid = some a ∧
        gN.centroidIdx = pre.length + l.length := by
  intro l
  induction l with
  | nil => intro pre g a h _ hi _; exact ⟨g, rfl, h, by simpa using hi⟩
  | cons p t ih =>
    intro pre g a h hd hi hlen
    have hlt : g.centroidIdx < a.len := by
      unfold GArray.len
      rw [hd, hi]
      simp
    have hget : a.data.get? g.centroidIdx = some p := by
      rw [hd, hi]
      have := getOpt_append_add pre (p :: t) 0
      simpa using this
    have hadd : guintAdd g.centroidIdx 1 = pre.length + 1 := by
      unfold guintAdd
      rw [GUINT_MOD_eq, hi]
      simp only [List.length_append, List.length_cons] at hlen
      omega
    obtain ⟨gN, h1, h2, h3⟩ :=
      ih (pre ++ [p]) { g with centroidIdx := guintAdd g.centroidIdx 1 } a h
        (by rw [hd]; simp) (by simp [hadd]) (by simpa using hlen)
    refine ⟨gN, ?_, h2, ?_⟩
    · simp only [List.length_cons, nextCentN, S57_getNextCent, h, if_pos hlt, hget]
      simp only [h] at h1
      rw [h1]
    · rw [h3]
      simp
      omega

/-- C17: take any feature, call `S57_newCentroid`, then any sequence of
`S57_addCentroid`, `S57_getNextCent` and `S57_hasCentroid` calls whose
`S57_addCentroid` calls add the points `p1..pn` (fewer than `2^32`).  All these calls
return, and then `S57_hasCentroid` returns `TRUE` iff `n > 0`, the next `n` calls of
`S57_getNextCent` return `TRUE` and yield `p1..pn` in insertion order, and a further
`S57_getNextCent` returns `FALSE`, writes no point and leaves the feature (so the
cursor) as it is, so that every later call does the same. -/
theorem C17_centroid_replay (geo : _S57_geo) (ops : List CentOp)
    (hlen : (centAdds ops).length < 4294967296) :
    ∃ g gh gN, runCentOps ops (S57_newCentroid geo).2 = some g ∧
      S57_hasCentroid g = some (decide (0 < (centAdds ops).length), gh) ∧
      nextCentN (centAdds ops).length gh = some (centAdds ops, gN) ∧
      S57_getNextCent gN = some (false, none, gN) := by
  have hnew : ∃ a0 : GArray pt2, (S57_newCentroid geo).2.centroid = some a0 ∧ a0.data = [] := by
    unfold S57_newCentroid
    cases hc : geo.centroid with
    | none => exact ⟨g_array_new, rfl, rfl⟩
    | some a => exact ⟨g_array_set_size a 0, rfl, by simp [g_array_set_size]⟩
  obtain ⟨a0, ha0, hd0⟩ := hnew
  obtain ⟨g, a1, hrun, hc1, hd1⟩ := runCentOps_store ops _ a0 ha0
  rw [hd0, List.nil_append] at hd1
  have hhas : S57_hasCentroid g
      = some (decide (0 < (centAdds ops).length), { g with centroidIdx := 0 }) := by
    unfold S57_hasCentroid
    rw [hc1]
    dsimp only
    have e : (!(a1.len == 0)) = decide (0 < (centAdds ops).length) := by
      unfold GArray.len
      rw [hd1]
      cases h : (centAdds ops).length with
      | zero => rfl
      | succ k => simp
    rw [e]
  obtain ⟨gN, hN, hcN, hiN⟩ :=
    nextCentN_spec (centAdds ops) [] { g with centroidIdx := 0 } a1 hc1
      (by simpa using hd1) rfl (by simpa using hlen)
  refine ⟨g, _, gN, hrun, hhas, hN, ?_⟩
  unfold S57_getNextCent
  rw [hcN]
  dsimp only
  have hnlt : ¬ gN.centroidIdx < a1.len := by
    unfold GArray.len
    rw [hiN, hd1]
    simp
  rw [if_neg hnlt]

theorem C17_centroid_replay_witness :
    ∃ g gh gN,
      runCentOps [CentOp.add 1 2, CentOp.next, CentOp.add 3 4] (S57_newCentroid metaGeo).2
        = some g ∧
      S57_hasCentroid g
        = some (decide (0 < (centAdds [CentOp.add 1 2, CentOp.next, CentOp.add 3 4]).length), gh) ∧
      nextCentN (centAdds [CentOp.add 1 2, CentOp.next, CentOp.add 3 4]).length gh
        = some (centAdds [CentOp.add 1 2, CentOp.next, CentOp.add 3 4], gN) ∧
      S57_getNextCent gN = some (false, none, gN) :=
  C17_centroid_replay metaGeo [CentOp.add 1 2, CentOp.next, CentOp.add 3 4] (by decide)

/-! ## Relation and touch links -/

/-- C18: for every feature `g` and reference `r`: when `S57_getRelationship(g)` is
`NULL`, `S57_setRelationship(g, r)` returns `TRUE` and `S57_getRelationship(g)` is `r`
afterwards; when it is `r0`, the call returns `FALSE` and `S57_getRelationship(g)` is
still `r0` (the feature is unchanged). -/
theorem C18_single_relation (g : _S57_geo) (r : GeoRef) :
    (S57_getRelationship g = none →
      (S57_setRelationship g r).1 = true ∧
      S57_getRelationship (S57_setRelationship g r).2 = some r) ∧
    (∀ r0, S57_getRelationship g = some r0 →
      (S57_setRelationship g r).1 = false ∧ (S57_setRelationship g r).2 = g ∧
      S57_getRelationship (S57_setRelationship g r).2 = some r0) := by
  unfold S57_getRelationship S57_setRelationship
  constructor
  · intro h
    rw [h]
    exact ⟨rfl, rfl⟩
  · intro r0 h
    rw [h]
    exact ⟨rfl, rfl, h⟩

theorem C18_single_relation_witness :
    ((S57_setRelationship metaGeo 7).1 = true ∧
      S57_getRelationship (S57_setRelationship metaGeo 7).2 = some 7) ∧
    ((S57_setRelationship (S57_setRelationship metaGeo 7).2 9).1 = false ∧
      (S57_setRelationship (S57_setRelationship metaGeo 7).2 9).2
        = (S57_setRelationship metaGeo 7).2 ∧
      S57_getRelationship (S57_setRelationship (S57_setRelationship metaGeo 7).2 9).2
        = some 7) :=
  ⟨(C18_single_relation metaGeo 7).1 rfl,
   (C18_single_relation (S57_setRelationship metaGeo 7).2 9).2 7 rfl⟩

/-- C19 (counterexample): on a feature whose TOPMAR link was set to reference 1,
`S57_getTouchTOPMAR` returns 1; after `S57_setTouchLIGHTS` with reference 2 it returns
2: setting one role changed what another role reads. -/
theorem C19_roles_share_slot :
    (S57_setTouchTOPMAR metaGeo (some 1)).map (fun r => S57_getTouchTOPMAR r.2)
      = some (some 1) ∧
    (S57_setTouchTOPMAR metaGeo (some 1)).map
        (fun r => S57_getTouchTOPMAR (S57_setTouchLIGHTS r.2 (some 2)).2)
      = some (some 2) := by
  constructor <;> rfl

/-- C19 (amended): the four roles are the members of one union.  For every feature `g`,
role `R` and non-`NULL` reference `t`, `S57_setTouchR(g, t)` returns `TRUE` and
afterwards the getter of every role returns `t`; for a role other than TOPMAR the same
holds for the `NULL` reference, while `S57_setTouchTOPMAR(g, NULL)` dereferences
`NULL`. -/
theorem C19_touch_union (g : _S57_geo) (R : TouchRole) :
    (∀ t : GeoRef, ∃ g1, setTouch R g (some t) = some (true, g1) ∧
      ∀ R1, getTouch R1 g1 = some t) ∧
    (R ≠ TouchRole.TOPMAR → ∃ g1, setTouch R g none = some (true, g1) ∧
      ∀ R1, getTouch R1 g1 = none) ∧
    setTouch TouchRole.TOPMAR g none = none := by
  refine ⟨?_, ?_, rfl⟩
  · intro t
    cases R <;> exact ⟨_, rfl, fun R1 => by cases R1 <;> rfl⟩
  · intro h
    cases R
    · exact absurd rfl h
    all_goals exact ⟨_, rfl, fun R1 => by cases R1 <;> rfl⟩

theorem C19_touch_union_witness :
    (∀ t : GeoRef, ∃ g1, setTouch TouchRole.LIGHTS metaGeo (some t) = some (true, g1) ∧
      ∀ R1, getTouch R1 g1 = some t) ∧
    (∃ g1, setTouch TouchRole.LIGHTS metaGeo none = some (true, g1) ∧
      ∀ R1, getTouch R1 g1 = none) ∧
    setTouch TouchRole.TOPMAR metaGeo none = none :=
  ⟨(C19_touch_union metaGeo TouchRole.LIGHTS).1,
   (C19_touch_union metaGeo TouchRole.LIGHTS).2.1 (by decide),
   (C19_touch_union metaGeo TouchRole.LIGHTS).2.2⟩

/-! ## Feature ids -/

theorem construct_some (c : CtorCall) (s : Nat) (g : _S57_geo) (id1 : Nat)
    (h : construct c s = (some g, id1)) : g.S57ID = s ∧ id1 = guintAdd s 1 := by
  cases c with
  | META =>
    simp only [construct, S57_set_META, Prod.mk.injEq, Option.some.injEq] at h
    obtain ⟨h1, h2⟩ := h
    subst h1
    exact ⟨rfl, h2.symm⟩
  | POINT xyz =>
    cases xyz with
    | none => simp [construct, S57_setPOINT] at h
    | some p =>
      simp only [construct, S57_setPOINT, Prod.mk.injEq, Option.some.injEq] at h
      obtain ⟨h1, h2⟩ := h
      subst h1
      exact ⟨rfl, h2.symm⟩
  | LINES n xyz =>
    simp only [construct, S57_setLINES, Prod.mk.injEq, Option.some.injEq] at h
    obtain ⟨h1, h2⟩ := h
    subst h1
    exact ⟨rfl, h2.symm⟩
  | AREAS n nbr xyz =>
    cases nbr with
    | none => simp [construct, S57_setAREAS] at h
    | some a =>
      cases xyz with
      | none => simp [construct, S57_setAREAS] at h
      | some b =>
        simp only [construct, S57_setAREAS, Prod.mk.injEq, Option.some.injEq] at h
        obtain ⟨h1, h2⟩ := h
        subst h1
        exact ⟨rfl, h2.symm⟩

theorem construct_none (c : CtorCall) (s id1 : Nat) (h : construct c s = (none, id1)) :
    id1 = s := by
  cases c with
  | META => simp [construct, S57_set_META] at h
  | POINT xyz =>
    cases xyz with
    | none =>
      simp only [construct, S57_setPOINT, Prod.mk.injEq] at h
      exact h.2.symm
    | some p => simp [construct, S57_setPOINT] at h
  | LINES n xyz => simp [construct, S57_setLINES] at h
  | AREAS n nbr xyz =>
    cases nbr with
    | none =>
      simp only [construct, S57_setAREAS, Prod.mk.injEq] at h
      exact h.2.symm
    | some a =>
      cases xyz with
      | none =>
        simp only [construct, S57_setAREAS, Prod.mk.injEq] at h
        exact h.2.symm
      | some b => simp [construct, S57_setAREAS] at h

theorem constructAll_ids :
    ∀ (cs : List CtorCall) (s : Nat), s + cs.length ≤ 4294967296 →
      (constructAll cs (s % 4294967296)).1.map (fun g => g.S57ID)
        = List.range' s (constructAll cs (s % 4294967296)).1.length := by
  intro cs
  induction cs with
  | nil => intro s _; simp [constructAll]
  | cons c cs ih =>
    intro s hs
    have hlt : s < 4294967296 := by simp only [List.length_cons] at hs; omega
    have hmod : s % 4294967296 = s := Nat.mod_eq_of_lt hlt
    rw [hmod]
    cases hc : construct c s with
    | mk o id1 =>
      cases o with
      | none =>
        have e := construct_none c s id1 hc
        subst e
        have h1 := ih id1 (by simp only [List.length_cons] at hs; omega)
        rw [hmod] at h1
        simp only [constructAll, hc]
        exact h1
      | some g =>
        obtain ⟨e1, e2⟩ := construct_some c s g id1 hc
        have h1 := ih (s + 1) (by simp only [List.length_cons] at hs; omega)
        have e3 : id1 = (s + 1) % 4294967296 := by
          rw [e2]
          unfold guintAdd
          rw [GUINT_MOD_eq]
        rw [← e3] at h1
        simp only [constructAll, hc, List.map_cons, List.length_cons, e1]
        rw [h1, List.range'_succ]

theorem putGeoData_S57ID (g : _S57_geo) (buf : List pt3) :
    (putGeoData g buf).S57ID = g.S57ID := by
  unfold putGeoData
  split
  · rfl
  · rfl
  · rfl
  · split <;> rfl

theorem putRingData_S57ID (g : _S57_geo) (i : Nat) (buf : List pt3) :
    (putRingData g i buf).S57ID = g.S57ID := by
  unfold putRingData
  split
  · rfl
  · rfl
  · rfl
  · split <;> rfl

theorem simplifyGEO_S57ID (g g1 : _S57_geo) (h : _simplifyGEO g = some g1) :
    g1.S57ID = g.S57ID := by
  have hl : ∀ a b, simplifyLine a = some b → b.S57ID = a.S57ID := by
    intro a b hab
    unfold simplifyLine at hab
    repeat' split at hab
    all_goals first | (cases hab; rfl) | exact absurd hab (by simp)
  have ha : ∀ a b, simplifyArea a = some b → b.S57ID = a.S57ID := by
    intro a b hab
    unfold simplifyArea at hab
    repeat' split at hab
    all_goals first | (cases hab; rfl) | exact absurd hab (by simp)
  unfold _simplifyGEO at h
  split at h
  · rename_i m hm
    rw [ha m g1 h, hl g m hm]
  · exact absurd h (by simp)

theorem markOverlapGeo_S57ID (Z : ℚ) (g e g1 : _S57_geo) (b : Bool)
    (h : S57_markOverlapGeo Z g e = some (b, g1)) : g1.S57ID = g.S57ID := by
  unfold S57_markOverlapGeo at h
  repeat' split at h
  all_goals first
    | (cases h; rfl)
    | (cases h; exact putGeoData_S57ID _ _)
    | exact absurd h (by simp)

theorem geo2prjLoop_S57ID (prj3dv : Nat → List pt3 → Option (Bool × List pt3)) :
    ∀ (n i : Nat) (g g1 : _S57_geo) (b : Bool),
      geo2prjLoop prj3dv n i g = some (b, g1) → g1.S57ID = g.S57ID := by
  intro n
  induction n with
  | zero =>
    intro i g g1 b h
    simp only [geo2prjLoop, Option.some.injEq, Prod.mk.injEq] at h
    rw [← h.2]
  | succ k ih =>
    intro i g g1 b h
    unfold geo2prjLoop at h
    repeat' split at h
    all_goals first
      | (cases h; exact putRingData_S57ID _ _ _)
      | (rw [ih _ _ _ _ h]; exact putRingData_S57ID _ _ _)
      | exact ih _ _ _ _ h
      | exact absurd h (by simp)

theorem setGeoSize_S57ID (g g1 : _S57_geo) (size r : Nat)
    (h : S57_setGeoSize g size = some (r, g1)) : g1.S57ID = g.S57ID := by
  unfold S57_setGeoSize at h
  repeat' split at h
  all_goals first | (cases h; rfl) | exact absurd h (by simp)

theorem getNextCent_S57ID (g g1 : _S57_geo) (b : Bool) (p : Option pt2)
    (h : S57_getNextCent g = some (b, p, g1)) : g1.S57ID = g.S57ID := by
  unfold S57_getNextCent at h
  repeat' split at h
  all_goals first | (cases h; rfl) | exact absurd h (by simp)

theorem hasCentroid_S57ID (g g1 : _S57_geo) (b : Bool)
    (h : S57_hasCentroid g = some (b, g1)) : g1.S57ID = g.S57ID := by
  unfold S57_hasCentroid at h
  repeat' split at h
  all_goals first
    | (cases h; rfl)
    | (cases h; unfold S57_newCentroid; split <;> rfl)
    | exact absurd h (by simp)

theorem setNextPoly_S57ID (g g1 : _S57_geo) (np : Option (GeoRef × _S57_geo))
    (np1 : Option _S57_geo) (h : S57_setNextPoly g np = some (g1, np1)) :
    g1.S57ID = g.S57ID ∧ np1.map (fun x => x.S57ID) = np.map (fun x => x.2.S57ID) := by
  unfold S57_setNextPoly at h
  repeat' split at h
  all_goals first | (cases h; exact ⟨rfl, rfl⟩) | exact absurd h (by simp)

/-- C20: starting from `_S57ID = 1`, for every sequence of fewer than `2^32`
constructor calls (`S57_set_META`, `S57_setPOINT`, `S57_setLINES`, `S57_setAREAS` in any
mix, failing calls included) the features of the successful calls carry, in order, the
ids `1, 2, .., n` (so they are strictly increasing and pairwise distinct); a
constructor call that fails on a `NULL` argument returns no feature and leaves the
counter as it is; and every other operation of the file that writes to a feature
leaves its `S57ID` as it is. -/
theorem C20_feature_ids (cs : List CtorCall) (hlen : cs.length < 4294967296) :
    ((constructAll cs 1).1.map (fun g => g.S57ID)
        = List.range' 1 (constructAll cs 1).1.length ∧
      List.Pairwise (fun a b => a < b) ((constructAll cs 1).1.map (fun g => g.S57ID))) ∧
    ((∀ s, S57_setPOINT s none = (none, s)) ∧
      (∀ s n xyz, S57_setAREAS s n none xyz = (none, s)) ∧
      (∀ s n nbr, S57_setAREAS s n nbr none = (none, s))) ∧
    (∀ g : _S57_geo,
      (∀ n xyz, (S57_setGeoLine g n xyz).S57ID = g.S57ID) ∧
      (∀ name b g1, S57_setName g name = some (b, g1) → g1.S57ID = g.S57ID) ∧
      (S57_initPrimGeo g).S57ID = g.S57ID ∧
      (S57_donePrimGeo g).S57ID = g.S57ID ∧
      (∀ W S E N, (S57_setExt g W S E N).2.S57ID = g.S57ID) ∧
      (S57_getExt g).2.S57ID = g.S57ID ∧
      (∀ name val, (S57_setAtt g name val).S57ID = g.S57ID) ∧
      (∀ R t b g1, setTouch R g t = some (b, g1) → g1.S57ID = g.S57ID) ∧
      (∀ v, (S57_setScamin g v).2.S57ID = g.S57ID) ∧
      (∀ m nan atof silent, (S57_resetScamin m nan atof silent g).2.1.S57ID = g.S57ID) ∧
      (∀ r, (S57_setRelationship g r).2.S57ID = g.S57ID) ∧
      (∀ np g1 np1, S57_setNextPoly g np = some (g1, np1) →
        g1.S57ID = g.S57ID ∧ np1.map (fun x => x.S57ID) = np.map (fun x => x.2.S57ID)) ∧
      (∀ chain : List _S57_geo,
        (S57_delNextPoly chain).map (fun x => x.S57ID) = chain.map (fun x => x.S57ID)) ∧
      (∀ size r g1, S57_setGeoSize g size = some (r, g1) → g1.S57ID = g.S57ID) ∧
      (S57_newCentroid g).2.S57ID = g.S57ID ∧
      (∀ x y b g1, S57_addCentroid g x y = some (b, g1) → g1.S57ID = g.S57ID) ∧
      (∀ b p g1, S57_getNextCent g = some (b, p, g1) → g1.S57ID = g.S57ID) ∧
      (∀ b g1, S57_hasCentroid g = some (b, g1) → g1.S57ID = g.S57ID) ∧
      (∀ o, (S57_setEdgeOwner g o).S57ID = g.S57ID) ∧
      (∀ hl, (S57_setHighlight g hl).2.S57ID = g.S57ID) ∧
      (∀ g1, _simplifyGEO g = some g1 → g1.S57ID = g.S57ID) ∧
      (∀ prj3dv b g1, S57_geo2prj prj3dv g = some (b, g1) → g1.S57ID = g.S57ID) ∧
      (∀ Z e b g1, S57_markOverlapGeo Z g e = some (b, g1) → g1.S57ID = g.S57ID) ∧
      (∀ e b g1 e1, S57_touch g e = some (b, g1, e1) →
        g1.S57ID = g.S57ID ∧ e1.S57ID = e.S57ID)) := by
  have hids := constructAll_ids cs 1 (by omega)
  have e1 : (1 : Nat) % 4294967296 = 1 := by decide
  rw [e1] at hids
  refine ⟨⟨hids, ?_⟩, ⟨fun _ => rfl, fun _ _ _ => rfl, ?_⟩, ?_⟩
  · rw [hids]
    exact List.pairwise_lt_range' 1 _
  · intro s n nbr
    cases nbr <;> rfl
  · intro g
    refine ⟨fun _ _ => rfl, ?_, rfl, ?_, fun _ _ _ _ => rfl, ?_, ?_, ?_, fun _ => rfl, ?_,
      ?_, ?_, ?_, ?_, ?_, ?_, ?_, ?_, fun _ => rfl, fun _ => rfl, ?_, ?_, ?_, ?_⟩
    · intro name b g1 h
      unfold S57_setName at h
      split at h
      · exact absurd h (by simp)
      · cases h; rfl
    · unfold S57_donePrimGeo
      split <;> rfl
    · unfold S57_getExt
      split <;> rfl
    · intro name val
      unfold S57_setAtt
      split <;> rfl
    · intro R t b g1 h
      cases R
      · unfold setTouch S57_setTouchTOPMAR at h
        dsimp only at h
        split at h
        · exact absurd h (by simp)
        · cases h; rfl
      all_goals (cases h; rfl)
    · intro m nan atof silent
      unfold S57_resetScamin
      split <;> rfl
    · intro r
      unfold S57_setRelationship
      split <;> rfl
    · intro np g1 np1 h
      exact setNextPoly_S57ID g g1 np np1 h
    · intro chain
      unfold S57_delNextPoly
      rw [List.map_map]
      rfl
    · intro size r g1 h
      exact setGeoSize_S57ID g g1 size r h
    · unfold S57_newCentroid
      split <;> rfl
    · intro x y b g1 h
      unfold S57_addCentroid at h
      split at h
      · exact absurd h (by simp)
      · cases h; rfl
    · intro b p g1 h
      exact getNextCent_S57ID g g1 b p h
    · intro b g1 h
      exact hasCentroid_S57ID g g1 b h
    · intro g1 h
      exact simplifyGEO_S57ID g g1 h
    · intro prj3dv b g1 h
      exact geo2prjLoop_S57ID prj3dv _ _ _ _ _ h
    · intro Z e b g1 h
      exact markOverlapGeo_S57ID Z g e g1 b h
    · intro e b g1 e1 h
      unfold S57_touch at h
      repeat' split at h
      all_goals first | (cases h; exact ⟨rfl, rfl⟩) | exact absurd h (by simp)

theorem C20_feature_ids_witness :
    (constructAll [CtorCall.META, CtorCall.POINT none, CtorCall.LINES 0 none,
        CtorCall.AREAS 1 (some [4]) (some [square10])] 1).1.map (fun g => g.S57ID)
      = List.range' 1 (constructAll [CtorCall.META, CtorCall.POINT none, CtorCall.LINES 0 none,
        CtorCall.AREAS 1 (some [4]) (some [square10])] 1).1.length :=
  (C20_feature_ids [CtorCall.META, CtorCall.POINT none, CtorCall.LINES 0 none,
    CtorCall.AREAS 1 (some [4]) (some [square10])] (by decide)).1.1

/-! ## What the operations leave alone -/

theorem sameHead_refl (g : _S57_geo) : sameHead g g := ⟨rfl, rfl, rfl⟩

theorem sameHead_trans (a b c : _S57_geo) (h1 : sameHead a b) (h2 : sameHead b c) :
    sameHead a c :=
  ⟨h2.1.trans h1.1, h2.2.1.trans h1.2.1, h2.2.2.trans h1.2.2⟩

theorem putGeoData_sameHead (g : _S57_geo) (buf : List pt3) : sameHead g (putGeoData g buf) := by
  unfold putGeoData
  split
  · exact ⟨rfl, rfl, rfl⟩
  · exact ⟨rfl, rfl, rfl⟩
  · exact ⟨rfl, rfl, rfl⟩
  · split <;> exact ⟨rfl, rfl, rfl⟩

theorem putRingData_sameHead (g : _S57_geo) (i : Nat) (buf : List pt3) :
    sameHead g (putRingData g i buf) := by
  unfold putRingData
  split
  · exact ⟨rfl, rfl, rfl⟩
  · exact ⟨rfl, rfl, rfl⟩
  · exact ⟨rfl, rfl, rfl⟩
  · split <;> exact ⟨rfl, rfl, rfl⟩

theorem simplifyGEO_sameHead (g g1 : _S57_geo) (h : _simplifyGEO g = some g1) :
    sameHead g g1 := by
  have hl : ∀ a b, simplifyLine a = some b → sameHead a b := by
    intro a b hab
    unfold simplifyLine at hab
    repeat' split at hab
    all_goals first | (cases hab; exact ⟨rfl, rfl, rfl⟩) | exact absurd hab (by simp)
  have ha : ∀ a b, simplifyArea a = some b → sameHead a b := by
    intro a b hab
    unfold simplifyArea at hab
    repeat' split at hab
    all_goals first | (cases hab; exact ⟨rfl, rfl, rfl⟩) | exact absurd hab (by simp)
  unfold _simplifyGEO at h
  split at h
  · rename_i m hm
    exact sameHead_trans g m g1 (hl g m hm) (ha m g1 h)
  · exact absurd h (by simp)

theorem markOverlapGeo_sameHead (Z : ℚ) (g e g1 : _S57_geo) (b : Bool)
    (h : S57_markOverlapGeo Z g e = some (b, g1)) : sameHead g g1 := by
  unfold S57_markOverlapGeo at h
  repeat' split at h
  all_goals first
    | (cases h; exact ⟨rfl, rfl, rfl⟩)
    | (cases h; exact putGeoData_sameHead _ _)
    | exact absurd h (by simp)

theorem geo2prjLoop_sameHead (prj3dv : Nat → List pt3 → Option (Bool × List pt3)) :
    ∀ (n i : Nat) (g g1 : _S57_geo) (b : Bool),
      geo2prjLoop prj3dv n i g = some (b, g1) → sameHead g g1 := by
  intro n
  induction n with
  | zero =>
    intro i g g1 b h
    simp only [geo2prjLoop, Option.some.injEq, Prod.mk.injEq] at h
    rw [← h.2]
    exact sameHead_refl g
  | succ k ih =>
    intro i g g1 b h
    unfold geo2prjLoop at h
    repeat' split at h
    all_goals first
      | (cases h; exact putRingData_sameHead _ _ _)
      | exact sameHead_trans _ _ _ (putRingData_sameHead _ _ _) (ih _ _ _ _ h)
      | exact ih _ _ _ _ h
      | exact absurd h (by simp)

theorem setGeoSize_sameHead (g g1 : _S57_geo) (size r : Nat)
    (h : S57_setGeoSize g size = some (r, g1)) : sameHead g g1 := by
  unfold S57_setGeoSize at h
  repeat' split at h
  all_goals first | (cases h; exact ⟨rfl, rfl, rfl⟩) | exact absurd h (by simp)

theorem getNextCent_sameHead (g g1 : _S57_geo) (b : Bool) (p : Option pt2)
    (h : S57_getNextCent g = some (b, p, g1)) : sameHead g g1 := by
  unfold S57_getNextCent at h
  repeat' split at h
  all_goals first | (cases h; exact ⟨rfl, rfl, rfl⟩) | exact absurd h (by simp)

theorem newCentroid_sameHead (g : _S57_geo) : sameHead g (S57_newCentroid g).2 := by
  unfold S57_newCentroid
  split <;> exact ⟨rfl, rfl, rfl⟩

theorem hasCentroid_sameHead (g g1 : _S57_geo) (b : Bool)
    (h : S57_hasCentroid g = some (b, g1)) : sameHead g g1 := by
  unfold S57_hasCentroid at h
  repeat' split at h
  all_goals first
    | (cases h; exact ⟨rfl, rfl, rfl⟩)
    | (cases h; exact newCentroid_sameHead _)
    | exact absurd h (by simp)

theorem setNextPoly_sameHead (g g1 : _S57_geo) (np : Option (GeoRef × _S57_geo))
    (np1 : Option _S57_geo) (h : S57_setNextPoly g np = some (g1, np1)) :
    sameHead g g1 ∧ ∀ r n n1, np = some (r, n) → np1 = some n1 → sameHead n n1 := by
  unfold S57_setNextPoly at h
  repeat' split at h
  all_goals first
    | (cases h
       refine ⟨⟨rfl, rfl, rfl⟩, ?_⟩
       intro r n n1 e1 e2
       cases e1
       cases e2
       exact ⟨rfl, rfl, rfl⟩)
    | (cases h
       refine ⟨⟨rfl, rfl, rfl⟩, ?_⟩
       intro r n n1 e1 e2
       cases e1)
    | exact absurd h (by simp)

theorem touch_same (g e g1 e1 : _S57_geo) (b : Bool)
    (h : S57_touch g e = some (b, g1, e1)) : g1 = g ∧ e1 = e := by
  unfold S57_touch at h
  repeat' split at h
  all_goals first | (cases h; exact ⟨rfl, rfl⟩) | exact absurd h (by simp)

/-- What one call leaves alone: the kind unless the call is `S57_setGeoLine`; the
extent unless the call is `S57_setExt`, or `S57_getExt` on an infinite `W`, which stores
the world box; `scamin` unless the call is `S57_setScamin` or `S57_resetScamin`. -/
theorem applyOp_frame (op : GeoOp) (g g1 : _S57_geo) (h : applyOp op g = some g1) :
    (op.isSetGeoLine = false → g1.obj_t = g.obj_t) ∧
    (op.isSetExt = false → g1.ext = g.ext ∨ (isinf g.ext.W = true ∧ g1.ext = worldExt)) ∧
    (op.isScamin = false → g1.scamin = g.scamin) := by
  have key : sameHead g g1 → (op.isSetGeoLine = false → g1.obj_t = g.obj_t) ∧
      (op.isSetExt = false → g1.ext = g.ext ∨ (isinf g.ext.W = true ∧ g1.ext = worldExt)) ∧
      (op.isScamin = false → g1.scamin = g.scamin) :=
    fun hs => ⟨fun _ => hs.1, fun _ => Or.inl hs.2.1, fun _ => hs.2.2⟩
  cases op with
  | setGeoLine n xyz =>
    cases h
    exact ⟨fun c => absurd c (by simp [GeoOp.isSetGeoLine]), fun _ => Or.inl rfl, fun _ => rfl⟩
  | setName name =>
    obtain ⟨⟨b, g2⟩, hr, e⟩ := Option.map_eq_some'.mp h
    cases e
    unfold S57_setName at hr
    split at hr
    · exact absurd hr (by simp)
    · cases hr; exact key ⟨rfl, rfl, rfl⟩
  | initPrimGeo => cases h; exact key ⟨rfl, rfl, rfl⟩
  | donePrimGeo =>
    cases h
    apply key
    unfold S57_donePrimGeo
    split <;> exact ⟨rfl, rfl, rfl⟩
  | setExt W S E N =>
    cases h
    exact ⟨fun _ => rfl, fun c => absurd c (by simp [GeoOp.isSetExt]), fun _ => rfl⟩
  | getExt =>
    cases h
    refine ⟨fun _ => ?_, fun _ => ?_, fun _ => ?_⟩
    · unfold S57_getExt; split <;> rfl
    · unfold S57_getExt
      split
      · rename_i hi
        exact Or.inr ⟨hi, rfl⟩
      · exact Or.inl rfl
    · unfold S57_getExt; split <;> rfl
  | setAtt name val =>
    cases h
    apply key
    unfold S57_setAtt
    split <;> exact ⟨rfl, rfl, rfl⟩
  | setTouch R t =>
    obtain ⟨⟨b, g2⟩, hr, e⟩ := Option.map_eq_some'.mp h
    cases e
    apply key
    cases R
    · unfold setTouch S57_setTouchTOPMAR at hr
      dsimp only at hr
      split at hr
      · exact absurd hr (by simp)
      · cases hr; exact ⟨rfl, rfl, rfl⟩
    all_goals (cases hr; exact ⟨rfl, rfl, rfl⟩)
  | setScamin v =>
    cases h
    exact ⟨fun _ => rfl, fun _ => Or.inl rfl, fun c => absurd c (by simp [GeoOp.isScamin])⟩
  | resetScamin m nan atof silent =>
    cases h
    refine ⟨fun _ => ?_, fun _ => Or.inl ?_, fun c => absurd c (by simp [GeoOp.isScamin])⟩
    · unfold S57_resetScamin; split <;> rfl
    · unfold S57_resetScamin; split <;> rfl
  | setRelationship r =>
    cases h
    apply key
    unfold S57_setRelationship
    split <;> exact ⟨rfl, rfl, rfl⟩
  | setNextPoly np =>
    obtain ⟨⟨g2, np1⟩, hr, e⟩ := Option.map_eq_some'.mp h
    cases e
    exact key (setNextPoly_sameHead g _ np np1 hr).1
  | asNextPoly other self =>
    obtain ⟨⟨g2, np1⟩, hr, e⟩ := Option.bind_eq_some.mp h
    exact key ((setNextPoly_sameHead other g2 _ np1 hr).2 self g g1 rfl e)
  | delNextPoly => cases h; exact key ⟨rfl, rfl, rfl⟩
  | setGeoSize size =>
    obtain ⟨⟨r, g2⟩, hr, e⟩ := Option.map_eq_some'.mp h
    cases e
    exact key (setGeoSize_sameHead g _ size r hr)
  | newCentroid => cases h; exact key (newCentroid_sameHead g)
  | addCentroid x y =>
    obtain ⟨⟨b, g2⟩, hr, e⟩ := Option.map_eq_some'.mp h
    cases e
    apply key
    unfold S57_addCentroid at hr
    split at hr
    · exact absurd hr (by simp)
    · cases hr; exact ⟨rfl, rfl, rfl⟩
  | getNextCent =>
    obtain ⟨⟨b, p, g2⟩, hr, e⟩ := Option.map_eq_some'.mp h
    cases e
    exact key (getNextCent_sameHead g _ b p hr)
  | hasCentroid =>
    obtain ⟨⟨b, g2⟩, hr, e⟩ := Option.map_eq_some'.mp h
    cases e
    exact key (hasCentroid_sameHead g _ b hr)
  | setEdgeOwner o => cases h; exact key ⟨rfl, rfl, rfl⟩
  | setHighlight hl => cases h; exact key ⟨rfl, rfl, rfl⟩
  | simplifyGEO => exact key (simplifyGEO_sameHead g g1 h)
  | geo2prj prj3dv =>
    obtain ⟨⟨b, g2⟩, hr, e⟩ := Option.map_eq_some'.mp h
    cases e
    exact key (geo2prjLoop_sameHead prj3dv _ _ _ _ _ hr)
  | markOverlapGeo Z e0 =>
    obtain ⟨⟨b, g2⟩, hr, e⟩ := Option.map_eq_some'.mp h
    cases e
    exact key (markOverlapGeo_sameHead Z g e0 _ b hr)
  | touch geoB =>
    obtain ⟨⟨b, g2, e2⟩, hr, e⟩ := Option.map_eq_some'.mp h
    cases e
    have e3 : g2 = g := (touch_same g geoB g2 e2 b hr).1
    subst e3
    exact key (sameHead_refl g2)

theorem construct_fields (c : CtorCall) (s : Nat) (g : _S57_geo) (id1 : Nat)
    (h : construct c s = (some g, id1)) :
    g.ext = unsetExt ∧ g.scamin = Dbl.posInf ∧ g.attribs = [] := by
  cases c with
  | META =>
    simp only [construct, S57_set_META, Prod.mk.injEq, Option.some.injEq] at h
    obtain ⟨h1, _⟩ := h
    subst h1
    exact ⟨rfl, rfl, rfl⟩
  | POINT xyz =>
    cases xyz with
    | none => simp [construct, S57_setPOINT] at h
    | some p =>
      simp only [construct, S57_setPOINT, Prod.mk.injEq, Option.some.injEq] at h
      obtain ⟨h1, _⟩ := h
      subst h1
      exact ⟨rfl, rfl, rfl⟩
  | LINES n xyz =>
    simp only [construct, S57_setLINES, Prod.mk.injEq, Option.some.injEq] at h
    obtain ⟨h1, _⟩ := h
    subst h1
    exact ⟨rfl, rfl, rfl⟩
  | AREAS n nbr xyz =>
    cases nbr with
    | none => simp [construct, S57_setAREAS] at h
    | some a =>
      cases xyz with
      | none => simp [construct, S57_setAREAS] at h
      | some b =>
        simp only [construct, S57_setAREAS, Prod.mk.injEq, Option.some.injEq] at h
        obtain ⟨h1, _⟩ := h
        subst h1
        exact ⟨rfl, rfl, rfl⟩

/-! ## The kind of a feature -/

/-- C21 (counterexample): the feature `S57_set_META()` returns is a Meta; after
`S57_setGeoLine` on it, `S57_getObjtype` returns Line. -/
theorem C21_setGeoLine_changes_kind :
    (S57_set_META 1).1.map (fun g => S57_getObjtype (some g))
      = some S57_Obj_t.S57__META_T ∧
    (S57_set_META 1).1.map
        (fun g => S57_getObjtype (some (S57_setGeoLine g 2 (some [⟨0, 0, 0⟩, ⟨1, 1, 0⟩]))))
      = some S57_Obj_t.S57_LINES_T := by
  constructor <;> rfl

/-- C21 (amended): for every feature and every sequence of calls of the writing
functions of the file that has no `S57_setGeoLine` in it (setters, links, centroid
store, `_simplifyGEO`, `S57_geo2prj`, `S57_markOverlapGeo`, `S57_touch`),
`S57_getObjtype` returns after the sequence what it returned before; `S57_setGeoLine`
makes it return Line, whatever the kind was. -/
theorem C21_kind_frame (ops : List GeoOp) (g g1 : _S57_geo)
    (hno : ops.all (fun op => !op.isSetGeoLine) = true) (h : runOps ops g = some g1) :
    S57_getObjtype (some g1) = S57_getObjtype (some g) ∧
    ∀ n xyz, S57_getObjtype (some (S57_setGeoLine g1 n xyz)) = S57_Obj_t.S57_LINES_T := by
  refine ⟨?_, fun _ _ => rfl⟩
  induction ops generalizing g with
  | nil =>
    simp only [runOps, Option.some.injEq] at h
    rw [h]
  | cons op ops ih =>
    simp only [List.all_cons, Bool.and_eq_true, Bool.not_eq_true'] at hno
    unfold runOps at h
    split at h
    · rename_i g2 h2
      have e1 := ih g2 hno.2 h
      have e2 := (applyOp_frame op g g2 h2).1 hno.1
      unfold S57_getObjtype at e1 ⊢
      dsimp only at e1 ⊢
      rw [e1, e2]
    · exact absurd h (by simp)

theorem C21_kind_frame_witness :
    S57_getObjtype (some { metaGeo with highlight := true, scamin := Dbl.posInf })
      = S57_getObjtype (some metaGeo) ∧
    ∀ n xyz, S57_getObjtype
      (some (S57_setGeoLine { metaGeo with highlight := true, scamin := Dbl.posInf } n xyz))
        = S57_Obj_t.S57_LINES_T :=
  C21_kind_frame [GeoOp.setHighlight true, GeoOp.setScamin Dbl.posInf] metaGeo
    { metaGeo with highlight := true, scamin := Dbl.posInf } rfl rfl

/-! ## Extent -/

theorem getExt_world (g : _S57_geo) (h : g.ext = unsetExt ∨ g.ext = worldExt) :
    (S57_getExt g).1 = worldExt ∧ (S57_getExt g).2.ext = worldExt := by
  have hi : isinf g.ext.W = true := by
    rcases h with h | h <;> rw [h] <;> rfl
  unfold S57_getExt
  rw [if_pos hi]
  exact ⟨rfl, rfl⟩

theorem runOps_unset (ops : List GeoOp) :
    ∀ (g g1 : _S57_geo), ops.all (fun op => !op.isSetExt) = true →
      (g.ext = unsetExt ∨ g.ext = worldExt) → runOps ops g = some g1 →
      (g1.ext = unsetExt ∨ g1.ext = worldExt) := by
  induction ops with
  | nil =>
    intro g g1 _ hg h
    simp only [runOps, Option.some.injEq] at h
    rw [← h]
    exact hg
  | cons op ops ih =>
    intro g g1 hno hg h
    simp only [List.all_cons, Bool.and_eq_true, Bool.not_eq_true'] at hno
    unfold runOps at h
    split at h
    · rename_i g2 h2
      apply ih g2 g1 hno.2 _ h
      rcases (applyOp_frame op g g2 h2).2.1 hno.1 with e | ⟨_, e⟩
      · rw [e]; exact hg
      · exact Or.inr e
    · exact absurd h (by simp)

/-- C22: for a feature returned by any of the four constructors, after any sequence of
calls of the other writing functions of the file that has no `S57_setExt` in it,
`S57_getExt` returns `(W,S,E,N) = (-inf,-inf,+inf,+inf)`, and a second `S57_getExt`
returns the same box. -/
theorem C22_unset_extent (c : CtorCall) (s id1 : Nat) (g g1 : _S57_geo) (ops : List GeoOp)
    (hc : construct c s = (some g, id1))
    (hno : ops.all (fun op => !op.isSetExt) = true) (h : runOps ops g = some g1) :
    (S57_getExt g1).1 = ⟨Dbl.negInf, Dbl.negInf, Dbl.posInf, Dbl.posInf⟩ ∧
    (S57_getExt (S57_getExt g1).2).1 = ⟨Dbl.negInf, Dbl.negInf, Dbl.posInf, Dbl.posInf⟩ := by
  have h1 := runOps_unset ops g g1 hno (Or.inl (construct_fields c s g id1 hc).1) h
  have h2 := getExt_world g1 h1
  have h3 := getExt_world (S57_getExt g1).2 (Or.inr h2.2)
  exact ⟨h2.1, h3.1⟩

theorem C22_unset_extent_witness :
    (S57_getExt { S57ID := 1, obj_t := S57_Obj_t.S57__META_T, ext := unsetExt,
                  scamin := Dbl.posInf, highlight := true }).1
      = ⟨Dbl.negInf, Dbl.negInf, Dbl.posInf, Dbl.posInf⟩ ∧
    (S57_getExt (S57_getExt { S57ID := 1, obj_t := S57_Obj_t.S57__META_T, ext := unsetExt,
                              scamin := Dbl.posInf, highlight := true }).2).1
      = ⟨Dbl.negInf, Dbl.negInf, Dbl.posInf, Dbl.posInf⟩ :=
  C22_unset_extent CtorCall.META 1 2
    { S57ID := 1, obj_t := S57_Obj_t.S57__META_T, ext := unsetExt, scamin := Dbl.posInf }
    { S57ID := 1, obj_t := S57_Obj_t.S57__META_T, ext := unsetExt, scamin := Dbl.posInf,
      highlight := true }
    [GeoOp.setHighlight true]
    (by simp [construct, S57_set_META, guintAdd, GUINT_MOD_eq]) rfl rfl

/-- C23 (counterexample): on the feature the first `S57_set_META()` returns,
`S57_setExt(geo, 10, 20, 5, 25)` returns `TRUE` and leaves the stored extent
`(10, 20, 5, 25)`, which has `W > E` and is not the unset sentinel. -/
theorem C23_setExt_stores_any :
    (S57_setExt newMeta (Dbl.fin 10) (Dbl.fin 20) (Dbl.fin 5) (Dbl.fin 25)).1 = true ∧
    (S57_setExt newMeta (Dbl.fin 10) (Dbl.fin 20) (Dbl.fin 5) (Dbl.fin 25)).2.ext
      = ⟨Dbl.fin 10, Dbl.fin 20, Dbl.fin 5, Dbl.fin 25⟩ ∧
    ¬ extOK (S57_setExt newMeta (Dbl.fin 10) (Dbl.fin 20) (Dbl.fin 5) (Dbl.fin 25)).2.ext := by
  refine ⟨rfl, rfl, ?_⟩
  unfold extOK S57_setExt
  dsimp only
  rintro (⟨h, _⟩ | h)
  · simp only [dblLe, decide_eq_true_eq] at h
    norm_num at h
  · simp [unsetExt] at h

/-- C23 (amended): `S57_setExt` stores the four values as given.  For a feature returned
by a constructor, after any sequence of calls of the writing functions of the file in
which every `S57_setExt` is given `W <= E` and `S <= N`, the stored extent satisfies
`W <= E` and `S <= N` or is the unset sentinel `(+inf,+inf,-inf,-inf)`. -/
theorem C23_extent_invariant (c : CtorCall) (s id1 : Nat) (g g1 : _S57_geo)
    (ops : List GeoOp) (hc : construct c s = (some g, id1))
    (hord : ∀ op ∈ ops, op.orderedExt) (h : runOps ops g = some g1) :
    extOK g1.ext ∧
    ∀ W S E N, (S57_setExt g1 W S E N).2.ext = ⟨W, S, E, N⟩ := by
  refine ⟨?_, fun _ _ _ _ => rfl⟩
  have hg : extOK g.ext := Or.inr (construct_fields c s g id1 hc).1
  clear hc
  induction ops generalizing g with
  | nil =>
    simp only [runOps, Option.some.injEq] at h
    rw [← h]
    exact hg
  | cons op ops ih =>
    unfold runOps at h
    split at h
    · rename_i g2 h2
      apply ih g2 (fun o ho => hord o (List.mem_cons_of_mem _ ho)) h
      have ho := hord op (List.mem_cons_self _ _)
      by_cases hs : op.isSetExt = true
      · cases op with
        | setExt W S E N =>
          cases h2
          exact Or.inl ho
        | _ => exact absurd hs (by simp [GeoOp.isSetExt])
      · rcases (applyOp_frame op g g2 h2).2.1 (by simpa using hs) with e | ⟨_, e⟩
        · rw [e]; exact hg
        · rw [e]; exact Or.inl ⟨rfl, rfl⟩
    · exact absurd h (by simp)

theorem C23_extent_invariant_witness :
    extOK ({ S57ID := 1, obj_t := S57_Obj_t.S57__META_T,
             ext := ⟨Dbl.fin 5, Dbl.fin 20, Dbl.fin 10, Dbl.fin 25⟩,
             scamin := Dbl.posInf } : _S57_geo).ext ∧
    ∀ W S E N,
      (S57_setExt ({ S57ID := 1, obj_t := S57_Obj_t.S57__META_T,
                     ext := ⟨Dbl.fin 5, Dbl.fin 20, Dbl.fin 10, Dbl.fin 25⟩,
                     scamin := Dbl.posInf } : _S57_geo) W S E N).2.ext = ⟨W, S, E, N⟩ :=
  C23_extent_invariant CtorCall.META 1 2
    { S57ID := 1, obj_t := S57_Obj_t.S57__META_T, ext := unsetExt, scamin := Dbl.posInf }
    { S57ID := 1, obj_t := S57_Obj_t.S57__META_T,
      ext := ⟨Dbl.fin 5, Dbl.fin 20, Dbl.fin 10, Dbl.fin 25⟩, scamin := Dbl.posInf }
    [GeoOp.setExt (Dbl.fin 5) (Dbl.fin 20) (Dbl.fin 10) (Dbl.fin 25)]
    (by simp [construct, S57_set_META, guintAdd, GUINT_MOD_eq])
    (by
      intro op hop
      simp only [List.mem_singleton] at hop
      subst hop
      simp only [GeoOp.orderedExt, dblLe, decide_eq_true_eq]
      norm_num)
    rfl

/-! ## Name -/

theorem setNameLen_eq (name : String) (h : name.length < 2147483648) :
    setNameLen name = ((min 13 name.length : Nat) : Int) := by
  unfold setNameLen S57_GEO_NM_LN
  have e : toInt32 (guint name.length) = (name.length : Int) := by
    unfold guint
    rw [GUINT_MOD_eq]
    have e1 : name.length % 4294967296 = name.length := by omega
    rw [e1]
    exact toInt32_small _ h
  rw [e]
  split <;> omega

/-- C24: for every feature and every string `name` (shorter than `2^31`, so that
`int len = strlen(name)` is its length), `S57_setName` returns `TRUE` and the string
`S57_getName` returns afterwards is the first `min(13, length(name))` characters of
`name`: it has at most 13 characters and is `name` when `name` has at most 13. -/
theorem C24_name_cap (geo : _S57_geo) (name : String) (h : name.length < 2147483648) :
    ∃ g1, S57_setName geo name = some (true, g1) ∧
      S57_getName g1 = String.mk (name.toList.take (min 13 name.length)) ∧
      (S57_getName g1).length ≤ 13 ∧
      (name.length ≤ 13 → S57_getName g1 = name) := by
  have hl := setNameLen_eq name h
  have hnn : ¬ setNameLen name < 0 := by rw [hl]; omega
  have hn : (setNameLen name).toNat = min 13 name.length := by rw [hl]; omega
  refine ⟨{ geo with name := String.mk (name.toList.take (min 13 name.length)) }, ?_, rfl, ?_, ?_⟩
  · unfold S57_setName
    rw [if_neg hnn, hn]
  · unfold S57_getName
    simp only [String.length_mk, List.length_take]
    omega
  · intro h13
    unfold S57_getName
    dsimp only
    have e0 : name.toList.length = name.length := rfl
    have e : min 13 name.length = name.toList.length := by omega
    rw [e, List.take_length]
    rfl

theorem C24_name_cap_witness :
    ∃ g1, S57_setName metaGeo "ConnectedNodeXYZ" = some (true, g1) ∧
      S57_getName g1
        = String.mk ("ConnectedNodeXYZ".toList.take (min 13 "ConnectedNodeXYZ".length)) ∧
      (S57_getName g1).length ≤ 13 ∧
      ("ConnectedNodeXYZ".length ≤ 13 → S57_getName g1 = "ConnectedNodeXYZ") :=
  C24_name_cap metaGeo "ConnectedNodeXYZ" (by decide)

/-! ## scamin -/

theorem runOps_scamin (ops : List GeoOp) :
    ∀ (g g1 : _S57_geo), ops.all (fun op => !op.isScamin) = true →
      runOps ops g = some g1 → g1.scamin = g.scamin := by
  induction ops with
  | nil =>
    intro g g1 _ h
    simp only [runOps, Option.some.injEq] at h
    rw [h]
  | cons op ops ih =>
    intro g g1 hno h
    simp only [List.all_cons, Bool.and_eq_true, Bool.not_eq_true'] at hno
    unfold runOps at h
    split at h
    · rename_i g2 h2
      rw [ih g2 g1 hno.2 h, (applyOp_frame op g g2 h2).2.2 hno.1]
    · exact absurd h (by simp)

theorem resetScamin_absent (M : String) (FP_NAN : Int) (atof : String → Dbl) (silent : Bool)
    (g : _S57_geo) (h : g_datalist_id_get_data g.attribs "SCAMIN" = none) :
    S57_resetScamin M FP_NAN atof silent g
      = (Dbl.fin FP_NAN, { g with scamin := Dbl.fin FP_NAN }, silent) := by
  unfold S57_resetScamin S57_getAttVal
  rw [h]
  rfl

/-- C25 (counterexample): the feature `S57_set_META()` returns has no attribute and
`S57_getScamin` returns `+inf` on it, while `S57_resetScamin` stores and returns
`UNKNOWN`, that is `FP_NAN` converted to `double`, a finite value: the two differ
whatever the value of the constant `FP_NAN` is. -/
theorem C25_default_is_not_unknown :
    ∃ g, (S57_set_META 1).1 = some g ∧ g.attribs = [] ∧ S57_getScamin g = Dbl.posInf ∧
      ∀ (M : String) (FP_NAN : Int) (atof : String → Dbl) (silent : Bool),
        (S57_resetScamin M FP_NAN atof silent g).1 = Dbl.fin FP_NAN ∧
        (S57_resetScamin M FP_NAN atof silent g).1 ≠ S57_getScamin g := by
  refine ⟨newMeta, rfl, rfl, rfl, ?_⟩
  intro M FP_NAN atof silent
  rw [resetScamin_absent M FP_NAN atof silent newMeta rfl]
  refine ⟨rfl, ?_⟩
  intro h
  cases h

/-- C25 (amended): for a feature returned by any of the four constructors, after any
sequence of calls of the writing functions of the file without `S57_setScamin` and
`S57_resetScamin`, `S57_getScamin` returns `+inf` (`INFINITY`).  `S57_resetScamin` on a
feature without `SCAMIN` attribute stores and returns `UNKNOWN`, the integer constant
`FP_NAN` converted to `double`, which is not `+inf`. -/
theorem C25_scamin_default (c : CtorCall) (s id1 : Nat) (g g1 : _S57_geo) (ops : List GeoOp)
    (hc : construct c s = (some g, id1))
    (hno : ops.all (fun op => !op.isScamin) = true) (h : runOps ops g = some g1) :
    S57_getScamin g1 = Dbl.posInf ∧
    ∀ (M : String) (FP_NAN : Int) (atof : String → Dbl) (silent : Bool),
      g_datalist_id_get_data g1.attribs "SCAMIN" = none →
      (S57_resetScamin M FP_NAN atof silent g1).1 = UNKNOWN FP_NAN ∧
      S57_getScamin (S57_resetScamin M FP_NAN atof silent g1).2.1 = UNKNOWN FP_NAN ∧
      UNKNOWN FP_NAN = Dbl.fin FP_NAN ∧ UNKNOWN FP_NAN ≠ Dbl.posInf := by
  constructor
  · unfold S57_getScamin
    rw [runOps_scamin ops g g1 hno h]
    exact (construct_fields c s g id1 hc).2.1
  · intro M FP_NAN atof silent ha
    rw [resetScamin_absent M FP_NAN atof silent g1 ha]
    refine ⟨rfl, rfl, rfl, ?_⟩
    intro e
    cases e

theorem C25_scamin_default_witness :
    S57_getScamin newMetaHighlighted = Dbl.posInf ∧
    ∀ (M : String) (FP_NAN : Int) (atof : String → Dbl) (silent : Bool),
      g_datalist_id_get_data newMetaHighlighted.attribs "SCAMIN" = none →
      (S57_resetScamin M FP_NAN atof silent newMetaHighlighted).1 = UNKNOWN FP_NAN ∧
      S57_getScamin (S57_resetScamin M FP_NAN atof silent newMetaHighlighted).2.1
        = UNKNOWN FP_NAN ∧
      UNKNOWN FP_NAN = Dbl.fin FP_NAN ∧ UNKNOWN FP_NAN ≠ Dbl.posInf :=
  C25_scamin_default CtorCall.META 1 2 newMeta newMetaHighlighted [GeoOp.setHighlight true]
    (by simp [construct, S57_set_META, guintAdd, GUINT_MOD_eq, newMeta]) rfl rfl

/-! ## Attribute values -/

theorem datalist_get_set (l : List (String × String)) (q v : String) :
    g_datalist_id_get_data (g_datalist_id_set_data_full l q v) q = some v := by
  have hmap : ∀ l : List (String × String), l.any (fun e => e.1 == q) = true →
      (l.map (fun e => if e.1 = q then (q, v) else e)).find? (fun e => e.1 == q)
        = some (q, v) := by
    intro l
    induction l with
    | nil => intro h; simp at h
    | cons e t ih =>
      intro h
      by_cases he : e.1 = q
      · simp [he]
      · have ht : t.any (fun e => e.1 == q) = true := by
          simpa [he] using h
        simp only [List.map_cons, if_neg he]
        rw [List.find?_cons_of_neg _ (by simpa using he)]
        exact ih ht
  have happ : ∀ l : List (String × String), ¬ l.any (fun e => e.1 == q) = true →
      (l ++ [(q, v)]).find? (fun e => e.1 == q) = some (q, v) := by
    intro l
    induction l with
    | nil => intro _; simp
    | cons e t ih =>
      intro h
      have he : ¬ e.1 = q := by
        intro c
        apply h
        simp [c]
      have ht : ¬ t.any (fun e => e.1 == q) = true := by
        intro c
        apply h
        simp only [List.any_cons, Bool.or_eq_true]
        exact Or.inr c
      rw [List.cons_append, List.find?_cons_of_neg _ (by simpa using he)]
      exact ih ht
  unfold g_datalist_id_get_data g_datalist_id_set_data_full
  by_cases h : l.any (fun e => e.1 == q) = true
  · rw [if_pos h, hmap l h]
  · rw [if_neg h, happ l h]

theorem setAtt_attribs (g : _S57_geo) (name val : String) :
    (S57_setAtt g name val).attribs = g_datalist_id_set_data_full g.attribs name val := by
  unfold S57_setAtt
  split <;> rfl

/-- C26: for every feature, attribute name and value of the static `silent`: when the
value stored under the name is `EMPTY_NUMBER_MARKER` (in particular after
`S57_setAtt(geo, name, EMPTY_NUMBER_MARKER)`), `S57_getAttVal` returns `NULL` and
leaves `silent` as it is, exactly as it does when nothing is stored under the name. -/
theorem C26_marker_absent (EMPTY_NUMBER_MARKER : String) (silent : Bool) (geo : _S57_geo)
    (name : String) :
    (g_datalist_id_get_data geo.attribs name = some EMPTY_NUMBER_MARKER →
      S57_getAttVal EMPTY_NUMBER_MARKER silent geo name = (none, silent)) ∧
    (g_datalist_id_get_data geo.attribs name = none →
      S57_getAttVal EMPTY_NUMBER_MARKER silent geo name = (none, silent)) ∧
    S57_getAttVal EMPTY_NUMBER_MARKER silent (S57_setAtt geo name EMPTY_NUMBER_MARKER) name
      = (none, silent) := by
  have h1 : ∀ g : _S57_geo, g_datalist_id_get_data g.attribs name = some EMPTY_NUMBER_MARKER →
      S57_getAttVal EMPTY_NUMBER_MARKER silent g name = (none, silent) := by
    intro g h
    unfold S57_getAttVal
    rw [h]
    dsimp only
    rw [if_pos rfl]
  refine ⟨h1 geo, ?_, ?_⟩
  · intro h
    unfold S57_getAttVal
    rw [h]
  · apply h1
    rw [setAtt_attribs, datalist_get_set]

theorem C26_marker_absent_witness :
    S57_getAttVal "2147483641" false (S57_setAtt metaGeo "DRVAL1" "2147483641") "DRVAL1"
        = (none, false) ∧
    S57_getAttVal "2147483641" false metaGeo "DRVAL1" = (none, false) :=
  ⟨(C26_marker_absent "2147483641" false metaGeo "DRVAL1").2.2,
   (C26_marker_absent "2147483641" false metaGeo "DRVAL1").2.1 rfl⟩

/-- C27: with an attribute whose stored value is the empty string (and an
`EMPTY_NUMBER_MARKER` that is not the empty string), the first `S57_getAttVal` of the
process (`silent == FALSE`) returns `NULL` and sets `silent`; the same call on the same
feature made afterwards (`silent == TRUE`) returns the stored empty string.  The
result depends on the static `silent`, not only on the attribute map and the name. -/
theorem C27_result_depends_on_silent (EMPTY_NUMBER_MARKER : String)
    (hM : EMPTY_NUMBER_MARKER ≠ "") (geo : _S57_geo) (name : String) :
    S57_getAttVal EMPTY_NUMBER_MARKER false (S57_setAtt geo name "") name = (none, true) ∧
    S57_getAttVal EMPTY_NUMBER_MARKER true (S57_setAtt geo name "") name = (some "", true) := by
  have hg : g_datalist_id_get_data (S57_setAtt geo name "").attribs name = some "" := by
    rw [setAtt_attribs, datalist_get_set]
  unfold S57_getAttVal
  rw [hg]
  dsimp only
  have hn : ¬ (true = false ∧ "".length = 0) := fun c => absurd c.1 (by decide)
  constructor
  · rw [if_neg (Ne.symm hM), if_pos ⟨rfl, rfl⟩]
  · rw [if_neg (Ne.symm hM), if_neg hn]

theorem C27_result_depends_on_silent_witness :
    S57_getAttVal "2147483641" false (S57_setAtt metaGeo "OBJNAM" "") "OBJNAM" = (none, true) ∧
    S57_getAttVal "2147483641" true (S57_setAtt metaGeo "OBJNAM" "") "OBJNAM"
      = (some "", true) :=
  C27_result_depends_on_silent "2147483641" (by decide) metaGeo "OBJNAM"

/-! ## Projection engine -/

/-- C28: after an `S57_setMercPrj(lat, lon)` that returned `TRUE`, every
`S57_setMercPrj(lat2, lon2)` returns `FALSE` and leaves all statics (projection string
and destination frame included) as they are, so that this also holds for every later
call; after `S57_donePROJ` the string `S57_getPrjStr` returns is `NULL`, and
`S57_setMercPrj(lat3, lon3)` passes the guard again: it stores the new projection
string and returns `TRUE` when the library accepts it. -/
theorem C28_set_once (g_strdup_printf : String → ℚ → ℚ → String)
    (pj_init_plus : String → Option projPJ) (st st1 : PrjState) (lat lon : ℚ)
    (h : S57_setMercPrj g_strdup_printf pj_init_plus st lat lon = (true, st1)) :
    (S57_getPrjStr st1 = some (g_strdup_printf templ lat lon) ∧
      st1._pjdst = pj_init_plus (g_strdup_printf templ lat lon) ∧ st1._pjdst ≠ none) ∧
    (∀ lat2 lon2, S57_setMercPrj g_strdup_printf pj_init_plus st1 lat2 lon2 = (false, st1)) ∧
    (S57_donePROJ st1).1 = true ∧
    S57_getPrjStr (S57_donePROJ st1).2 = none ∧
    (∀ lat3 lon3,
      S57_getPrjStr (S57_setMercPrj g_strdup_printf pj_init_plus (S57_donePROJ st1).2
          lat3 lon3).2 = some (g_strdup_printf templ lat3 lon3) ∧
      ((S57_setMercPrj g_strdup_printf pj_init_plus (S57_donePROJ st1).2 lat3 lon3).1 = true ↔
        pj_init_plus (g_strdup_printf templ lat3 lon3) ≠ none)) := by
  have hs : S57_getPrjStr st1 = some (g_strdup_printf templ lat lon) ∧
      st1._pjdst = pj_init_plus (g_strdup_printf templ lat lon) ∧ st1._pjdst ≠ none := by
    unfold S57_setMercPrj at h
    split at h
    · exact absurd (congrArg Prod.fst h) (by simp)
    · split at h
      · exact absurd (congrArg Prod.fst h) (by simp)
      · rename_i d hd
        cases h
        exact ⟨rfl, hd.symm, by simp⟩
  refine ⟨hs, ?_, rfl, rfl, ?_⟩
  · intro lat2 lon2
    have e : st1._pjstr = some (g_strdup_printf templ lat lon) := hs.1
    unfold S57_setMercPrj
    rw [e]
  · intro lat3 lon3
    unfold S57_setMercPrj S57_donePROJ S57_getPrjStr
    dsimp only
    cases hp : pj_init_plus (g_strdup_printf templ lat3 lon3) with
    | none => exact ⟨rfl, by simp⟩
    | some d => exact ⟨rfl, by simp⟩

theorem C28_set_once_witness :
    (S57_getPrjStr ({ _pjstr := some templ, _pjdst := some 1 } : PrjState) = some templ ∧
      ({ _pjstr := some templ, _pjdst := some 1 } : PrjState)._pjdst = some 1 ∧
      ({ _pjstr := some templ, _pjdst := some 1 } : PrjState)._pjdst ≠ none) ∧
    (∀ lat2 lon2, S57_setMercPrj (fun t _ _ => t) (fun _ => some 1)
        { _pjstr := some templ, _pjdst := some 1 } lat2 lon2
          = (false, { _pjstr := some templ, _pjdst := some 1 })) ∧
    (S57_donePROJ { _pjstr := some templ, _pjdst := some 1 }).1 = true ∧
    S57_getPrjStr (S57_donePROJ { _pjstr := some templ, _pjdst := some 1 }).2 = none ∧
    (∀ lat3 lon3,
      S57_getPrjStr (S57_setMercPrj (fun t _ _ => t) (fun _ => some 1)
          (S57_donePROJ { _pjstr := some templ, _pjdst := some 1 }).2 lat3 lon3).2
            = some templ ∧
      ((S57_setMercPrj (fun t _ _ => t) (fun _ => some 1)
          (S57_donePROJ { _pjstr := some templ, _pjdst := some 1 }).2 lat3 lon3).1 = true ↔
        (some 1 : Option projPJ) ≠ none)) :=
  C28_set_once (fun t _ _ => t) (fun _ => some 1) {} { _pjstr := some templ, _pjdst := some 1 }
    45 (-73) rfl

theorem initIfNeeded_pjdst (pj_init_plus : String → Option projPJ) (st : PrjState)
    (h : st._pjdst = none) : (initIfNeeded pj_init_plus st)._pjdst = none := by
  unfold initIfNeeded
  split
  · unfold _initPROJ
    split
    · exact h
    · split
      · rfl
      · exact h
  · exact h

/-- C29: when no destination frame is configured (`_pjdst == NULL`), for every buffer
and every `npt`, `S57_geo2prj3dv` returns `FALSE`, the buffer after the call is the
buffer before it (no coordinate was scaled or transformed), and the destination frame
is still not configured. -/
theorem C29_no_destination (DEG_TO_RAD : ℚ) (pj_init_plus : String → Option projPJ)
    (pj_transform : Option projPJ → projPJ → Nat → List pt3 → Int × List pt3)
    (st : PrjState) (npt : Nat) (data : List pt3) (h : st._pjdst = none) :
    ∃ st1, S57_geo2prj3dv DEG_TO_RAD pj_init_plus pj_transform st npt data
        = some (false, st1, data) ∧ st1._pjdst = none := by
  have e := initIfNeeded_pjdst pj_init_plus st h
  refine ⟨initIfNeeded pj_init_plus st, ?_, e⟩
  unfold S57_geo2prj3dv
  rw [e]

theorem C29_no_destination_witness :
    ∃ st1, S57_geo2prj3dv (1 / 57) (fun _ => some 1) (fun _ _ _ d => (0, d)) {} 2
        [⟨-73, 45, 0⟩, ⟨-74, 46, 0⟩] = some (false, st1, [⟨-73, 45, 0⟩, ⟨-74, 46, 0⟩]) ∧
      st1._pjdst = none :=
  C29_no_destination (1 / 57) (fun _ => some 1) (fun _ _ _ d => (0, d)) {} 2
    [⟨-73, 45, 0⟩, ⟨-74, 46, 0⟩] rfl

/-- What the file itself contributes to the projection round trip, in exact
arithmetic: with an initialised engine and a destination frame, if the library pair
`pj_transform` / `pj_inv` is an exact inverse pair on the scaled point, then
`S57_prj2geo` after `S57_geo2prj3dv` gives back longitude and latitude: the scaling by
`DEG_TO_RAD` before the transform and the division by it after the inverse cancel. -/
theorem geo2prj3dv_prj2geo_exact (DEG_TO_RAD : ℚ) (pj_init_plus : String → Option projPJ)
    (pj_transform : Option projPJ → projPJ → Nat → List pt3 → Int × List pt3)
    (pj_inv : projUV → projPJ → projUV × Int) (st : PrjState) (dst : projPJ) (P Q : pt3)
    (hD : DEG_TO_RAD ≠ 0) (hinit : st._doInit = false) (hdst : st._pjdst = some dst)
    (hfwd : pj_transform st._pjsrc dst 1
        [{ P with x := P.x * DEG_TO_RAD, y := P.y * DEG_TO_RAD }] = (0, [Q]))
    (hinv : pj_inv ⟨Q.x, Q.y⟩ dst = (⟨P.x * DEG_TO_RAD, P.y * DEG_TO_RAD⟩, 0)) :
    S57_geo2prj3dv DEG_TO_RAD pj_init_plus pj_transform st 1 [P] = some (true, st, [Q]) ∧
    S57_prj2geo DEG_TO_RAD pj_inv st ⟨Q.x, Q.y⟩ = ⟨P.x, P.y⟩ := by
  have hi : initIfNeeded pj_init_plus st = st := by
    unfold initIfNeeded
    rw [hinit]
    rfl
  constructor
  · unfold S57_geo2prj3dv
    rw [hi, hdst]
    simp only [deg2rad, hfwd]
    rfl
  · unfold S57_prj2geo
    rw [hinit, hdst]
    simp only [hinv]
    simp [hD]

/-! ## `_inLine` against the specified predicate -/

/-- C31: for `A = (0,0)`, `B = (3,1)`, `C = (2,2)` (slope of AC is 1, slope of BC is -1)
neither of the two axis-parallel cases applies, the two cross-multiplied slope
numerators are -2 and 2, the specified predicate is false (their difference is 4), and
`_inLine` returns `TRUE`: it compares the absolute values of the two numerators. -/
theorem C31_mirror_slope_in_line :
    _inLine ⟨0, 0, 0⟩ ⟨3, 1, 0⟩ ⟨2, 2, 0⟩ = true ∧
    inLineSpec ⟨0, 0, 0⟩ ⟨3, 1, 0⟩ ⟨2, 2, 0⟩ = false := by
  constructor
  · simp [_inLine, ABS, S57_GEO_TOLERANCE]
    norm_num
  · simp [inLineSpec, S57_GEO_TOLERANCE]
    norm_num

/-- Where `_inLine` and the specified predicate agree: whenever the two cross-multiplied
slope numerators do not have opposite signs (and always in the two axis-parallel
cases). -/
theorem inLine_eq_spec (A B C : pt3)
    (h : 0 ≤ ((A.y - C.y) * (B.x - C.x)) * ((B.y - C.y) * (A.x - C.x))) :
    _inLine A B C = inLineSpec A B C := by
  unfold _inLine inLineSpec
  simp only [ABS_eq_abs]
  have e : |(|(A.y - C.y) * (B.x - C.x)| - |(B.y - C.y) * (A.x - C.x)|)|
      = |(A.y - C.y) * (B.x - C.x) - (B.y - C.y) * (A.x - C.x)| := by
    generalize (A.y - C.y) * (B.x - C.x) = u at h ⊢
    generalize (B.y - C.y) * (A.x - C.x) = v at h ⊢
    rcases le_total 0 u with hu | hu
    · rcases le_total 0 v with hv | hv
      · rw [abs_of_nonneg hu, abs_of_nonneg hv]
      · rcases eq_or_lt_of_le hu with hu0 | hu0
        · subst hu0; simp
        · rcases eq_or_lt_of_le hv with hv0 | hv0
          · subst hv0; simp
          · exact absurd h (not_le.mpr (mul_neg_of_pos_of_neg hu0 hv0))
    · rcases le_total 0 v with hv | hv
      · rcases eq_or_lt_of_le hu with hu0 | hu0
        · subst hu0; simp
        · rcases eq_or_lt_of_le hv with hv0 | hv0
          · subst hv0; simp
          · exact absurd h (not_le.mpr (mul_neg_of_neg_of_pos hu0 hv0))
      · rw [abs_of_nonpos hu, abs_of_nonpos hv]
        have : -u - -v = -(u - v) := by ring
        rw [this, abs_neg]
  rw [e]

/-! ## Spikes -/

/-- C32: in the Line `A = (0,0)`, `B = (0,5)`, `C = (0,1)` (all at elevation 0) the vertex
`B` is a spike beyond `C`: it is outside the bounding box of `A` and `C` enlarged by
the tolerance.  `_delInLineSeg` removes it: the count becomes 2 and the retained
vertices are `A`, `C`. -/
theorem C32_spike_removed :
    _delInLineSeg 3 [⟨0, 0, 0⟩, ⟨0, 5, 0⟩, ⟨0, 1, 0⟩]
      = some (2, [⟨0, 0, 0⟩, ⟨0, 1, 0⟩, ⟨0, 1, 0⟩]) ∧
    _inLine ⟨0, 0, 0⟩ ⟨0, 5, 0⟩ ⟨0, 1, 0⟩ = true ∧
    ¬ inBox ⟨0, 0, 0⟩ ⟨0, 5, 0⟩ ⟨0, 1, 0⟩ := by
  refine ⟨?_, ?_, ?_⟩
  · simp [_delInLineSeg, delLoop, delBody, memmove, guintSub, guint, GUINT_MOD_eq, _inLine,
      ABS, S57_GEO_TOLERANCE]
  · simp [_inLine, ABS, S57_GEO_TOLERANCE]
  · unfold inBox S57_GEO_TOLERANCE
    intro h
    have h2 := h.2.2
    norm_num at h2

/-! ## Extent read-back -/

/-- C33: for every feature, every finite `W` and all `S`, `E`, `N` (ordered or not),
`S57_setExt` returns `TRUE`, and the `S57_getExt` that follows returns exactly
`(W, S, E, N)` and leaves the feature as `S57_setExt` left it, which is the original
feature with only its extent replaced: no other field changes. -/
theorem C33_extent_read_back (geo : _S57_geo) (w : ℚ) (S E N : Dbl) :
    (S57_setExt geo (Dbl.fin w) S E N).1 = true ∧
    (S57_setExt geo (Dbl.fin w) S E N).2 = { geo with ext := ⟨Dbl.fin w, S, E, N⟩ } ∧
    S57_getExt (S57_setExt geo (Dbl.fin w) S E N).2
      = (⟨Dbl.fin w, S, E, N⟩, { geo with ext := ⟨Dbl.fin w, S, E, N⟩ }) ∧
    (S57_getExt (S57_setExt newMeta (Dbl.fin 10) (Dbl.fin 20) (Dbl.fin 5) (Dbl.fin 25)).2).1
      = ⟨Dbl.fin 10, Dbl.fin 20, Dbl.fin 5, Dbl.fin 25⟩ := by
  refine ⟨rfl, rfl, rfl, rfl⟩

/-! ## Ring index equal to the ring count -/

/-- C35: an Area with one ring (`ringnbr = 1`, ring arrays of one element) queried with
`ringNo = 1`: the guard `geo->ringnbr < ringNo` does not reject the index, and
`ringxyznbr[1]` is read outside the array (the embedded function is undefined). -/
theorem C35_ring_count_index_read :
    square10Area.obj_t = S57_Obj_t.S57_AREAS_T ∧ square10Area.ringnbr = 1 ∧
    square10Area.ringxyznbr = some [4] ∧ square10Area.ringxyz = some [square10] ∧
    ¬ (square10Area.ringnbr < 1) ∧
    geoDataSwitch square10Area 1 = none ∧
    S57_getGeoData square10Area 1 = none := by
  refine ⟨rfl, rfl, rfl, rfl, by decide, rfl, rfl⟩

/-! ## Reads outside the buffers in the search of `S57_markOverlapGeo` -/

/-- C36: on the owner ring `(0,0) (1,0) (1,1) (0,1)` (`npt = 4`): with the one-vertex
edge `(0,0)` the search matches at `i = 0` and reads `pptEdge[3]`, the second vertex of
an edge that has one; with the edge `(0,1) (5,5)` it matches at `i = npt - 1` and reads
`ppt[(i+1)*3]`, owner vertex `npt`.  Both reads are outside the buffers (the embedded
function is undefined). -/
theorem C36_search_reads_outside :
    S57_getGeoData (edgeLine [⟨0, 0, 0⟩]) 0
      = some { ret := true, npt := 1, ppt := some [⟨0, 0, 0⟩] } ∧
    xyEq squareRing (guintMul (guintAdd 0 1) 3) [⟨0, 0, 0⟩] 3 = none ∧
    S57_markOverlapGeo 10000 squareArea (edgeLine [⟨0, 0, 0⟩]) = none ∧
    xyEq squareRing (guintMul (guintAdd 3 1) 3) [⟨0, 1, 0⟩, ⟨5, 5, 0⟩] 3 = none ∧
    S57_markOverlapGeo 10000 squareArea (edgeLine [⟨0, 1, 0⟩, ⟨5, 5, 0⟩]) = none := by
  have hname : ¬("" : String) = "M_COVR" := by decide
  refine ⟨by rfl, ?_, ?_, ?_, ?_⟩
  · simp [xyEq, dblAt, guintMul, guintAdd, GUINT_MOD_eq, squareRing]
  · simp [S57_markOverlapGeo, squareArea, squareRing, edgeLine, S57_getGeoData, geoDataSwitch,
      overlapSearch, overlapBody, overlapAhead, overlapBack, xyEq, dblAt, guintMul, guintAdd,
      guintSub, GUINT_MOD_eq, hname]
  · simp [xyEq, dblAt, guintMul, guintAdd, GUINT_MOD_eq, squareRing]
  · simp [S57_markOverlapGeo, squareArea, squareRing, edgeLine, S57_getGeoData, geoDataSwitch,
      overlapSearch, overlapBody, overlapAhead, overlapBack, xyEq, dblAt, guintMul, guintAdd,
      guintSub, GUINT_MOD_eq, hname]

/-! ## No division by zero in the crossing test -/

/-- C38: for every pair of vertices `(p1, p2)` and every point, hence for every edge
that either loop of `S57_isPtInside` visits, the crossing test evaluated in the order
of the source never divides by zero: when the quotient is evaluated `p2.y` differs from
`p1.y`, and the test yields the value `edgeCrosses` the loops use.  An edge with
`p1.y = p2.y` (horizontal or of length zero) never toggles the result. -/
theorem C38_no_division_by_zero (p1 p2 : pt3) (x y : ℚ) :
    ((decide (p1.y > y) != decide (p2.y > y)) = true → p2.y - p1.y ≠ 0) ∧
    crossTest p1 p2 x y = some (edgeCrosses p1 p2 x y) ∧
    (p1.y = p2.y → edgeCrosses p1 p2 x y = false ∧
      ∀ c, (if edgeCrosses p1 p2 x y = true then notInt c else c) = c) := by
  have hne : (decide (p1.y > y) != decide (p2.y > y)) = true → p2.y - p1.y ≠ 0 := by
    intro h e
    have e1 : p2.y = p1.y := sub_eq_zero.mp e
    rw [e1] at h
    simp at h
  have hh : p1.y = p2.y → edgeCrosses p1 p2 x y = false := by
    intro e
    unfold edgeCrosses
    rw [e]
    simp
  refine ⟨hne, ?_, ?_⟩
  · unfold crossTest edgeCrosses
    by_cases h : (decide (p1.y > y) != decide (p2.y > y)) = true
    · rw [if_pos h, if_neg (hne h), h]
      simp
    · rw [if_neg h]
      have h2 : (decide (p1.y > y) != decide (p2.y > y)) = false := by simpa using h
      rw [h2]
      simp
  · intro e
    refine ⟨hh e, fun c => ?_⟩
    rw [hh e]
    simp

theorem C38_no_division_by_zero_witness :
    crossTest ⟨0, 0, 0⟩ ⟨10, 0, 0⟩ 5 0 = some (edgeCrosses ⟨0, 0, 0⟩ ⟨10, 0, 0⟩ 5 0) ∧
    edgeCrosses ⟨0, 0, 0⟩ ⟨10, 0, 0⟩ 5 0 = false ∧
    ∀ c, (if edgeCrosses ⟨0, 0, 0⟩ ⟨10, 0, 0⟩ 5 0 = true then notInt c else c) = c :=
  ⟨(C38_no_division_by_zero ⟨0, 0, 0⟩ ⟨10, 0, 0⟩ 5 0).2.1,
   (C38_no_division_by_zero ⟨0, 0, 0⟩ ⟨10, 0, 0⟩ 5 0).2.2 rfl⟩

/-! ## Index safety of `_delInLineSeg` -/

/-- C34: on a buffer of exactly `npt >= 2` vertices (so that any access at an index
outside `[0, npt)` is outside the buffer and makes the embedded function undefined),
`_delInLineSeg` is defined: every `p[0]`, `p[1]`, `p[2]` it reads and both ranges of
every `memmove` lie in the buffer.  The count `j` it returns satisfies `2 <= j <= npt`
and the buffer keeps its `npt` slots.  Hence `_simplifyGEO` on a Line of `npt >= 2`
vertices leaves a Line of at least 2 vertices. -/
theorem C34_index_safe (npt : Nat) (ppt : List pt3) (h2 : 2 ≤ npt) (hlen : ppt.length = npt)
    (hnpt : npt < GUINT_MOD) :
    (∃ (j : Nat) (out : List pt3), _delInLineSeg npt ppt = some (j, out) ∧
      2 ≤ j ∧ j ≤ npt ∧ out.length = npt) ∧
    (∀ geo : _S57_geo, geo.obj_t = S57_Obj_t.S57_LINES_T → geo.linexyznbr = npt →
      geo.linexyz = some ppt →
      ∃ g1, _simplifyGEO geo = some g1 ∧ 2 ≤ g1.linexyznbr ∧ g1.linexyznbr ≤ npt) := by
  have hdel : ∃ (j : Nat) (out : List pt3), _delInLineSeg npt ppt = some (j, out) ∧
      2 ≤ j ∧ j ≤ npt ∧ out.length = npt := by
    obtain ⟨a, rem, out, hv, hol, hrun, _⟩ :=
      delInLineSeg_visible npt ppt h2 (by omega) hnpt
    have hvl : (visible npt ppt).length = npt := by simp [visible, hlen]
    rw [hv] at hvl
    simp only [List.length_cons] at hvl
    refine ⟨(compact a rem).length, out, hrun, ?_, ?_, by rw [hol, hlen]⟩
    · rcases compact_length_pos a rem with h | h
      · exact h
      · rw [h] at hvl
        simp at hvl
        omega
    · have := compact_length_le a rem
      omega
  refine ⟨hdel, ?_⟩
  intro geo ht hn hb
  by_cases h3 : 2 < geo.linexyznbr
  · obtain ⟨j, out, hrun, hj2, hjn, _⟩ := hdel
    refine ⟨{ geo with linexyznbr := j, linexyz := some out }, ?_, hj2, hjn⟩
    unfold _simplifyGEO simplifyLine
    rw [if_pos ht, if_pos h3, hb]
    dsimp only
    rw [hn, hrun]
    dsimp only
    exact simplifyArea_of_not_area _ (by simp [ht])
  · refine ⟨geo, ?_, by omega, by omega⟩
    unfold _simplifyGEO simplifyLine
    rw [if_pos ht, if_neg h3]
    dsimp only
    exact simplifyArea_of_not_area _ (by simp [ht])

theorem C34_index_safe_witness :
    (∃ (j : Nat) (out : List pt3),
      _delInLineSeg 3 [⟨0, 0, 0⟩, ⟨1, 1, 0⟩, ⟨2, 2, 0⟩] = some (j, out) ∧
      2 ≤ j ∧ j ≤ 3 ∧ out.length = 3) ∧
    (∀ geo : _S57_geo, geo.obj_t = S57_Obj_t.S57_LINES_T → geo.linexyznbr = 3 →
      geo.linexyz = some [⟨0, 0, 0⟩, ⟨1, 1, 0⟩, ⟨2, 2, 0⟩] →
      ∃ g1, _simplifyGEO geo = some g1 ∧ 2 ≤ g1.linexyznbr ∧ g1.linexyznbr ≤ 3) :=
  C34_index_safe 3 [⟨0, 0, 0⟩, ⟨1, 1, 0⟩, ⟨2, 2, 0⟩] (by decide) rfl
    (by rw [GUINT_MOD_eq]; decide)

/-! ## Invariant of the primitive holder -/

theorem primInv_fresh : primInv (S57_initPrim none) := by
  refine ⟨fun h => absurd rfl h, ?_, ?_⟩
  · intro d hd
    simp [S57_initPrim, g_array_new] at hd
  · simp [S57_initPrim, g_array_new]

theorem primInv_reset (p : _S57_prim) :
    (S57_initPrim (some p)).list.data = [] ∧ (S57_initPrim (some p)).vertex.data = [] ∧
    (S57_initPrim (some p)).DList = p.DList ∧ primInv (S57_initPrim (some p)) := by
  have h1 : (S57_initPrim (some p)).list.data = [] := by
    simp [S57_initPrim, g_array_set_size]
  have h2 : (S57_initPrim (some p)).vertex.data = [] := by
    simp [S57_initPrim, g_array_set_size]
  refine ⟨h1, h2, rfl, fun h => absurd h1 h, ?_, ?_⟩
  · intro d hd
    rw [h1] at hd
    simp at hd
  · rw [h1]
    exact List.Pairwise.nil

theorem primInv_beg (p : _S57_prim) (m : Int) (h : primInv p) (hL : p.vertex.len < 2147483648) :
    primInv (S57_begPrim p m) ∧ (S57_begPrim p m).vertex.len = p.vertex.len := by
  obtain ⟨_, hb, hp⟩ := h
  have hd : (S57_begPrim p m).list.data = p.list.data ++ [⟨m, (p.vertex.len : Int), none⟩] := by
    simp [S57_begPrim, g_array_append_val, toInt32_small p.vertex.len hL]
  have hv : (S57_begPrim p m).vertex = p.vertex := rfl
  refine ⟨⟨fun _ => rfl, ?_, ?_⟩, by rw [hv]⟩
  · intro d hdm
    rw [hd, List.mem_append, List.mem_singleton] at hdm
    rw [hv]
    rcases hdm with hdm | hdm
    · exact hb d hdm
    · subst hdm
      dsimp only
      refine ⟨by omega, le_refl _, fun c hc => ?_⟩
      simp at hc
  · rw [hd, List.pairwise_append]
    refine ⟨hp, List.pairwise_singleton _ _, fun a ha b hbm => ?_⟩
    rw [List.mem_singleton] at hbm
    subst hbm
    exact (hb a ha).2.1

theorem primInv_add (p : _S57_prim) (v : pt3) (h : primInv p) :
    primInv (S57_addPrimVertex p v) ∧
    (S57_addPrimVertex p v).vertex.len = p.vertex.len + 1 := by
  obtain ⟨ha, hb, hp⟩ := h
  have hl : (S57_addPrimVertex p v).list = p.list := rfl
  have hv : (S57_addPrimVertex p v).vertex.len = p.vertex.len + 1 := by
    simp [S57_addPrimVertex, g_array_append_val, GArray.len]
  refine ⟨⟨by rw [hl]; exact ha, ?_, by rw [hl]; exact hp⟩, hv⟩
  intro d hd
  rw [hl] at hd
  obtain ⟨h1, h2, h3⟩ := hb d hd
  rw [hv]
  refine ⟨h1, by push_cast; omega, fun c hc => ?_⟩
  obtain ⟨h4, h5⟩ := h3 c hc
  exact ⟨h4, by push_cast; omega⟩

theorem primInv_end (p : _S57_prim) (h : primInv p) (hne : p.list.len ≠ 0)
    (hL : p.vertex.len < 2147483648) :
    ∃ p1, S57_endPrim p = some (true, p1) ∧ primInv p1 ∧ p1.vertex.len = p.vertex.len := by
  obtain ⟨ha, hb, hp⟩ := h
  have hnil : p.list.data ≠ [] := by
    intro e
    apply hne
    simp [GArray.len, e]
  obtain ⟨pre, d, hd⟩ : ∃ pre d, p.list.data = pre ++ [d] :=
    ⟨p.list.data.dropLast, p.list.data.getLast hnil,
      (List.dropLast_append_getLast hnil).symm⟩
  have hdm : d ∈ p.list.data := by rw [hd]; simp
  obtain ⟨hf0, hfL, _⟩ := hb d hdm
  have hc : toInt32 (guintSub p.vertex.len (ofInt32 d.first))
      = (p.vertex.len : Int) - d.first := by
    obtain ⟨F, hF⟩ : ∃ F : Nat, d.first = (F : Int) := ⟨d.first.toNat, by omega⟩
    rw [hF] at hfL ⊢
    have hFle : F ≤ p.vertex.len := by omega
    rw [ofInt32_natCast F (by omega), guintSub_eq _ _ hFle, toInt32_small _ (by omega)]
    omega
  have hrun := endPrim_last p pre d hd (ha hnil)
  rw [hc] at hrun
  refine ⟨_, hrun, ⟨fun _ => ha hnil, ?_, ?_⟩, rfl⟩
  · intro e he
    dsimp only at he ⊢
    rw [List.mem_append, List.mem_singleton] at he
    rcases he with he | he
    · exact hb e (by rw [hd]; exact List.mem_append_left _ he)
    · subst he
      dsimp only
      refine ⟨hf0, hfL, fun c hcc => ?_⟩
      simp only [Option.some.injEq] at hcc
      subst hcc
      omega
  · dsimp only
    rw [hd, List.pairwise_append] at hp
    rw [List.pairwise_append]
    refine ⟨hp.1, List.pairwise_singleton _ _, fun a ha1 b hb1 => ?_⟩
    rw [List.mem_singleton] at hb1
    subst hb1
    exact hp.2.2 a ha1 d (List.mem_singleton.mpr rfl)

theorem runPrimOps_inv :
    ∀ (ops : List PrimOp) (p : _S57_prim), primInv p →
      p.vertex.len + ops.length < 2147483648 → endsOnNonEmpty ops p →
      ∃ p1, runPrimOps ops p = some p1 ∧ primInv p1 := by
  intro ops
  induction ops with
  | nil => intro p h _ _; exact ⟨p, rfl, h⟩
  | cons op ops ih =>
    intro p h hL hv
    simp only [List.length_cons] at hL
    obtain ⟨hv1, hv2⟩ := hv
    cases op with
    | begPrim m =>
      obtain ⟨hi, hl⟩ := primInv_beg p m h (by omega)
      obtain ⟨p1, h1, h2⟩ := ih (S57_begPrim p m) hi (by rw [hl]; omega) hv2
      exact ⟨p1, h1, h2⟩
    | addPrimVertex v =>
      obtain ⟨hi, hl⟩ := primInv_add p v h
      obtain ⟨p1, h1, h2⟩ := ih (S57_addPrimVertex p v) hi (by rw [hl]; omega) hv2
      exact ⟨p1, h1, h2⟩
    | endPrim =>
      obtain ⟨q, hq, hi, hl⟩ := primInv_end p h (hv1 rfl) (by omega)
      have ha : applyPrimOp PrimOp.endPrim p = some q := by
        simp [applyPrimOp, hq]
      rw [ha] at hv2
      obtain ⟨p1, h1, h2⟩ := ih q hi (by rw [hl]; omega) hv2
      refine ⟨p1, ?_, h2⟩
      unfold runPrimOps
      rw [ha]
      exact h1
    | initPrim =>
      obtain ⟨_, hvd, _, hi⟩ := primInv_reset p
      have hl : (S57_initPrim (some p)).vertex.len = 0 := by
        simp [GArray.len, hvd]
      obtain ⟨p1, h1, h2⟩ := ih (S57_initPrim (some p)) hi (by rw [hl]; omega) hv2
      exact ⟨p1, h1, h2⟩

theorem endsOnNonEmpty_take :
    ∀ (ops : List PrimOp) (k : Nat) (p : _S57_prim), endsOnNonEmpty ops p →
      endsOnNonEmpty (ops.take k) p := by
  intro ops
  induction ops with
  | nil => intro k p h; simpa using h
  | cons op ops ih =>
    intro k p h
    cases k with
    | zero => simp [endsOnNonEmpty]
    | succ k =>
      obtain ⟨h1, h2⟩ := h
      refine ⟨h1, ?_⟩
      cases ha : applyPrimOp op p with
      | none => trivial
      | some q =>
        rw [ha] at h2
        exact ih k q h2

/-- C37: take a fresh holder and any sequence of fewer than `2^31` calls of
`S57_begPrim`, `S57_addPrimVertex`, `S57_endPrim` and the reset `S57_initPrim(prim)` in
which every `S57_endPrim` is issued while the descriptor list is not empty.  After
every step (every prefix of the sequence) the calls made so far have returned and every
descriptor has `0 <= first <= vertex->len`, the `first` values are non-decreasing in
list order, and every descriptor whose `count` was assigned by `S57_endPrim` has
`count >= 0` and `first + count <= vertex->len`.  The reset leaves both lists empty and
`DList` as it is. -/
theorem C37_prim_invariant (ops : List PrimOp) (hlen : ops.length < 2147483648)
    (hv : endsOnNonEmpty ops (S57_initPrim none)) :
    (∀ k, ∃ p, runPrimOps (ops.take k) (S57_initPrim none) = some p ∧
      (∀ d ∈ p.list.data, 0 ≤ d.first ∧ d.first ≤ (p.vertex.len : Int) ∧
        ∀ c, d.count = some c → 0 ≤ c ∧ d.first + c ≤ (p.vertex.len : Int)) ∧
      List.Pairwise (fun a b : _prim => a.first ≤ b.first) p.list.data) ∧
    (∀ p : _S57_prim, (S57_initPrim (some p)).list.data = [] ∧
      (S57_initPrim (some p)).vertex.data = [] ∧ (S57_initPrim (some p)).DList = p.DList) := by
  constructor
  · intro k
    have hl0 : (S57_initPrim none).vertex.len = 0 := by
      simp [S57_initPrim, g_array_new, GArray.len]
    obtain ⟨p, h1, h2⟩ := runPrimOps_inv (ops.take k) (S57_initPrim none) primInv_fresh
      (by
        rw [hl0, List.length_take]
        omega)
      (endsOnNonEmpty_take ops k _ hv)
    exact ⟨p, h1, h2.2⟩
  · intro p
    obtain ⟨h1, h2, h3, _⟩ := primInv_reset p
    exact ⟨h1, h2, h3⟩

theorem C37_prim_invariant_witness :
    (∀ k, ∃ p, runPrimOps (primOpsExample.take k) (S57_initPrim none) = some p ∧
      (∀ d ∈ p.list.data, 0 ≤ d.first ∧ d.first ≤ (p.vertex.len : Int) ∧
        ∀ c, d.count = some c → 0 ≤ c ∧ d.first + c ≤ (p.vertex.len : Int)) ∧
      List.Pairwise (fun a b : _prim => a.first ≤ b.first) p.list.data) ∧
    (∀ p : _S57_prim, (S57_initPrim (some p)).list.data = [] ∧
      (S57_initPrim (some p)).vertex.data = [] ∧ (S57_initPrim (some p)).DList = p.DList) :=
  C37_prim_invariant primOpsExample (by decide)
    (by
      simp [primOpsExample, endsOnNonEmpty, applyPrimOp, S57_initPrim, S57_begPrim,
        S57_addPrimVertex, S57_endPrim, g_array_new, g_array_append_val, g_array_set_size,
        GArray.len, elemPtrIsNull, guintSub, toInt32, ofInt32, GUINT_MOD_eq])

end S57
